import Mathlib

/-!
# Verification development for the `8_3` compute engine and the `6_1` ticket office

Shallow embedding of the OpenCL kernels and of their host drivers
(`MatrixMultiplier`, `GaussianFilter`, `MedianFilter`, `MotionBlurFilter`,
`RadialBlurFilter`, `OpenCLUtils`) and of the lock-free `TicketOffice`.

Modelling conventions.

* `std::vector<T>` and device buffers are `List T`; `v[i]` read is `List.getD v i d`,
  `v[i] = x` is `List.set`.  Every index the kernels compute is shown to be in range
  where that matters.
* `int` dimensions that the driver validates to be positive are `Nat`; `int` values that
  can be negative (offsets, radii) are `Int`.  Signed overflow is undefined in the source
  and is not modelled.
* `float` is an abstract scalar type.  The matrix code is generic in a type with `+`, `*`
  and `0`; the order of the floating point operations is kept exactly as in the source
  and every algebraic law a proof relies on is an explicit hypothesis.  Where the code
  compares, divides or rounds (`RunBenchmark`, the Gaussian, motion blur and radial blur
  filters) the scalars are exact rationals, and `std::exp` and `sqrt` are parameters.
  The averaging kernels of the motion blur and radial blur filters are given a second
  time with every `float` operation rounded to binary32, round to nearest even, one
  operation at a time in source order (`roundBinary32`, namespaces `Binary32`): what
  depends on the size of the accumulated sum is stated on these.  Infinities, NaN and
  subnormal numbers are not modelled.
* In the filters and the multiplier, OpenCL API calls are taken to succeed; the only
  exception modelled there is the one thrown by a `std::vector` constructor given a
  negative size.  `CheckCLError`, `CreateProgramWithSource` and `InitializeOpenCl` are
  modelled with their failures: an `Outcome` records the lines written to `std::cerr`,
  the OpenCL calls issued and the value returned or the message of the exception thrown,
  and the answers of the OpenCL runtime are parameters.
* A kernel dispatch runs the work-items one after another (a fold over the index space);
  a local barrier separates the phases of a work-group.  Memory the host does not
  initialise (write-only result buffers, `__local` tiles) starts with arbitrary contents.
* The ticket counter is a single `std::atomic<int>`: its loads and compare-exchanges are
  totally ordered whatever their memory order, so concurrent calls are interleavings of
  atomic actions.  A `compare_exchange_weak` may fail spuriously; the failures are listed
  by the caller of the model, and a call whose loop has not finished within the list has
  no result.
-/

set_option linter.unusedSectionVars false
set_option linter.unusedVariables false
set_option linter.dupNamespace false

namespace Pp

/-! ## Tiled matrix multiplier (`MatrixMultiplier.cpp`) -/

section Matrix

variable {α : Type} [Add α] [Mul α] [Zero α]

/-- The kernel source's `#define TILE_SIZE 16`. -/
def TILE_SIZE : Nat := 16

/-- The constant `static const int m_tileSize = 16` of `MatrixMultiplier.h`. -/
def m_tileSize : Nat := 16

/-- Host path `MatrixMultiplier::MultiplyOnCpu`: the triple nested loop, writing
`resultMatrix[i * numColumns2 + j] = sum` for every cell. -/
def MultiplyOnCpu (numRows1 numColumns1 numColumns2 : Nat) (matrix1 matrix2 : List α) :
    List α :=
  (List.range numRows1).foldl
    (fun resultMatrix i =>
      (List.range numColumns2).foldl
        (fun resultMatrix j =>
          let sum := (List.range numColumns1).foldl
            (fun sum k =>
              sum + matrix1.getD (i * numColumns1 + k) 0 * matrix2.getD (k * numColumns2 + j) 0)
            (0 : α)
          resultMatrix.set (i * numColumns2 + j) sum)
        resultMatrix)
    (List.replicate (numRows1 * numColumns2) (0 : α))

/-- Device memory that nothing initialises before the kernel runs: the write-only result
buffer (by index) and the two `__local` tiles (by row and column). -/
structure Uninit (α : Type) where
  resultBuffer : Nat → α
  tileA : Nat → Nat → α
  tileB : Nat → Nat → α

/-- State shared by the work-items of one work-group: the two `__local` tiles, and the
private `accumulator` of each work-item indexed by its local id. -/
structure WorkGroup (α : Type) where
  tileA : Nat → Nat → α
  tileB : Nat → Nat → α
  accumulator : Nat → Nat → α

/-- The local ids `(get_local_id(0), get_local_id(1))` of a `16 x 16` work-group. -/
def localIds : List (Nat × Nat) :=
  List.product (List.range TILE_SIZE) (List.range TILE_SIZE)

/-- Store `tile[r][c] = v`. -/
def storeTile (tile : Nat → Nat → α) (r c : Nat) (v : α) : Nat → Nat → α :=
  fun r' c' => if r' = r ∧ c' = c then v else tile r' c'

/-- Kernel lines 36-50 for the work-item with local id `id` in work-group
`(groupRow, groupCol)`: stage one element of each operand tile, zero outside the matrix. -/
def loadTiles (numRows1 numColumns1 numColumns2 : Nat) (matrix1 matrix2 : List α)
    (groupRow groupCol tileIdx : Nat) (wg : WorkGroup α) (id : Nat × Nat) : WorkGroup α :=
  let localRow := id.1
  let localCol := id.2
  let globalRow := groupRow * TILE_SIZE + localRow
  let globalCol := groupCol * TILE_SIZE + localCol
  let numRows2 := numColumns1
  let tiledARow := globalRow
  let tiledACol := tileIdx * TILE_SIZE + localCol
  let a : α :=
    if tiledARow < numRows1 ∧ tiledACol < numColumns1 then
      matrix1.getD (tiledARow * numColumns1 + tiledACol) 0
    else 0
  let tiledBRow := tileIdx * TILE_SIZE + localRow
  let tiledBCol := globalCol
  let b : α :=
    if tiledBRow < numRows2 ∧ tiledBCol < numColumns2 then
      matrix2.getD (tiledBRow * numColumns2 + tiledBCol) 0
    else 0
  { wg with
    tileA := storeTile wg.tileA localRow localCol a
    tileB := storeTile wg.tileB localRow localCol b }

/-- Kernel lines 54-57 for the work-item with local id `id`:
`accumulator += tileA[localRow][k] * tileB[k][localCol]` for `k = 0 .. TILE_SIZE - 1`. -/
def accumulateTile (wg : WorkGroup α) (id : Nat × Nat) : WorkGroup α :=
  let localRow := id.1
  let localCol := id.2
  let accumulator := (List.range TILE_SIZE).foldl
    (fun accumulator k => accumulator + wg.tileA localRow k * wg.tileB k localCol)
    (wg.accumulator localRow localCol)
  { wg with accumulator := storeTile wg.accumulator localRow localCol accumulator }

/-- One iteration of the `tileIdx` loop for a whole work-group: every work-item stores its
tile elements, barrier, every work-item accumulates, barrier. -/
def tileStep (numRows1 numColumns1 numColumns2 : Nat) (matrix1 matrix2 : List α)
    (groupRow groupCol : Nat) (wg : WorkGroup α) (tileIdx : Nat) : WorkGroup α :=
  let staged := localIds.foldl
    (loadTiles numRows1 numColumns1 numColumns2 matrix1 matrix2 groupRow groupCol tileIdx) wg
  localIds.foldl accumulateTile staged

/-- The `tileIdx` loop of a work-group, `numTiles = (numColumns1 + TILE_SIZE - 1) / TILE_SIZE`
iterations starting from `accumulator = 0.0f` in every work-item. -/
def runWorkGroup (u : Uninit α) (numRows1 numColumns1 numColumns2 : Nat)
    (matrix1 matrix2 : List α) (groupRow groupCol : Nat) : WorkGroup α :=
  let numTiles := (numColumns1 + TILE_SIZE - 1) / TILE_SIZE
  (List.range numTiles).foldl
    (tileStep numRows1 numColumns1 numColumns2 matrix1 matrix2 groupRow groupCol)
    { tileA := u.tileA, tileB := u.tileB, accumulator := fun _ _ => 0 }

/-- Kernel lines 62-64 for the work-item with local id `id`: the guarded store of the
accumulator into `resultMatrix`. -/
def writeResult (numRows1 numColumns2 : Nat) (groupRow groupCol : Nat) (wg : WorkGroup α)
    (resultMatrix : List α) (id : Nat × Nat) : List α :=
  let globalRow := groupRow * TILE_SIZE + id.1
  let globalCol := groupCol * TILE_SIZE + id.2
  if globalRow < numRows1 ∧ globalCol < numColumns2 then
    resultMatrix.set (globalRow * numColumns2 + globalCol) (wg.accumulator id.1 id.2)
  else resultMatrix

/-- The kernel `MultiplyMatricesTiled` run over an NDRange of `globalWorkSize0 x
globalWorkSize1` work-items in work-groups of the local size `m_tileSize x m_tileSize`
that `MultiplyOnGpu` requests, so that `get_global_id = group * TILE_SIZE + get_local_id`. -/
def MultiplyMatricesTiled (u : Uninit α) (globalWorkSize0 globalWorkSize1 : Nat)
    (numRows1 numColumns1 numColumns2 : Nat) (matrix1 matrix2 resultMatrix : List α) :
    List α :=
  (List.range (globalWorkSize0 / m_tileSize)).foldl
    (fun resultMatrix groupRow =>
      (List.range (globalWorkSize1 / m_tileSize)).foldl
        (fun resultMatrix groupCol =>
          let wg := runWorkGroup u numRows1 numColumns1 numColumns2 matrix1 matrix2
            groupRow groupCol
          localIds.foldl (writeResult numRows1 numColumns2 groupRow groupCol wg) resultMatrix)
        resultMatrix)
    resultMatrix

/-- Device path `MatrixMultiplier::MultiplyOnGpu`: allocate the write-only result buffer with the size
of `resultMatrix`, dispatch the kernel with the rounded-up global sizes and local size
`m_tileSize x m_tileSize`, and read the buffer back into `resultMatrix`. -/
def MultiplyOnGpu (u : Uninit α) (numRows1 numColumns1 numColumns2 : Nat)
    (matrix1 matrix2 : List α) : List α :=
  let resultMatrix : List α := List.replicate (numRows1 * numColumns2) 0
  let bufferResult := (List.range resultMatrix.length).map u.resultBuffer
  let globalWorkSize0 := (numRows1 + m_tileSize - 1) / m_tileSize * m_tileSize
  let globalWorkSize1 := (numColumns2 + m_tileSize - 1) / m_tileSize * m_tileSize
  MultiplyMatricesTiled u globalWorkSize0 globalWorkSize1
    numRows1 numColumns1 numColumns2 matrix1 matrix2 bufferResult

/-- The inner `k` loop of `MultiplyOnCpu` for the cell `(i, j)`: the dot product of row
`i` of `matrix1` and column `j` of `matrix2`, accumulated left to right from `0.0f`. -/
def cpuCell (numColumns1 numColumns2 : Nat) (matrix1 matrix2 : List α) (i j : Nat) : α :=
  (List.range numColumns1).foldl
    (fun sum k =>
      sum + matrix1.getD (i * numColumns1 + k) 0 * matrix2.getD (k * numColumns2 + j) 0)
    (0 : α)

end Matrix

/-- The buffer `b` has length `L` and holds `v` at index `idx`. -/
def CellIs {α : Type} (L idx : Nat) (v : α) (b : List α) : Prop :=
  b.length = L ∧ b[idx]? = some v

/-- The verification rule of `MatrixMultiplier::RunBenchmark` (lines 160-169): the flag
starts `true`, is cleared when either result is empty or the sizes differ, and otherwise
is cleared when the first or the last elements differ by more than `epsilon = 1e-3f`. -/
def verified (cpuResult gpuResult : List ℚ) : Bool :=
  if cpuResult.isEmpty || gpuResult.isEmpty || cpuResult.length != gpuResult.length then
    false
  else
    let epsilon : ℚ := 1 / 1000
    if |cpuResult.headD 0 - gpuResult.headD 0| > epsilon ||
        |cpuResult.getLastD 0 - gpuResult.getLastD 0| > epsilon then
      false
    else true

/-- Benchmark driver `MatrixMultiplier::RunBenchmark`: fill the operands with
`i % 100 + 0.1` and `i % 50 + 0.2` (the decimal literals taken at face value), run both
paths and return the verification flag that the source prints. -/
def RunBenchmark (u : Uninit ℚ) (numRows1 numColumns1 numColumns2 : Nat) : Bool :=
  let matrix1 : List ℚ :=
    (List.range (numRows1 * numColumns1)).map (fun i => ((i % 100 : Nat) : ℚ) + 1 / 10)
  let matrix2 : List ℚ :=
    (List.range (numColumns1 * numColumns2)).map (fun i => ((i % 50 : Nat) : ℚ) + 2 / 10)
  let cpuResult := MultiplyOnCpu numRows1 numColumns1 numColumns2 matrix1 matrix2
  let gpuResult := MultiplyOnGpu u numRows1 numColumns1 numColumns2 matrix1 matrix2
  verified cpuResult gpuResult

/-- The row-major `K x K` identity matrix: `1` on the diagonal, `0` elsewhere. -/
def identityMatrix {α : Type} [Zero α] [One α] (K : Nat) : List α :=
  (List.range (K * K)).map (fun n => if n / K = n % K then 1 else 0)

/-- The laws of `0` and `1` that multiplying by an identity matrix relies on; no
associativity, commutativity or distributivity is assumed. -/
structure ZeroOneLaws (α : Type) [Add α] [Mul α] [Zero α] [One α] : Prop where
  add_zero : ∀ x : α, x + 0 = x
  zero_add : ∀ x : α, 0 + x = x
  mul_zero : ∀ x : α, x * 0 = 0
  zero_mul : ∀ x : α, 0 * x = 0
  mul_one : ∀ x : α, x * 1 = x
  one_mul : ∀ x : α, 1 * x = x


/-! ## Image kernels: common parts -/

/-- OpenCL built-in `clamp(x, lo, hi)` on `int`: `min(max(x, lo), hi)`. -/
def clamp (x lo hi : Int) : Int := min (max x lo) hi

/-- The values taken by the loop variable of `for (int v = lo; v <= hi; ++v)`. -/
def intRange (lo hi : Int) : List Int :=
  (List.range (hi + 1 - lo).toNat).map (fun n : Nat => lo + (n : Int))

/-- A two-dimensional NDRange of `globalWorkSize0 x globalWorkSize1` work-items, each
running `item` on the output buffer with its `(get_global_id(0), get_global_id(1))`. -/
def dispatch2D {β : Type} (globalWorkSize0 globalWorkSize1 : Nat)
    (item : β → Nat → Nat → β) (buffer : β) : β :=
  (List.range globalWorkSize0).foldl
    (fun buffer x => (List.range globalWorkSize1).foldl (fun buffer y => item buffer x y) buffer)
    buffer

/-- A one-dimensional NDRange of `globalWorkSize` work-items. -/
def dispatch1D {β : Type} (globalWorkSize : Nat) (item : β → Nat → β) (buffer : β) : β :=
  (List.range globalWorkSize).foldl item buffer

/-! ## Gaussian filter (`GaussianFilter.cpp`) -/

/-- OpenCL `uchar4`: four bytes. -/
structure UChar4 where
  x : Nat
  y : Nat
  z : Nat
  w : Nat
deriving DecidableEq

/-- OpenCL `float4`, with exact rational components. -/
structure Float4 where
  x : ℚ
  y : ℚ
  z : ℚ
  w : ℚ

namespace GaussianFilter

/-- Componentwise `convert_float4`. -/
def convert_float4 (p : UChar4) : Float4 := ⟨(p.x : ℚ), (p.y : ℚ), (p.z : ℚ), (p.w : ℚ)⟩

/-- The update `sum += floatPixelColor * weight` on `float4`. -/
def mulAdd (sum floatPixelColor : Float4) (weight : ℚ) : Float4 :=
  ⟨sum.x + floatPixelColor.x * weight, sum.y + floatPixelColor.y * weight,
    sum.z + floatPixelColor.z * weight, sum.w + floatPixelColor.w * weight⟩

/-- Round to the nearest integer, ties to even (`_rte`). -/
def roundTiesEven (v : ℚ) : Int :=
  let f := Int.floor v
  if v - f < 1 / 2 then f
  else if v - f > 1 / 2 then f + 1
  else if f % 2 = 0 then f else f + 1

/-- One component of `convert_uchar4_sat_rte`: round to nearest even, saturate to
`0 .. 255`. -/
def convert_uchar_sat_rte (v : ℚ) : Nat :=
  let r := roundTiesEven v
  if r < 0 then 0 else if r > 255 then 255 else r.toNat

/-- Componentwise `convert_uchar4_sat_rte`. -/
def convert_uchar4_sat_rte (v : Float4) : UChar4 :=
  ⟨convert_uchar_sat_rte v.x, convert_uchar_sat_rte v.y, convert_uchar_sat_rte v.z,
    convert_uchar_sat_rte v.w⟩

/-- Kernel `BlurPass` for the work-item `gid`. -/
def BlurPass (inputImage : List UChar4) (filterKernel : List ℚ) (kernelRadius : Int)
    (imageWidth imageHeight : Nat) (outputImage : List UChar4) (gid : Nat) : List UChar4 :=
  if gid ≥ imageWidth * imageHeight then outputImage
  else
    let currentX : Int := (gid % imageWidth : Nat)
    let currentY : Int := (gid / imageWidth : Nat)
    let sum := (intRange (-kernelRadius) kernelRadius).foldl
      (fun sum offset =>
        let sampleCoord := clamp (currentX + offset) 0 ((imageWidth : Int) - 1)
        let pixelColor := inputImage.getD (currentY * imageWidth + sampleCoord).toNat ⟨0, 0, 0, 0⟩
        let floatPixelColor := convert_float4 pixelColor
        let weight := filterKernel.getD (offset + kernelRadius).toNat 0
        mulAdd sum floatPixelColor weight)
      (⟨0, 0, 0, 0⟩ : Float4)
    outputImage.set gid (convert_uchar4_sat_rte sum)

/-- Kernel `TransposeImage` for the work-item `(currentX, currentY)`. -/
def TransposeImage (inputImage : List UChar4) (imageWidth imageHeight : Nat)
    (outputImage : List UChar4) (currentX currentY : Nat) : List UChar4 :=
  if currentX ≥ imageWidth ∨ currentY ≥ imageHeight then outputImage
  else
    outputImage.set (currentX * imageHeight + currentY)
      (inputImage.getD (currentY * imageWidth + currentX) ⟨0, 0, 0, 0⟩)

/-- The expression `std::exp(-static_cast<float>(i * i) / (2.0f * sigma * sigma))` of
`CreateGaussianKernelValues`, with the library `std::exp` as the parameter `expf`. -/
def gaussValue (expf : ℚ → ℚ) (sigma : ℚ) (i : Int) : ℚ :=
  expf (-((i * i : Int) : ℚ) / (2 * sigma * sigma))

/-- Host function `GaussianFilter::CreateGaussianKernelValues(radius, sigma)`, with the
library `std::exp` as the parameter `expf`.  The result is `none` when the vector
constructor is given a negative size (it throws). -/
def CreateGaussianKernelValues (expf : ℚ → ℚ) (radius : Int) (sigma : ℚ) : Option (List ℚ) :=
  let kernelSize := 2 * radius + 1
  if kernelSize < 0 then none
  else
    let kernel : List ℚ := List.replicate kernelSize.toNat 0
    let filled := (intRange (-radius) radius).foldl
      (fun (st : List ℚ × ℚ) i =>
        let value := gaussValue expf sigma i
        (st.1.set (i + radius).toNat value, st.2 + value))
      (kernel, (0 : ℚ))
    let sum := filled.2
    if sum > 0 then some (filled.1.map (fun val => val / sum)) else some filled.1

/-- The device view of the host bytes as `uchar4` pixels: pixel `p` is bytes
`4p .. 4p + 3`. -/
def toPixels (imageData : List Nat) (numPixels : Nat) : List UChar4 :=
  (List.range numPixels).map
    (fun p => ⟨imageData.getD (4 * p) 0, imageData.getD (4 * p + 1) 0,
      imageData.getD (4 * p + 2) 0, imageData.getD (4 * p + 3) 0⟩)

/-- The bytes of a `uchar4` buffer. -/
def toBytes (pixels : List UChar4) : List Nat :=
  pixels.flatMap (fun p => [p.x, p.y, p.z, p.w])

/-- Method `GaussianFilter::ApplyFilter` with stored radius `m_effectRadius`; `tempBuffer0`
is the arbitrary initial content of the uninitialised `tempBuffer`.  The result is the
new content of `imageData`, or `none` when building the kernel vector throws. -/
def ApplyFilter (expf : ℚ → ℚ) (tempBuffer0 : Nat → UChar4) (m_effectRadius : Int)
    (imageData : List Nat) (width height channels : Nat) : Option (List Nat) :=
  if m_effectRadius = 0 then some imageData
  else if channels ≠ 4 then some imageData
  else
    let numPixels := width * height
    let imageSizeBytes := numPixels * channels
    let sigma : ℚ := max 1 ((m_effectRadius : ℚ) / 2)
    match CreateGaussianKernelValues expf m_effectRadius sigma with
    | none => none
    | some gaussianKernelVec =>
      let inputOutputBuffer := toPixels imageData numPixels
      let tempBuffer := (List.range numPixels).map tempBuffer0
      -- horizontal pass, inputOutputBuffer -> tempBuffer
      let tempBuffer := dispatch1D numPixels
        (BlurPass inputOutputBuffer gaussianKernelVec m_effectRadius width height) tempBuffer
      -- transpose 1, tempBuffer -> inputOutputBuffer
      let inputOutputBuffer := dispatch2D width height
        (TransposeImage tempBuffer width height) inputOutputBuffer
      -- vertical pass on the transposed image, inputOutputBuffer -> tempBuffer
      let transposedWidth := height
      let transposedHeight := width
      let tempBuffer := dispatch1D numPixels
        (BlurPass inputOutputBuffer gaussianKernelVec m_effectRadius transposedWidth
          transposedHeight) tempBuffer
      -- transpose 2, tempBuffer -> inputOutputBuffer
      let inputOutputBuffer := dispatch2D transposedWidth transposedHeight
        (TransposeImage tempBuffer transposedWidth transposedHeight) inputOutputBuffer
      -- read back imageSizeBytes bytes
      some (toBytes inputOutputBuffer ++ imageData.drop imageSizeBytes)

end GaussianFilter

/-- The bytes of a `numPixels`-pixel image in which every pixel is `(r, g, b, a)`. -/
def uniformImage (numPixels r g b a : Nat) : List Nat :=
  (List.replicate numPixels [r, g, b, a]).flatten


/-! ## Median filter (`MedianFilter.cpp`) -/

namespace MedianFilter

/-- The constant `MAX_KERNEL_SUPPORTED_RADIUS = 10` of `MedianFilter.h`. -/
def MAX_KERNEL_SUPPORTED_RADIUS : Int := 10

/-- One `if (segment[j] > segment[j + 1]) swap` step of the bubble sort. -/
def swapStep (segment : List Nat) (j : Nat) : List Nat :=
  if segment.getD j 0 > segment.getD (j + 1) 0 then
    let temp := segment.getD j 0
    (segment.set j (segment.getD (j + 1) 0)).set (j + 1) temp
  else segment

/-- Device function `SortWindowSegment(segment, count)`: bubble sort of the first `count`
elements.  Both loop bounds are taken with truncated subtraction: the loops are empty
exactly when the `int` bounds of the source are not positive. -/
def SortWindowSegment (segment : List Nat) (count : Nat) : List Nat :=
  (List.range (count - 1)).foldl
    (fun segment i => (List.range (count - i - 1)).foldl swapStep segment)
    segment

/-- The two window loops of `ApplyMedianFilter` for channel `c`: collect the clamped
samples into `windowValues`, at most 441 of them, and count them. -/
def collectWindow (inputImage : List Nat) (imageWidth imageHeight numChannels : Nat)
    (filterRadius : Int) (globalX globalY c : Nat) (windowValues : List Nat) :
    List Nat × Nat :=
  (intRange (-filterRadius) filterRadius).foldl
    (fun st offsetY =>
      (intRange (-filterRadius) filterRadius).foldl
        (fun (st : List Nat × Nat) offsetX =>
          let sampleX := clamp ((globalX : Int) + offsetX) 0 ((imageWidth : Int) - 1)
          let sampleY := clamp ((globalY : Int) + offsetY) 0 ((imageHeight : Int) - 1)
          let sampleIndex := (sampleY * imageWidth + sampleX) * numChannels + c
          if st.2 < 441 then
            (st.1.set st.2 (inputImage.getD sampleIndex.toNat 0), st.2 + 1)
          else st)
        st)
    (windowValues, 0)

/-- The body of the channel loop of `ApplyMedianFilter`; the state is the output image and
the private array `windowValues`, which is reused from channel to channel. -/
def medianChannel (inputImage : List Nat) (imageWidth imageHeight numChannels : Nat)
    (filterRadius : Int) (globalX globalY : Nat) (st : List Nat × List Nat) (c : Nat) :
    List Nat × List Nat :=
  let collected := collectWindow inputImage imageWidth imageHeight numChannels filterRadius
    globalX globalY c st.2
  let currentPixelCountInWindow := collected.2
  let windowValues := SortWindowSegment collected.1 currentPixelCountInWindow
  let outputIndex := (globalY * imageWidth + globalX) * numChannels + c
  if currentPixelCountInWindow > 0 then
    (st.1.set outputIndex (windowValues.getD (currentPixelCountInWindow / 2) 0), windowValues)
  else
    (st.1.set outputIndex (inputImage.getD outputIndex 0), windowValues)

/-- Kernel `ApplyMedianFilter` for the work-item `(globalX, globalY)`; `windowValues0` is
the arbitrary initial content of the private array `uchar windowValues[441]`. -/
def ApplyMedianFilter (windowValues0 : Nat → Nat) (inputImage : List Nat)
    (imageWidth imageHeight numChannels : Nat) (filterRadius : Int)
    (outputImage : List Nat) (globalX globalY : Nat) : List Nat :=
  if globalX ≥ imageWidth ∨ globalY ≥ imageHeight then outputImage
  else
    ((List.range numChannels).foldl
      (medianChannel inputImage imageWidth imageHeight numChannels filterRadius globalX globalY)
      (outputImage, (List.range 441).map windowValues0)).1

/-- The radius `MedianFilter::ApplyFilter` passes to the kernel (lines 135-141):
`std::min(m_effectRadius, MAX_KERNEL_SUPPORTED_RADIUS)`, then raised to `0` if negative. -/
def actualRadius (m_effectRadius : Int) : Int :=
  let actualRadius := min m_effectRadius MAX_KERNEL_SUPPORTED_RADIUS
  if actualRadius < 0 then 0 else actualRadius

/-- Method `MedianFilter::ApplyFilter` with stored radius `m_effectRadius`; `outputBuffer0`
and `windowValues0` are the arbitrary initial contents of the write-only output buffer and
of the private window array.  The result is the new content of `imageData`. -/
def ApplyFilter (outputBuffer0 windowValues0 : Nat → Nat) (m_effectRadius : Int)
    (imageData : List Nat) (width height channels : Nat) : List Nat :=
  let actualRadius := actualRadius m_effectRadius
  let imageSizeBytes := width * height * channels
  let inputBuffer := imageData.take imageSizeBytes
  let outputBuffer := (List.range imageSizeBytes).map outputBuffer0
  let outputBuffer := dispatch2D width height
    (ApplyMedianFilter windowValues0 inputBuffer width height channels actualRadius)
    outputBuffer
  outputBuffer ++ imageData.drop imageSizeBytes

end MedianFilter

/-! ## Motion blur filter (`MotionBlurFilter.cpp`) -/

namespace MotionBlurFilter

/-- The conversion `(uchar)f` of a non-negative `float`: truncation.  The values the
kernel converts are averages of bytes, which are in range. -/
def toUChar (f : ℚ) : Nat := (Int.floor f).toNat

/-- The `startOffset` and `endOffset` of `ApplyMotionBlur` for a given `blurLength`; `/`
and `%` on `int` truncate toward zero. -/
def offsets (blurLength : Int) : Int × Int :=
  let startOffset := Int.tdiv (-blurLength) 2
  let endOffset := Int.tdiv blurLength 2
  if blurLength = 1 then (0, 0)
  else if Int.tmod blurLength 2 = 0 ∧ blurLength > 0 then (startOffset, Int.tdiv blurLength 2 - 1)
  else (startOffset, endOffset)

/-- The body of the channel loop of `ApplyMotionBlur`, with the `float` accumulator and
quotient as exact rationals; `Binary32.blurChannel` is the same loop with binary32
rounding, from which this one differs once the sample sum passes `2 ^ 24`. -/
def blurChannel (inputImage : List Nat) (imageWidth imageHeight numChannels : Nat)
    (blurLength : Int) (globalX globalY : Nat) (outputImage : List Nat) (c : Nat) : List Nat :=
  let startOffset := (offsets blurLength).1
  let endOffset := (offsets blurLength).2
  let acc := (intRange startOffset endOffset).foldl
    (fun (st : ℚ × Nat) offset =>
      let sampleX := clamp ((globalX : Int) + offset) 0 ((imageWidth : Int) - 1)
      let sampleIndex := (globalY * imageWidth + sampleX) * numChannels + c
      (st.1 + (inputImage.getD sampleIndex.toNat 0 : ℚ), st.2 + 1))
    ((0 : ℚ), 0)
  let accumulatedColor := acc.1
  let samplesCount := acc.2
  let outputIndex := (globalY * imageWidth + globalX) * numChannels + c
  if samplesCount > 0 then
    outputImage.set outputIndex (toUChar (accumulatedColor / samplesCount))
  else
    outputImage.set outputIndex (inputImage.getD outputIndex 0)

/-- Kernel `ApplyMotionBlur` for the work-item `(globalX, globalY)`. -/
def ApplyMotionBlur (inputImage : List Nat) (imageWidth imageHeight numChannels : Nat)
    (blurLength : Int) (outputImage : List Nat) (globalX globalY : Nat) : List Nat :=
  if globalX ≥ imageWidth ∨ globalY ≥ imageHeight then outputImage
  else
    (List.range numChannels).foldl
      (blurChannel inputImage imageWidth imageHeight numChannels blurLength globalX globalY)
      outputImage

/-- Method `MotionBlurFilter::ApplyFilter` with stored length `m_blurLength`;
`outputBuffer0` is the arbitrary initial content of the write-only output buffer.  The
result is the new content of `imageData`. -/
def ApplyFilter (outputBuffer0 : Nat → Nat) (m_blurLength : Int)
    (imageData : List Nat) (width height channels : Nat) : List Nat :=
  if m_blurLength ≤ 0 then imageData
  else
    let imageSizeBytes := width * height * channels
    let inputBuffer := imageData.take imageSizeBytes
    let outputBuffer := (List.range imageSizeBytes).map outputBuffer0
    let outputBuffer := dispatch2D width height
      (ApplyMotionBlur inputBuffer width height channels m_blurLength) outputBuffer
    outputBuffer ++ imageData.drop imageSizeBytes

end MotionBlurFilter


/-! ## Median filter: specification side -/

namespace MedianFilter

/-- One left-to-right pass of adjacent compare-and-swap steps over `x :: t`, written by
recursion on the list: the value being carried is swapped forward while it is larger. -/
def carry (x : Nat) : List Nat → List Nat
  | [] => [x]
  | y :: t => if x > y then y :: carry x t else x :: carry y t

/-- The window samples of channel `c` around pixel `(x, y)`, in the words of the
specification: `input[clamp(y + dy, 0, h - 1)][clamp(x + dx, 0, w - 1)][c]` for `dy` and
`dx` in `-r .. r`, rows first. -/
def windowSamples (input : List Nat) (w h ch : Nat) (r : Int) (x y c : Nat) : List Nat :=
  (intRange (-r) r).flatMap (fun dy =>
    (intRange (-r) r).map (fun dx =>
      input.getD
        ((clamp ((y : Int) + dy) 0 ((h : Int) - 1) * w
          + clamp ((x : Int) + dx) 0 ((w : Int) - 1)) * ch + c).toNat 0))

/-- The median of the clamp-to-edge window: the element at index `count / 2` of the
ascending sort of the window samples. -/
def windowMedian (input : List Nat) (w h ch : Nat) (r : Int) (x y c : Nat) : Nat :=
  let samples := windowSamples input w h ch r x y c
  (samples.insertionSort (· ≤ ·)).getD (samples.length / 2) 0

end MedianFilter


/-! ## Radial blur filter (`RadialBlurFilter.cpp`) -/

namespace RadialBlurFilter

/-- The conversion `(int)f` of a `float`: truncation toward zero. -/
def truncInt (f : ℚ) : Int := if 0 ≤ f then Int.floor f else Int.ceil f

/-- The body of the sampling channel loop of `ApplyRadialBlur` (lines 53-77) for channel
`c`, given the direction, the step and the number of samples computed before the loop,
with the `float` operations as exact rational operations; `Binary32.radialChannel` is the
same loop with binary32 rounding. -/
def radialChannel (inputImage : List Nat) (imageWidth imageHeight numChannels : Nat)
    (dirX dirY sampleStep : ℚ) (numSamples : Int) (globalX globalY : Nat)
    (outputImage : List Nat) (c : Nat) : List Nat :=
  let acc := (List.range numSamples.toNat).foldl
    (fun (st : ℚ × Nat) (s : Nat) =>
      let currentOffset : ℚ := (s : ℚ) * sampleStep
      let sampleX := clamp (truncInt ((globalX : ℚ) - dirX * currentOffset)) 0
        ((imageWidth : Int) - 1)
      let sampleY := clamp (truncInt ((globalY : ℚ) - dirY * currentOffset)) 0
        ((imageHeight : Int) - 1)
      let sampleIndex := (sampleY * imageWidth + sampleX) * numChannels + c
      (st.1 + (inputImage.getD sampleIndex.toNat 0 : ℚ), st.2 + 1))
    ((0 : ℚ), 0)
  let accumulatedColor := acc.1
  let actualSamplesCount := acc.2
  let outputIndex := (globalY * imageWidth + globalX) * numChannels + c
  if actualSamplesCount > 0 then
    outputImage.set outputIndex (MotionBlurFilter.toUChar (accumulatedColor / actualSamplesCount))
  else
    outputImage.set outputIndex (inputImage.getD outputIndex 0)

/-- Kernel `ApplyRadialBlur` for the work-item `(globalX, globalY)`, with the built-in
`sqrt` as the parameter `sqrtf`. -/
def ApplyRadialBlur (sqrtf : ℚ → ℚ) (inputImage : List Nat)
    (imageWidth imageHeight numChannels : Nat) (blurIntensity : Int)
    (outputImage : List Nat) (globalX globalY : Nat) : List Nat :=
  if globalX ≥ imageWidth ∨ globalY ≥ imageHeight then outputImage
  else
    let centerX : ℚ := (imageWidth : ℚ) / 2
    let centerY : ℚ := (imageHeight : ℚ) / 2
    let deltaX : ℚ := (globalX : ℚ) - centerX
    let deltaY : ℚ := (globalY : ℚ) - centerY
    let distanceToCenter : ℚ := sqrtf (deltaX * deltaX + deltaY * deltaY)
    if distanceToCenter < 1 ∨ blurIntensity = 0 then
      (List.range numChannels).foldl
        (fun outputImage ch =>
          let currentIndex := (globalY * imageWidth + globalX) * numChannels + ch
          outputImage.set currentIndex (inputImage.getD currentIndex 0))
        outputImage
    else
      let dirX := deltaX / distanceToCenter
      let dirY := deltaY / distanceToCenter
      let maxPossibleDist : ℚ :=
        (1 / 2) * sqrtf (((imageWidth * imageWidth + imageHeight * imageHeight : Nat) : ℚ))
      let maxPossibleDist : ℚ := if maxPossibleDist < 1 then 1 else maxPossibleDist
      let stepFactor : ℚ := (5 / 1000) * (blurIntensity : ℚ)
      let sampleStep : ℚ :=
        1 + (distanceToCenter / maxPossibleDist) * stepFactor * (blurIntensity : ℚ)
      let sampleStep : ℚ := max 1 sampleStep
      let numSamples : Int := max 1 (Int.tdiv blurIntensity 2 + 1)
      (List.range numChannels).foldl
        (radialChannel inputImage imageWidth imageHeight numChannels dirX dirY sampleStep
          numSamples globalX globalY)
        outputImage

/-- Method `RadialBlurFilter::ApplyFilter` with stored intensity `m_intensity`;
`outputBuffer0` is the arbitrary initial content of the write-only output buffer.  The
result is the new content of `imageData`. -/
def ApplyFilter (sqrtf : ℚ → ℚ) (outputBuffer0 : Nat → Nat) (m_intensity : Int)
    (imageData : List Nat) (width height channels : Nat) : List Nat :=
  if m_intensity ≤ 0 then imageData
  else
    let imageSizeBytes := width * height * channels
    let inputBuffer := imageData.take imageSizeBytes
    let outputBuffer := (List.range imageSizeBytes).map outputBuffer0
    let outputBuffer := dispatch2D width height
      (ApplyRadialBlur sqrtf inputBuffer width height channels m_intensity) outputBuffer
    outputBuffer ++ imageData.drop imageSizeBytes

end RadialBlurFilter

namespace RadialBlurFilter

/-- The byte `radialChannel` stores for channel `c`: the truncated average of the samples,
or the input byte if no sample was taken. -/
def radialByte (inputImage : List Nat) (imageWidth imageHeight numChannels : Nat)
    (dirX dirY sampleStep : ℚ) (numSamples : Int) (globalX globalY c : Nat) : Nat :=
  let acc := (List.range numSamples.toNat).foldl
    (fun (st : ℚ × Nat) (s : Nat) =>
      let currentOffset : ℚ := (s : ℚ) * sampleStep
      let sampleX := clamp (truncInt ((globalX : ℚ) - dirX * currentOffset)) 0
        ((imageWidth : Int) - 1)
      let sampleY := clamp (truncInt ((globalY : ℚ) - dirY * currentOffset)) 0
        ((imageHeight : Int) - 1)
      let sampleIndex := (sampleY * imageWidth + sampleX) * numChannels + c
      (st.1 + (inputImage.getD sampleIndex.toNat 0 : ℚ), st.2 + 1))
    ((0 : ℚ), 0)
  if acc.2 > 0 then MotionBlurFilter.toUChar (acc.1 / acc.2)
  else inputImage.getD ((globalY * imageWidth + globalX) * numChannels + c) 0

/-- The byte the work-item `(globalX, globalY)` of `ApplyRadialBlur` stores for channel
`c`: the input byte in the copy branch, `radialByte` otherwise. -/
def pixelByte (sqrtf : ℚ → ℚ) (inputImage : List Nat)
    (imageWidth imageHeight numChannels : Nat) (blurIntensity : Int)
    (globalX globalY c : Nat) : Nat :=
  let centerX : ℚ := (imageWidth : ℚ) / 2
  let centerY : ℚ := (imageHeight : ℚ) / 2
  let deltaX : ℚ := (globalX : ℚ) - centerX
  let deltaY : ℚ := (globalY : ℚ) - centerY
  let distanceToCenter : ℚ := sqrtf (deltaX * deltaX + deltaY * deltaY)
  if distanceToCenter < 1 ∨ blurIntensity = 0 then
    inputImage.getD ((globalY * imageWidth + globalX) * numChannels + c) 0
  else
    let dirX := deltaX / distanceToCenter
    let dirY := deltaY / distanceToCenter
    let maxPossibleDist : ℚ :=
      (1 / 2) * sqrtf (((imageWidth * imageWidth + imageHeight * imageHeight : Nat) : ℚ))
    let maxPossibleDist : ℚ := if maxPossibleDist < 1 then 1 else maxPossibleDist
    let stepFactor : ℚ := (5 / 1000) * (blurIntensity : ℚ)
    let sampleStep : ℚ :=
      1 + (distanceToCenter / maxPossibleDist) * stepFactor * (blurIntensity : ℚ)
    let sampleStep : ℚ := max 1 sampleStep
    let numSamples : Int := max 1 (Int.tdiv blurIntensity 2 + 1)
    radialByte inputImage imageWidth imageHeight numChannels dirX dirY sampleStep numSamples
      globalX globalY c

end RadialBlurFilter


/-! ## Filter objects and the OpenCL calls they issue -/

/-- The device class asked of `clGetDeviceIDs`. -/
inductive DeviceType where
  | CL_DEVICE_TYPE_GPU
  | CL_DEVICE_TYPE_CPU
deriving DecidableEq

/-- An OpenCL API call issued by the host code, with the arguments the claims refer to. -/
inductive ClCall where
  | clGetPlatformIDs
  | clGetDeviceIDs (deviceType : DeviceType)
  | clGetDeviceInfo (device : Nat)
  | clCreateContext (device : Nat)
  | clCreateCommandQueue (context device : Nat)
  | clCreateBuffer
  | clSetKernelArg (index : Nat)
  | clEnqueueNDRangeKernel
  | clEnqueueReadBuffer
  | clFinish
  | clReleaseMemObject
deriving DecidableEq

namespace GaussianFilter

/-- The data members of a `GaussianFilter` object; handles are opaque numbers. -/
structure Object where
  m_effectRadius : Int
  m_deviceId : Nat
  m_context : Nat
  m_commandQueue : Nat
  m_program : Nat
  m_blurPassKernel : Nat
  m_transposeKernel : Nat
deriving DecidableEq

/-- Constructor `GaussianFilter::GaussianFilter(initialRadius)`: the member initialiser
stores `initialRadius`; the handles are those obtained by `InitializeOpenCl`,
`CreateProgramWithSource` and `CreateKernels`. -/
def GaussianFilter (deviceId context commandQueue program blurPassKernel transposeKernel : Nat)
    (initialRadius : Int) : Object :=
  { m_effectRadius := initialRadius, m_deviceId := deviceId, m_context := context,
    m_commandQueue := commandQueue, m_program := program,
    m_blurPassKernel := blurPassKernel, m_transposeKernel := transposeKernel }

/-- Method `GaussianFilter::SetEffectRadius`: `m_effectRadius = std::max(0, radius)`. -/
def SetEffectRadius (self : Object) (radius : Int) : Object :=
  { self with m_effectRadius := max 0 radius }

/-- Method `ApplyFilter` called on an object: it reads the stored `m_effectRadius`. -/
def Object.ApplyFilter (self : Object) (expf : ℚ → ℚ) (tempBuffer0 : Nat → UChar4)
    (imageData : List Nat) (width height channels : Nat) : Option (List Nat) :=
  GaussianFilter.ApplyFilter expf tempBuffer0 self.m_effectRadius imageData width height
    channels

/-- The OpenCL calls `GaussianFilter::ApplyFilter` issues, in order: none on either early
return, and none when building the kernel vector throws (that happens before the first
call). -/
def ApplyFilterCalls (m_effectRadius : Int) (channels : Nat) : List ClCall :=
  if m_effectRadius = 0 then []
  else if channels ≠ 4 then []
  else if 2 * m_effectRadius + 1 < 0 then []
  else
    [.clCreateBuffer, .clCreateBuffer, .clCreateBuffer,
      .clSetKernelArg 0, .clSetKernelArg 1, .clSetKernelArg 2, .clSetKernelArg 3,
      .clSetKernelArg 4, .clSetKernelArg 5, .clEnqueueNDRangeKernel,
      .clSetKernelArg 0, .clSetKernelArg 1, .clSetKernelArg 2, .clSetKernelArg 3,
      .clEnqueueNDRangeKernel,
      .clSetKernelArg 0, .clSetKernelArg 1, .clSetKernelArg 4, .clSetKernelArg 5,
      .clEnqueueNDRangeKernel,
      .clSetKernelArg 0, .clSetKernelArg 1, .clSetKernelArg 2, .clSetKernelArg 3,
      .clEnqueueNDRangeKernel,
      .clEnqueueReadBuffer, .clFinish,
      .clReleaseMemObject, .clReleaseMemObject, .clReleaseMemObject]

end GaussianFilter

/-- The OpenCL calls of the single-kernel filters once they pass their early return: two
buffers, six kernel arguments, one dispatch, the read-back, `clFinish` and two releases. -/
def singleKernelCalls : List ClCall :=
  [.clCreateBuffer, .clCreateBuffer,
    .clSetKernelArg 0, .clSetKernelArg 1, .clSetKernelArg 2, .clSetKernelArg 3,
    .clSetKernelArg 4, .clSetKernelArg 5, .clEnqueueNDRangeKernel,
    .clEnqueueReadBuffer, .clFinish, .clReleaseMemObject, .clReleaseMemObject]

namespace MedianFilter

/-- The data members of a `MedianFilter` object. -/
structure Object where
  m_effectRadius : Int
  m_deviceId : Nat
  m_context : Nat
  m_commandQueue : Nat
  m_program : Nat
  m_kernel : Nat
deriving DecidableEq

/-- Constructor `MedianFilter::MedianFilter(initialRadius)`. -/
def MedianFilter (deviceId context commandQueue program kernel : Nat) (initialRadius : Int) :
    Object :=
  { m_effectRadius := initialRadius, m_deviceId := deviceId, m_context := context,
    m_commandQueue := commandQueue, m_program := program, m_kernel := kernel }

/-- Method `MedianFilter::SetEffectRadius`: `m_effectRadius = std::max(0, radius)`. -/
def SetEffectRadius (self : Object) (radius : Int) : Object :=
  { self with m_effectRadius := max 0 radius }

/-- Method `ApplyFilter` called on an object: it reads the stored `m_effectRadius`. -/
def Object.ApplyFilter (self : Object) (outputBuffer0 windowValues0 : Nat → Nat)
    (imageData : List Nat) (width height channels : Nat) : List Nat :=
  MedianFilter.ApplyFilter outputBuffer0 windowValues0 self.m_effectRadius imageData width
    height channels

end MedianFilter

namespace MotionBlurFilter

/-- The data members of a `MotionBlurFilter` object. -/
structure Object where
  m_blurLength : Int
  m_deviceId : Nat
  m_context : Nat
  m_commandQueue : Nat
  m_program : Nat
  m_kernel : Nat
deriving DecidableEq

/-- Constructor `MotionBlurFilter::MotionBlurFilter(initialBlurLength)`. -/
def MotionBlurFilter (deviceId context commandQueue program kernel : Nat)
    (initialBlurLength : Int) : Object :=
  { m_blurLength := initialBlurLength, m_deviceId := deviceId, m_context := context,
    m_commandQueue := commandQueue, m_program := program, m_kernel := kernel }

/-- Method `MotionBlurFilter::SetEffectRadius`: `m_blurLength = std::max(0, blurLength)`. -/
def SetEffectRadius (self : Object) (blurLength : Int) : Object :=
  { self with m_blurLength := max 0 blurLength }

/-- Method `ApplyFilter` called on an object: it reads the stored `m_blurLength`. -/
def Object.ApplyFilter (self : Object) (outputBuffer0 : Nat → Nat)
    (imageData : List Nat) (width height channels : Nat) : List Nat :=
  MotionBlurFilter.ApplyFilter outputBuffer0 self.m_blurLength imageData width height channels

/-- The OpenCL calls `MotionBlurFilter::ApplyFilter` issues: none on the early return. -/
def ApplyFilterCalls (m_blurLength : Int) : List ClCall :=
  if m_blurLength ≤ 0 then [] else singleKernelCalls

end MotionBlurFilter

namespace RadialBlurFilter

/-- The data members of a `RadialBlurFilter` object. -/
structure Object where
  m_intensity : Int
  m_deviceId : Nat
  m_context : Nat
  m_commandQueue : Nat
  m_program : Nat
  m_kernel : Nat
deriving DecidableEq

/-- Constructor `RadialBlurFilter::RadialBlurFilter(initialIntensity)`. -/
def RadialBlurFilter (deviceId context commandQueue program kernel : Nat)
    (initialIntensity : Int) : Object :=
  { m_intensity := initialIntensity, m_deviceId := deviceId, m_context := context,
    m_commandQueue := commandQueue, m_program := program, m_kernel := kernel }

/-- Method `RadialBlurFilter::SetEffectRadius`: `m_intensity = std::max(0, intensity)`. -/
def SetEffectRadius (self : Object) (intensity : Int) : Object :=
  { self with m_intensity := max 0 intensity }

/-- Method `ApplyFilter` called on an object: it reads the stored `m_intensity`. -/
def Object.ApplyFilter (self : Object) (sqrtf : ℚ → ℚ) (outputBuffer0 : Nat → Nat)
    (imageData : List Nat) (width height channels : Nat) : List Nat :=
  RadialBlurFilter.ApplyFilter sqrtf outputBuffer0 self.m_intensity imageData width height
    channels

/-- The OpenCL calls `RadialBlurFilter::ApplyFilter` issues: none on the early return. -/
def ApplyFilterCalls (m_intensity : Int) : List ClCall :=
  if m_intensity ≤ 0 then [] else singleKernelCalls

end RadialBlurFilter


/-! ## Host-side OpenCL helpers (`OpenCLUtils.cpp`) and backend initialisation -/

/-- What a piece of host code has done when it ends: the lines it wrote to `std::cerr`,
the OpenCL calls it issued, and either its value or the message of the
`std::runtime_error` it threw. -/
structure Outcome (α : Type) where
  cerr : List String
  calls : List ClCall
  result : Except String α

/-- Normal completion with a value. -/
def Outcome.ok {α : Type} (a : α) : Outcome α := ⟨[], [], .ok a⟩

/-- Statement `throw std::runtime_error(message)`. -/
def Outcome.throw {α : Type} (message : String) : Outcome α := ⟨[], [], .error message⟩

/-- Sequencing: a thrown exception skips the rest, otherwise output and calls accumulate. -/
def Outcome.andThen {α β : Type} (x : Outcome α) (f : α → Outcome β) : Outcome β :=
  match x.result with
  | .error e => ⟨x.cerr, x.calls, .error e⟩
  | .ok a => ⟨x.cerr ++ (f a).cerr, x.calls ++ (f a).calls, (f a).result⟩

instance : Monad Outcome where
  pure := Outcome.ok
  bind := Outcome.andThen

/-- An OpenCL call that returns `value`. -/
def Outcome.call {α : Type} (c : ClCall) (value : α) : Outcome α := ⟨[], [c], .ok value⟩

/-- A line written to `std::cerr`. -/
def Outcome.writeCerr (line : String) : Outcome Unit := ⟨[line], [], .ok ()⟩

/-- The OpenCL status `CL_SUCCESS`. -/
def CL_SUCCESS : Int := 0

/-- The OpenCL status `CL_DEVICE_NOT_FOUND`. -/
def CL_DEVICE_NOT_FOUND : Int := -1

/-- Helper `CheckCLError(errCode, operation)`: on a status other than `CL_SUCCESS` it
writes a line to `std::cerr` and throws a `std::runtime_error` naming the operation and
the code. -/
def CheckCLError (errCode : Int) (operation : String) : Outcome Unit :=
  if errCode ≠ CL_SUCCESS then do
    Outcome.writeCerr ("OpenCL Error during " ++ operation ++ ": " ++ toString errCode)
    Outcome.throw ("OpenCL Error: " ++ operation ++ " failed with code " ++ toString errCode)
  else pure ()

/-- Helper `CreateProgramWithSource`; the answers of the OpenCL runtime are parameters:
the status of `clCreateProgramWithSource` and the program handle it returns, the status
of `clBuildProgram`, and the build log `clGetProgramBuildInfo` reports. -/
def CreateProgramWithSource (createErr : Int) (program : Nat) (buildErr : Int)
    (buildLog : String) : Outcome Nat := do
  CheckCLError createErr "clCreateProgramWithSource"
  if buildErr ≠ CL_SUCCESS then
    Outcome.writeCerr "--- OpenCL Program Build Log ---"
    Outcome.writeCerr buildLog
    Outcome.writeCerr "------------------------------"
    CheckCLError buildErr "clBuildProgram"
  pure program

/-- One OpenCL platform of the abstract enumeration: its GPU-class and its CPU-class
devices. -/
structure ClPlatform where
  gpuDevices : List Nat
  cpuDevices : List Nat

/-- The abstract platform/device enumeration the backend runs against, with the answers
of context and queue creation (status and handle). -/
structure ClEnvironment where
  platforms : List ClPlatform
  createContext : Nat → Int × Nat
  createCommandQueue : Nat → Nat → Int × Nat

/-- The documented answer of `clGetPlatformIDs`: success and the number of platforms. -/
def ClEnvironment.clGetPlatformIDs (env : ClEnvironment) : Int × Nat :=
  (CL_SUCCESS, env.platforms.length)

/-- The documented answer of `clGetDeviceIDs` for the devices of one class: status
`CL_DEVICE_NOT_FOUND` when there is none, otherwise success, their number and the first
device. -/
def clGetDeviceIDs (devices : List Nat) : Int × Nat × Nat :=
  match devices with
  | [] => (CL_DEVICE_NOT_FOUND, 0, 0)
  | d :: _ => (CL_SUCCESS, devices.length, d)

/-- The handles that `InitializeOpenCl` stores in the object. -/
structure Backend where
  m_deviceId : Nat
  m_context : Nat
  m_commandQueue : Nat
deriving DecidableEq

/-- The common tail of `InitializeOpenCl`: create the context for the selected device,
then the command queue for that context and device. -/
def createContextAndQueue (env : ClEnvironment) (m_deviceId : Nat) : Outcome Backend := do
  let (err, m_context) ← Outcome.call (.clCreateContext m_deviceId) (env.createContext m_deviceId)
  CheckCLError err "clCreateContext"
  let (err, m_commandQueue) ← Outcome.call (.clCreateCommandQueue m_context m_deviceId)
    (env.createCommandQueue m_context m_deviceId)
  CheckCLError err "clCreateCommandQueue"
  pure { m_deviceId := m_deviceId, m_context := m_context, m_commandQueue := m_commandQueue }

/-- Method `MatrixMultiplier::InitializeOpenCl`. -/
def MatrixMultiplier.InitializeOpenCl (env : ClEnvironment) : Outcome Backend := do
  let (err, numPlatforms) ← Outcome.call .clGetPlatformIDs env.clGetPlatformIDs
  CheckCLError err "clGetPlatformIDs (count)"
  if numPlatforms = 0 then Outcome.throw "No OpenCL platforms found."
  else
    let (err, _) ← Outcome.call .clGetPlatformIDs env.clGetPlatformIDs
    CheckCLError err "clGetPlatformIDs (list)"
    let platform := env.platforms.headD ⟨[], []⟩
    let (err, numDevices, _) ←
      Outcome.call (.clGetDeviceIDs .CL_DEVICE_TYPE_GPU) (clGetDeviceIDs platform.gpuDevices)
    if err = CL_DEVICE_NOT_FOUND then
      let (err, _, _) ←
        Outcome.call (.clGetDeviceIDs .CL_DEVICE_TYPE_CPU) (clGetDeviceIDs platform.cpuDevices)
      if err = CL_DEVICE_NOT_FOUND then Outcome.throw "No GPU or CPU OpenCL devices found."
      else
        CheckCLError err "clGetDeviceIDs (CPU count)"
        let (err, _, m_deviceId) ←
          Outcome.call (.clGetDeviceIDs .CL_DEVICE_TYPE_CPU) (clGetDeviceIDs platform.cpuDevices)
        CheckCLError err "clGetDeviceIDs (CPU device)"
        let _ ← Outcome.call (.clGetDeviceInfo m_deviceId) ()
        createContextAndQueue env m_deviceId
    else
      CheckCLError err "clGetDeviceIDs (GPU count)"
      if numDevices = 0 then Outcome.throw "No GPU devices found on selected platform."
      else
        let (err, _, m_deviceId) ←
          Outcome.call (.clGetDeviceIDs .CL_DEVICE_TYPE_GPU) (clGetDeviceIDs platform.gpuDevices)
        CheckCLError err "clGetDeviceIDs (GPU device)"
        let _ ← Outcome.call (.clGetDeviceInfo m_deviceId) ()
        createContextAndQueue env m_deviceId

/-- Method `GaussianFilter::InitializeOpenCl`. -/
def GaussianFilter.InitializeOpenCl (env : ClEnvironment) : Outcome Backend := do
  let (err, numPlatforms) ← Outcome.call .clGetPlatformIDs env.clGetPlatformIDs
  let numPlatforms ←
    if numPlatforms = 0 then do
      let (_, n) ← Outcome.call .clGetPlatformIDs env.clGetPlatformIDs
      pure n
    else pure numPlatforms
  CheckCLError err "clGetPlatformIDs (count)"
  if numPlatforms = 0 then Outcome.throw "GaussianFilter: No OpenCL platforms found."
  else
    let (err, _) ← Outcome.call .clGetPlatformIDs env.clGetPlatformIDs
    CheckCLError err "clGetPlatformIDs (list)"
    let platform := env.platforms.headD ⟨[], []⟩
    let (err, _, gpuDevice) ←
      Outcome.call (.clGetDeviceIDs .CL_DEVICE_TYPE_GPU) (clGetDeviceIDs platform.gpuDevices)
    if err = CL_DEVICE_NOT_FOUND then
      let (err, _, m_deviceId) ←
        Outcome.call (.clGetDeviceIDs .CL_DEVICE_TYPE_CPU) (clGetDeviceIDs platform.cpuDevices)
      CheckCLError err "clGetDeviceIDs (CPU)"
      createContextAndQueue env m_deviceId
    else
      CheckCLError err "clGetDeviceIDs (GPU)"
      createContextAndQueue env gpuDevice


/-! ## Ticket office (`6_1/TicketOffice.h`) -/

namespace TicketOffice

/-- The data member of a `TicketOffice` object: the atomic counter `m_numTickets`. -/
structure Object where
  m_numTickets : Int
deriving DecidableEq

/-- Constructor `TicketOffice(numTickets)`. -/
def TicketOffice (numTickets : Int) : Object := { m_numTickets := numTickets }

/-- Method `GetTicketsLeft`. -/
def GetTicketsLeft (self : Object) : Int := self.m_numTickets

/-- Atomic `m_numTickets.compare_exchange_weak(expected, desired)` on the counter value
`m`: it succeeds, storing `desired`, when `m = expected` and it does not fail spuriously;
otherwise it fails and loads `m` into `expected`.  The result is the success flag, the new
counter value and the new value of `expected`. -/
def compare_exchange_weak (m expected desired : Int) (spuriousFailure : Bool) :
    Bool × Int × Int :=
  if m = expected ∧ spuriousFailure = false then (true, desired, expected)
  else (false, m, m)

/-- The `while (true)` loop of `SellTickets` run without interference from other threads.
Each loop iteration that reaches the compare-exchange consumes one entry of
`casFailures`, which says whether that compare-exchange fails spuriously.  The result is
the returned value and the new counter value, or `none` when the loop is still running
after the listed compare-exchanges. -/
def sellLoop : List Bool → Int → Int → Int → Option (Int × Int)
  | casFailures, m_numTickets, currentTickets, ticketsToBuy =>
    if currentTickets < ticketsToBuy ∧ currentTickets = 0 then some (0, m_numTickets)
    else
      let ticketsToBuy := if currentTickets < ticketsToBuy then currentTickets else ticketsToBuy
      match casFailures with
      | [] => none
      | spuriousFailure :: rest =>
        match compare_exchange_weak m_numTickets currentTickets
            (currentTickets - ticketsToBuy) spuriousFailure with
        | (true, m, _) => some (ticketsToBuy, m)
        | (false, m, current) => sellLoop rest m current ticketsToBuy

/-- Method `SellTickets(ticketsToBuy)` called without interference: the argument check,
the load of the counter and the loop.  The result pairs the returned value, or the message
of the `std::invalid_argument` thrown, with the object after the call; it is `none` when
the loop does not finish within `casFailures`. -/
def SellTickets (self : Object) (ticketsToBuy : Int) (casFailures : List Bool) :
    Option (Except String Int × Object) :=
  if ticketsToBuy ≤ 0 then some (.error "ticketsToBuy must be positive", self)
  else
    let currentTickets := self.m_numTickets
    match sellLoop casFailures self.m_numTickets currentTickets ticketsToBuy with
    | none => none
    | some (sold, m) => some (.ok sold, { m_numTickets := m })

/-- The progress of one thread inside `SellTickets`: before the call, inside the loop
with its local variables, returned with a value, or ended by the exception. -/
inductive Thread where
  | start (ticketsToBuy : Int)
  | loop (ticketsToBuy currentTickets : Int)
  | returned (value : Int)
  | threw
deriving DecidableEq

/-- One atomic action of a thread on the shared counter `m`: from `start`, the argument
check and the load; from `loop`, one loop iteration up to and including its
compare-exchange.  The result is the new counter value and the new thread state. -/
def Thread.step (m : Int) (spuriousFailure : Bool) : Thread → Int × Thread
  | .start ticketsToBuy =>
    if ticketsToBuy ≤ 0 then (m, .threw) else (m, .loop ticketsToBuy m)
  | .loop ticketsToBuy currentTickets =>
    if currentTickets < ticketsToBuy ∧ currentTickets = 0 then (m, .returned 0)
    else
      let ticketsToBuy := if currentTickets < ticketsToBuy then currentTickets else ticketsToBuy
      match compare_exchange_weak m currentTickets (currentTickets - ticketsToBuy)
          spuriousFailure with
      | (true, m, _) => (m, .returned ticketsToBuy)
      | (false, m, current) => (m, .loop ticketsToBuy current)
  | .returned value => (m, .returned value)
  | .threw => (m, .threw)

/-- The value a thread adds to `totalSold`: what `SellTickets` returned, `0` otherwise. -/
def Thread.sold : Thread → Int
  | .returned value => value
  | _ => 0

/-- A ticket office shared by several threads, each inside one `SellTickets` call. -/
structure Concurrent where
  m_numTickets : Int
  threads : List Thread

/-- Thread `i` performs its next atomic action. -/
def Concurrent.step (s : Concurrent) (i : Nat) (spuriousFailure : Bool) : Concurrent :=
  match s.threads[i]? with
  | none => s
  | some t =>
    { m_numTickets := (t.step s.m_numTickets spuriousFailure).1,
      threads := s.threads.set i (t.step s.m_numTickets spuriousFailure).2 }

/-- An interleaving: the thread that moves at each step, and whether its compare-exchange
fails spuriously. -/
def Concurrent.run (s : Concurrent) (schedule : List (Nat × Bool)) : Concurrent :=
  schedule.foldl (fun s a => s.step a.1 a.2) s

/-- The state of `TestConcurrentSelling` once the threads are created: `numTickets`
tickets and one thread per request. -/
def Concurrent.init (numTickets : Int) (requests : List Int) : Concurrent :=
  { m_numTickets := numTickets, threads := requests.map Thread.start }

end TicketOffice

namespace TicketOffice

/-- A sequence of `SellTickets` calls made one after another on the same office; each
call comes with the spurious-failure flags of its compare-exchanges.  The result is the
sum of the returned values and the office after the last call; a call that throws adds
nothing. -/
def SellSequence (self : Object) : List (Int × List Bool) → Option (Int × Object)
  | [] => some (0, self)
  | call :: rest =>
    match SellTickets self call.1 call.2 with
    | none => none
    | some (.ok sold, after) =>
      (SellSequence after rest).map (fun r => (sold + r.1, r.2))
    | some (.error _, after) => SellSequence after rest

end TicketOffice


namespace GaussianFilter

/-- The rounded weighted sum over the offsets `o = -kernelRadius .. kernelRadius` of the
pixels `sample o`, with weight `filterKernel[o + kernelRadius]`: the terms are accumulated
in increasing order of `o` and the sum is converted with `convert_uchar4_sat_rte`. -/
def weightedSum (filterKernel : List ℚ) (kernelRadius : Int) (sample : Int → UChar4) :
    UChar4 :=
  convert_uchar4_sat_rte
    ((intRange (-kernelRadius) kernelRadius).foldl
      (fun sum offset =>
        mulAdd sum (convert_float4 (sample offset))
          (filterKernel.getD (offset + kernelRadius).toNat 0))
      (⟨0, 0, 0, 0⟩ : Float4))

/-- The horizontal clamp-to-edge blur of an image of row length `imageWidth`, at the pixel
`(x, y)`: the rounded weighted sum of the pixels `(clamp(x + o, 0, imageWidth - 1), y)`. -/
def horizontalBlur (image : List UChar4) (filterKernel : List ℚ) (kernelRadius : Int)
    (imageWidth : Nat) (x y : Nat) : UChar4 :=
  weightedSum filterKernel kernelRadius
    (fun o => image.getD
      (y * imageWidth + (clamp ((x : Int) + o) 0 ((imageWidth : Int) - 1)).toNat) ⟨0, 0, 0, 0⟩)

/-- The direct vertical clamp-to-edge blur of an image given by its pixels `image x y`, of
column length `imageHeight`, at the pixel `(x, y)`: the rounded weighted sum of the pixels
`(x, clamp(y + o, 0, imageHeight - 1))`. -/
def verticalBlur (image : Nat → Nat → UChar4) (filterKernel : List ℚ) (kernelRadius : Int)
    (imageHeight : Nat) (x y : Nat) : UChar4 :=
  weightedSum filterKernel kernelRadius
    (fun o => image x (clamp ((y : Int) + o) 0 ((imageHeight : Int) - 1)).toNat)

end GaussianFilter


/-- The result of a binary32 operation whose exact value is `x`: `x` rounded to the
nearest number with a 24-bit significand, ties to even.  With `2 ^ e ≤ |x| < 2 ^ (e + 1)`
the spacing of the binary32 numbers around `x` is `2 ^ (e - 23)`.  The exponent range is
not modelled: the values the kernels compute are far from overflow, and below the normal
range only `0` occurs. -/
def roundBinary32 (x : ℚ) : ℚ :=
  if x = 0 then 0
  else
    let e := Int.log 2 |x|
    let ulp : ℚ := 2 ^ (e - 23)
    (GaussianFilter.roundTiesEven (x / ulp) : ℚ) * ulp

namespace MotionBlurFilter

namespace Binary32

/-- The body of the channel loop of `ApplyMotionBlur` with the `float` operations rounded
to binary32: each `accumulatedColor += (float)inputImage[sampleIndex]`, the conversion of
`samplesCount` to `float` and the division. -/
def blurChannel (inputImage : List Nat) (imageWidth imageHeight numChannels : Nat)
    (blurLength : Int) (globalX globalY : Nat) (outputImage : List Nat) (c : Nat) : List Nat :=
  let startOffset := (offsets blurLength).1
  let endOffset := (offsets blurLength).2
  let acc := (intRange startOffset endOffset).foldl
    (fun (st : ℚ × Nat) offset =>
      let sampleX := clamp ((globalX : Int) + offset) 0 ((imageWidth : Int) - 1)
      let sampleIndex := (globalY * imageWidth + sampleX) * numChannels + c
      (roundBinary32 (st.1 + (inputImage.getD sampleIndex.toNat 0 : ℚ)), st.2 + 1))
    ((0 : ℚ), 0)
  let accumulatedColor := acc.1
  let samplesCount := acc.2
  let outputIndex := (globalY * imageWidth + globalX) * numChannels + c
  if samplesCount > 0 then
    outputImage.set outputIndex
      (toUChar (roundBinary32 (accumulatedColor / roundBinary32 (samplesCount : ℚ))))
  else
    outputImage.set outputIndex (inputImage.getD outputIndex 0)

/-- Kernel `ApplyMotionBlur` for the work-item `(globalX, globalY)`, in binary32. -/
def ApplyMotionBlur (inputImage : List Nat) (imageWidth imageHeight numChannels : Nat)
    (blurLength : Int) (outputImage : List Nat) (globalX globalY : Nat) : List Nat :=
  if globalX ≥ imageWidth ∨ globalY ≥ imageHeight then outputImage
  else
    (List.range numChannels).foldl
      (blurChannel inputImage imageWidth imageHeight numChannels blurLength globalX globalY)
      outputImage

/-- Method `MotionBlurFilter::ApplyFilter` with stored length `m_blurLength`, the kernel
computing in binary32; `outputBuffer0` is the arbitrary initial content of the write-only
output buffer.  The result is the new content of `imageData`. -/
def ApplyFilter (outputBuffer0 : Nat → Nat) (m_blurLength : Int)
    (imageData : List Nat) (width height channels : Nat) : List Nat :=
  if m_blurLength ≤ 0 then imageData
  else
    let imageSizeBytes := width * height * channels
    let inputBuffer := imageData.take imageSizeBytes
    let outputBuffer := (List.range imageSizeBytes).map outputBuffer0
    let outputBuffer := dispatch2D width height
      (ApplyMotionBlur inputBuffer width height channels m_blurLength) outputBuffer
    outputBuffer ++ imageData.drop imageSizeBytes

end Binary32

end MotionBlurFilter

namespace RadialBlurFilter

namespace Binary32

/-- The body of the sampling channel loop of `ApplyRadialBlur` (lines 53-77) for channel
`c`, with the `float` operations rounded to binary32. -/
def radialChannel (inputImage : List Nat) (imageWidth imageHeight numChannels : Nat)
    (dirX dirY sampleStep : ℚ) (numSamples : Int) (globalX globalY : Nat)
    (outputImage : List Nat) (c : Nat) : List Nat :=
  let acc := (List.range numSamples.toNat).foldl
    (fun (st : ℚ × Nat) (s : Nat) =>
      let currentOffset : ℚ := roundBinary32 (roundBinary32 (s : ℚ) * sampleStep)
      let sampleX := clamp
        (truncInt (roundBinary32 (roundBinary32 (globalX : ℚ)
          - roundBinary32 (dirX * currentOffset)))) 0 ((imageWidth : Int) - 1)
      let sampleY := clamp
        (truncInt (roundBinary32 (roundBinary32 (globalY : ℚ)
          - roundBinary32 (dirY * currentOffset)))) 0 ((imageHeight : Int) - 1)
      let sampleIndex := (sampleY * imageWidth + sampleX) * numChannels + c
      (roundBinary32 (st.1 + (inputImage.getD sampleIndex.toNat 0 : ℚ)), st.2 + 1))
    ((0 : ℚ), 0)
  let accumulatedColor := acc.1
  let actualSamplesCount := acc.2
  let outputIndex := (globalY * imageWidth + globalX) * numChannels + c
  if actualSamplesCount > 0 then
    outputImage.set outputIndex
      (MotionBlurFilter.toUChar
        (roundBinary32 (accumulatedColor / roundBinary32 (actualSamplesCount : ℚ))))
  else
    outputImage.set outputIndex (inputImage.getD outputIndex 0)

/-- Kernel `ApplyRadialBlur` for the work-item `(globalX, globalY)`, with the `float`
operations rounded to binary32 one by one in source order and the built-in `sqrt` as the
parameter `sqrtf`. -/
def ApplyRadialBlur (sqrtf : ℚ → ℚ) (inputImage : List Nat)
    (imageWidth imageHeight numChannels : Nat) (blurIntensity : Int)
    (outputImage : List Nat) (globalX globalY : Nat) : List Nat :=
  if globalX ≥ imageWidth ∨ globalY ≥ imageHeight then outputImage
  else
    let centerX : ℚ := roundBinary32 (roundBinary32 (imageWidth : ℚ) / 2)
    let centerY : ℚ := roundBinary32 (roundBinary32 (imageHeight : ℚ) / 2)
    let deltaX : ℚ := roundBinary32 (roundBinary32 (globalX : ℚ) - centerX)
    let deltaY : ℚ := roundBinary32 (roundBinary32 (globalY : ℚ) - centerY)
    let distanceToCenter : ℚ :=
      sqrtf (roundBinary32 (roundBinary32 (deltaX * deltaX) + roundBinary32 (deltaY * deltaY)))
    if distanceToCenter < 1 ∨ blurIntensity = 0 then
      (List.range numChannels).foldl
        (fun outputImage ch =>
          let currentIndex := (globalY * imageWidth + globalX) * numChannels + ch
          outputImage.set currentIndex (inputImage.getD currentIndex 0))
        outputImage
    else
      let dirX := roundBinary32 (deltaX / distanceToCenter)
      let dirY := roundBinary32 (deltaY / distanceToCenter)
      let maxPossibleDist : ℚ :=
        roundBinary32 ((1 / 2) * sqrtf (roundBinary32
          (((imageWidth * imageWidth + imageHeight * imageHeight : Nat) : ℚ))))
      let maxPossibleDist : ℚ := if maxPossibleDist < 1 then 1 else maxPossibleDist
      let stepFactor : ℚ :=
        roundBinary32 (roundBinary32 (5 / 1000) * roundBinary32 (blurIntensity : ℚ))
      let sampleStep : ℚ :=
        roundBinary32 (1 + roundBinary32
          (roundBinary32 (roundBinary32 (distanceToCenter / maxPossibleDist) * stepFactor)
            * roundBinary32 (blurIntensity : ℚ)))
      let sampleStep : ℚ := max 1 sampleStep
      let numSamples : Int := max 1 (Int.tdiv blurIntensity 2 + 1)
      (List.range numChannels).foldl
        (radialChannel inputImage imageWidth imageHeight numChannels dirX dirY sampleStep
          numSamples globalX globalY)
        outputImage

/-- Method `RadialBlurFilter::ApplyFilter` with stored intensity `m_intensity`, the kernel
computing in binary32; `outputBuffer0` is the arbitrary initial content of the write-only
output buffer.  The result is the new content of `imageData`. -/
def ApplyFilter (sqrtf : ℚ → ℚ) (outputBuffer0 : Nat → Nat) (m_intensity : Int)
    (imageData : List Nat) (width height channels : Nat) : List Nat :=
  if m_intensity ≤ 0 then imageData
  else
    let imageSizeBytes := width * height * channels
    let inputBuffer := imageData.take imageSizeBytes
    let outputBuffer := (List.range imageSizeBytes).map outputBuffer0
    let outputBuffer := dispatch2D width height
      (ApplyRadialBlur sqrtf inputBuffer width height channels m_intensity) outputBuffer
    outputBuffer ++ imageData.drop imageSizeBytes

end Binary32

end RadialBlurFilter


/-! # Theorems -/

/-! ## Generic lemmas on loops -/

section Loops

variable {β γ : Type}

/-- A property kept by every iteration of a loop holds after the loop. -/
theorem foldl_inv (P : β → Prop) (step : β → γ → β) (xs : List γ)
    (hstep : ∀ b x, x ∈ xs → P b → P (step b x)) (init : β) (h0 : P init) :
    P (xs.foldl step init) := by
  induction xs generalizing init with
  | nil => simpa using h0
  | cons x xs ih =>
    rw [List.foldl_cons]
    exact ih (fun b y hy hb => hstep b y (List.mem_cons_of_mem _ hy) hb) _
      (hstep init x (List.mem_cons_self _ _) h0)

/-- If iteration `x0` establishes `Q` from `R`, every iteration keeps `R` and keeps `Q`,
then `Q` holds after the loop. -/
theorem foldl_establish (R Q : β → Prop) (step : β → γ → β) (xs : List γ) (x0 : γ)
    (hx0 : x0 ∈ xs)
    (hR : ∀ b x, x ∈ xs → R b → R (step b x))
    (hE : ∀ b, R b → Q (step b x0))
    (hQ : ∀ b x, x ∈ xs → Q b → Q (step b x))
    (init : β) (h0 : R init) : Q (xs.foldl step init) := by
  obtain ⟨l1, l2, rfl⟩ := List.append_of_mem hx0
  rw [List.foldl_append, List.foldl_cons]
  apply foldl_inv Q step l2
  · intro b x hx hb
    exact hQ b x (by simp [hx]) hb
  · apply hE
    apply foldl_inv R step l1
    · intro b x hx hb
      exact hR b x (by simp [hx]) hb
    · exact h0

/-- A loop over `tiles` blocks of `size` iterations is one loop over `tiles * size`. -/
theorem foldl_blocks (g : β → Nat → β) (size : Nat) (tiles : Nat) (init : β) :
    (List.range tiles).foldl
        (fun acc t => (List.range size).foldl (fun acc k => g acc (t * size + k)) acc) init
      = (List.range (tiles * size)).foldl g init := by
  induction tiles with
  | zero => simp
  | succ n ih =>
    rw [List.range_succ, List.foldl_append, ih, Nat.succ_mul, List.range_add,
      List.foldl_append, List.foldl_map]
    simp

theorem cellIs_set_self {α : Type} {L idx : Nat} {v : α} {b : List α}
    (hL : b.length = L) (hidx : idx < L) : CellIs L idx v (b.set idx v) := by
  refine ⟨by simpa using hL, ?_⟩
  rw [List.getElem?_set_self (by omega)]

theorem cellIs_set {α : Type} {L idx idx' : Nat} {v v' : α} {b : List α}
    (h : CellIs L idx v b) (hv : idx' = idx → v' = v) : CellIs L idx v (b.set idx' v') := by
  refine ⟨by simpa using h.1, ?_⟩
  by_cases he : idx' = idx
  · subst he
    rw [List.getElem?_set_self, hv rfl]
    have := h.2
    by_contra hc
    rw [List.getElem?_eq_none (by omega)] at this
    exact Option.noConfusion this
  · rw [List.getElem?_set_ne he]
    exact h.2

/-- Row-major cell indices are unique. -/
theorem cell_index_inj {N i j i' j' : Nat} (hj : j < N) (hj' : j' < N)
    (h : i * N + j = i' * N + j') : i = i' ∧ j = j' := by
  have hN : 0 < N := by omega
  have h1 : (N * i + j) / N = i := by
    rw [Nat.mul_add_div hN, Nat.div_eq_of_lt hj, Nat.add_zero]
  have h2 : (N * i' + j') / N = i' := by
    rw [Nat.mul_add_div hN, Nat.div_eq_of_lt hj', Nat.add_zero]
  have h3 : N * i + j = N * i' + j' := by
    rw [Nat.mul_comm N i, Nat.mul_comm N i']; exact h
  have hi : i = i' := by rw [← h1, ← h2, h3]
  subst hi
  exact ⟨rfl, by omega⟩

theorem cell_index_lt {M N i j : Nat} (hi : i < M) (hj : j < N) : i * N + j < M * N := by
  have : (i + 1) * N ≤ M * N := Nat.mul_le_mul_right N hi
  rw [Nat.succ_mul] at this
  omega

end Loops

/-! ## Matrix multiplier: host path -/

section MatrixProofs

variable {α : Type} [Add α] [Mul α] [Zero α]

/-- The row loop body of `MultiplyOnCpu` keeps the length of the result. -/
theorem cpu_row_length (K N : Nat) (A B : List α) (i : Nat) (L : Nat) (res : List α)
    (h : res.length = L) :
    ((List.range N).foldl
      (fun resultMatrix j => resultMatrix.set (i * N + j) (cpuCell K N A B i j)) res).length = L := by
  apply foldl_inv (fun b : List α => b.length = L)
  · intro b x _ hb
    simpa using hb
  · exact h

theorem MultiplyOnCpu_length (M K N : Nat) (A B : List α) :
    (MultiplyOnCpu M K N A B).length = M * N := by
  unfold MultiplyOnCpu
  apply foldl_inv (fun b : List α => b.length = M * N)
  · intro b i _ hb
    exact cpu_row_length K N A B i (M * N) b hb
  · simp

/-- Every cell of the host result holds the dot product computed by the inner loop. -/
theorem MultiplyOnCpu_cell (M K N : Nat) (A B : List α) (i j : Nat) (hi : i < M) (hj : j < N) :
    CellIs (M * N) (i * N + j) (cpuCell K N A B i j) (MultiplyOnCpu M K N A B) := by
  unfold MultiplyOnCpu
  apply foldl_establish (fun b : List α => b.length = M * N)
    (CellIs (M * N) (i * N + j) (cpuCell K N A B i j)) _ _ i (List.mem_range.2 hi)
  · intro b x _ hb
    exact cpu_row_length K N A B x (M * N) b hb
  · intro b hb
    apply foldl_establish (fun b : List α => b.length = M * N)
      (CellIs (M * N) (i * N + j) (cpuCell K N A B i j)) _ _ j (List.mem_range.2 hj)
    · intro b x _ hb
      simpa using hb
    · intro b hb
      exact cellIs_set_self hb (cell_index_lt hi hj)
    · intro b x hx hb
      apply cellIs_set hb
      intro he
      have := (cell_index_inj (List.mem_range.1 hx) hj he).2
      subst this
      rfl
    · exact hb
  · intro b x _ hb
    apply foldl_inv (CellIs (M * N) (i * N + j) (cpuCell K N A B i j))
    · intro b y hy hb
      apply cellIs_set hb
      intro he
      have := cell_index_inj (List.mem_range.1 hy) hj he
      obtain ⟨h1, h2⟩ := this
      subst h1; subst h2
      rfl
    · exact hb
  · simp

end MatrixProofs

/-! ## Matrix multiplier: device path -/

section KernelProofs

variable {α : Type} [Add α] [Mul α] [Zero α]

/-- After the staging phase over the work-items `l`, each tile cell whose owner is in `l`
holds the zero-padded operand element; the accumulators are untouched. -/
theorem loadTiles_fold (M K N : Nat) (A B : List α) (gr gc t : Nat) (l : List (Nat × Nat))
    (wg : WorkGroup α) :
    (l.foldl (loadTiles M K N A B gr gc t) wg).accumulator = wg.accumulator ∧
    (∀ r c, (l.foldl (loadTiles M K N A B gr gc t) wg).tileA r c =
      if (r, c) ∈ l then
        (if gr * TILE_SIZE + r < M ∧ t * TILE_SIZE + c < K then
          A.getD ((gr * TILE_SIZE + r) * K + (t * TILE_SIZE + c)) 0 else 0)
      else wg.tileA r c) ∧
    (∀ r c, (l.foldl (loadTiles M K N A B gr gc t) wg).tileB r c =
      if (r, c) ∈ l then
        (if t * TILE_SIZE + r < K ∧ gc * TILE_SIZE + c < N then
          B.getD ((t * TILE_SIZE + r) * N + (gc * TILE_SIZE + c)) 0 else 0)
      else wg.tileB r c) := by
  induction l generalizing wg with
  | nil => simp
  | cons a l ih =>
    rw [List.foldl_cons]
    obtain ⟨h1, h2, h3⟩ := ih (loadTiles M K N A B gr gc t wg a)
    refine ⟨by rw [h1]; rfl, ?_, ?_⟩
    · intro r c
      rw [h2]
      by_cases hm : (r, c) ∈ l
      · simp [hm]
      · by_cases he : (r, c) = a
        · subst he
          simp [hm, loadTiles, storeTile]
        · have he' : ¬ (r = a.1 ∧ c = a.2) := fun h => he (Prod.ext h.1 h.2)
          simp [hm, he, loadTiles, storeTile, he']
    · intro r c
      rw [h3]
      by_cases hm : (r, c) ∈ l
      · simp [hm]
      · by_cases he : (r, c) = a
        · subst he
          simp [hm, loadTiles, storeTile]
        · have he' : ¬ (r = a.1 ∧ c = a.2) := fun h => he (Prod.ext h.1 h.2)
          simp [hm, he, loadTiles, storeTile, he']

theorem accumulateTile_fold (l : List (Nat × Nat)) (hl : l.Nodup) (wg : WorkGroup α) :
    (l.foldl accumulateTile wg).tileA = wg.tileA ∧
    (l.foldl accumulateTile wg).tileB = wg.tileB ∧
    (∀ r c, (l.foldl accumulateTile wg).accumulator r c =
      if (r, c) ∈ l then
        (List.range TILE_SIZE).foldl
          (fun accumulator k => accumulator + wg.tileA r k * wg.tileB k c) (wg.accumulator r c)
      else wg.accumulator r c) := by
  induction l generalizing wg with
  | nil => simp
  | cons a l ih =>
    rw [List.foldl_cons]
    obtain ⟨hna, hl'⟩ := List.nodup_cons.1 hl
    obtain ⟨h1, h2, h3⟩ := ih hl' (accumulateTile wg a)
    refine ⟨by rw [h1]; rfl, by rw [h2]; rfl, ?_⟩
    intro r c
    rw [h3]
    by_cases hm : (r, c) ∈ l
    · have he : ¬ (r = a.1 ∧ c = a.2) := by
        rintro ⟨rfl, rfl⟩
        exact hna hm
      simp [hm, accumulateTile, storeTile, he]
    · by_cases he : (r, c) = a
      · subst he
        simp [hm, accumulateTile, storeTile]
      · have he' : ¬ (r = a.1 ∧ c = a.2) := fun h => he (Prod.ext h.1 h.2)
        simp [hm, he, accumulateTile, storeTile, he']

theorem localIds_nodup : localIds.Nodup :=
  List.Nodup.product (List.nodup_range _) (List.nodup_range _)

theorem mem_localIds {r c : Nat} : (r, c) ∈ localIds ↔ r < TILE_SIZE ∧ c < TILE_SIZE := by
  simp [localIds, List.pair_mem_product]

/-- One tile step adds, for `k < TILE_SIZE`, the product of the zero-padded operands at
inner index `t * TILE_SIZE + k` to the accumulator of work-item `(r, c)`. -/
theorem tileStep_accumulator (M K N : Nat) (A B : List α) (gr gc : Nat) (wg : WorkGroup α)
    (t r c : Nat) (hr : r < TILE_SIZE) (hc : c < TILE_SIZE) :
    (tileStep M K N A B gr gc wg t).accumulator r c =
      (List.range TILE_SIZE).foldl
        (fun acc k => acc +
          (if gr * TILE_SIZE + r < M ∧ t * TILE_SIZE + k < K then
            A.getD ((gr * TILE_SIZE + r) * K + (t * TILE_SIZE + k)) 0 else 0) *
          (if t * TILE_SIZE + k < K ∧ gc * TILE_SIZE + c < N then
            B.getD ((t * TILE_SIZE + k) * N + (gc * TILE_SIZE + c)) 0 else 0))
        (wg.accumulator r c) := by
  unfold tileStep
  obtain ⟨_, _, h3⟩ := accumulateTile_fold localIds localIds_nodup
    (localIds.foldl (loadTiles M K N A B gr gc t) wg)
  obtain ⟨g1, g2, g3⟩ := loadTiles_fold M K N A B gr gc t localIds wg
  simp only []
  rw [h3, if_pos (mem_localIds.2 ⟨hr, hc⟩), g1]
  apply List.foldl_ext
  intro acc k hk
  have hk' := List.mem_range.1 hk
  rw [g2, g3, if_pos (mem_localIds.2 ⟨hr, hk'⟩), if_pos (mem_localIds.2 ⟨hk', hc⟩)]

theorem tileLoop_accumulator (M K N : Nat) (A B : List α) (gr gc : Nat) (ts : List Nat)
    (wg : WorkGroup α) (r c : Nat) (hr : r < TILE_SIZE) (hc : c < TILE_SIZE) :
    (ts.foldl (tileStep M K N A B gr gc) wg).accumulator r c =
      ts.foldl (fun acc t => (List.range TILE_SIZE).foldl
        (fun acc k => acc +
          (if gr * TILE_SIZE + r < M ∧ t * TILE_SIZE + k < K then
            A.getD ((gr * TILE_SIZE + r) * K + (t * TILE_SIZE + k)) 0 else 0) *
          (if t * TILE_SIZE + k < K ∧ gc * TILE_SIZE + c < N then
            B.getD ((t * TILE_SIZE + k) * N + (gc * TILE_SIZE + c)) 0 else 0)) acc)
        (wg.accumulator r c) := by
  induction ts generalizing wg with
  | nil => simp
  | cons t ts ih =>
    rw [List.foldl_cons, List.foldl_cons, ih, tileStep_accumulator M K N A B gr gc wg t r c hr hc]

/-- Accumulating over the zero-padded operands for `n ≥ K` steps gives the dot product:
the padded steps add `0 * 0`. -/
theorem padded_dot (hpad : ∀ x : α, x + 0 * 0 = x) (M K N : Nat) (A B : List α)
    (i j : Nat) (hi : i < M) (hj : j < N) (n : Nat) (hn : K ≤ n) :
    (List.range n).foldl
        (fun acc kk => acc +
          (if i < M ∧ kk < K then A.getD (i * K + kk) 0 else 0) *
          (if kk < K ∧ j < N then B.getD (kk * N + j) 0 else 0)) (0 : α)
      = cpuCell K N A B i j := by
  induction n with
  | zero =>
    have : K = 0 := by omega
    subst this
    simp [cpuCell]
  | succ n ih =>
    by_cases h : K ≤ n
    · rw [List.range_succ, List.foldl_append, ih h]
      have hk : ¬ n < K := by omega
      simp [hk, hpad]
    · have : K = n + 1 := by omega
      subst this
      unfold cpuCell
      apply List.foldl_ext
      intro acc k hk
      have hk' := List.mem_range.1 hk
      simp [hi, hj, hk']

theorem runWorkGroup_accumulator (hpad : ∀ x : α, x + 0 * 0 = x) (u : Uninit α)
    (M K N : Nat) (A B : List α) (gr gc r c : Nat) (hr : r < TILE_SIZE) (hc : c < TILE_SIZE)
    (hi : gr * TILE_SIZE + r < M) (hj : gc * TILE_SIZE + c < N) :
    (runWorkGroup u M K N A B gr gc).accumulator r c =
      cpuCell K N A B (gr * TILE_SIZE + r) (gc * TILE_SIZE + c) := by
  unfold runWorkGroup
  simp only []
  rw [tileLoop_accumulator M K N A B gr gc _ _ r c hr hc]
  rw [foldl_blocks (fun acc kk => acc +
          (if gr * TILE_SIZE + r < M ∧ kk < K then
            A.getD ((gr * TILE_SIZE + r) * K + kk) 0 else 0) *
          (if kk < K ∧ gc * TILE_SIZE + c < N then
            B.getD (kk * N + (gc * TILE_SIZE + c)) 0 else 0)) TILE_SIZE]
  apply padded_dot hpad M K N A B _ _ hi hj
  unfold TILE_SIZE
  omega

end KernelProofs

/-! ## Matrix multiplier: dispatch and equivalence of the two paths -/

section DispatchProofs

variable {α : Type} [Add α] [Mul α] [Zero α]

theorem writeResult_length (M N gr gc : Nat) (wg : WorkGroup α) (L : Nat) (b : List α)
    (id : Nat × Nat) (hb : b.length = L) : (writeResult M N gr gc wg b id).length = L := by
  unfold writeResult
  simp only []
  split
  · simpa using hb
  · exact hb

/-- Every guarded store of the kernel keeps a cell that already holds its final value. -/
theorem writeResult_keeps (hpad : ∀ x : α, x + 0 * 0 = x) (u : Uninit α)
    (M K N : Nat) (A B : List α) (i j : Nat) (hj : j < N) (gr gc : Nat)
    (b : List α) (id : Nat × Nat) (hid : id ∈ localIds)
    (hb : CellIs (M * N) (i * N + j) (cpuCell K N A B i j) b) :
    CellIs (M * N) (i * N + j) (cpuCell K N A B i j)
      (writeResult M N gr gc (runWorkGroup u M K N A B gr gc) b id) := by
  obtain ⟨r, c⟩ := id
  obtain ⟨hr, hc⟩ := mem_localIds.1 hid
  unfold writeResult
  simp only []
  split
  · rename_i hg
    apply cellIs_set hb
    intro he
    obtain ⟨h1, h2⟩ := cell_index_inj hg.2 hj he
    rw [runWorkGroup_accumulator hpad u M K N A B gr gc r c hr hc hg.1 hg.2, h1, h2]
  · exact hb

theorem MultiplyMatricesTiled_length (u : Uninit α) (g0 g1 M K N : Nat) (A B : List α)
    (L : Nat) (buf : List α) (hbuf : buf.length = L) :
    (MultiplyMatricesTiled u g0 g1 M K N A B buf).length = L := by
  unfold MultiplyMatricesTiled
  apply foldl_inv (fun b : List α => b.length = L) _ _ _ _ hbuf
  intro b gr _ hb
  apply foldl_inv (fun b : List α => b.length = L) _ _ _ _ hb
  intro b gc _ hb
  apply foldl_inv (fun b : List α => b.length = L) _ _ _ _ hb
  intro b id _ hb
  exact writeResult_length M N gr gc _ L b id hb

/-- The dispatch of `MultiplyOnGpu` leaves the host dot product in every cell. -/
theorem MultiplyMatricesTiled_cell (hpad : ∀ x : α, x + 0 * 0 = x) (u : Uninit α)
    (M K N : Nat) (A B : List α) (buf : List α) (hbuf : buf.length = M * N)
    (i j : Nat) (hi : i < M) (hj : j < N) :
    CellIs (M * N) (i * N + j) (cpuCell K N A B i j)
      (MultiplyMatricesTiled u ((M + m_tileSize - 1) / m_tileSize * m_tileSize)
        ((N + m_tileSize - 1) / m_tileSize * m_tileSize) M K N A B buf) := by
  have hlenGroup : ∀ (gr gc : Nat) (b : List α), b.length = M * N →
      (localIds.foldl (writeResult M N gr gc (runWorkGroup u M K N A B gr gc)) b).length
        = M * N := by
    intro gr gc b hb
    apply foldl_inv (fun b : List α => b.length = M * N) _ _ _ _ hb
    intro b id _ hb
    exact writeResult_length M N gr gc _ _ b id hb
  have hkeepGroup : ∀ (gr gc : Nat) (b : List α),
      CellIs (M * N) (i * N + j) (cpuCell K N A B i j) b →
      CellIs (M * N) (i * N + j) (cpuCell K N A B i j)
        (localIds.foldl (writeResult M N gr gc (runWorkGroup u M K N A B gr gc)) b) := by
    intro gr gc b hb
    apply foldl_inv (CellIs (M * N) (i * N + j) (cpuCell K N A B i j)) _ _ _ _ hb
    intro b id hid hb
    exact writeResult_keeps hpad u M K N A B i j hj gr gc b id hid hb
  have hgi : i / 16 < (M + m_tileSize - 1) / m_tileSize * m_tileSize / m_tileSize := by
    unfold m_tileSize; omega
  have hgj : j / 16 < (N + m_tileSize - 1) / m_tileSize * m_tileSize / m_tileSize := by
    unfold m_tileSize; omega
  unfold MultiplyMatricesTiled
  apply foldl_establish (fun b : List α => b.length = M * N)
    (CellIs (M * N) (i * N + j) (cpuCell K N A B i j)) _ _ (i / 16) (List.mem_range.2 hgi)
  · intro b gr _ hb
    apply foldl_inv (fun b : List α => b.length = M * N) _ _ _ _ hb
    intro b gc _ hb
    exact hlenGroup gr gc b hb
  · intro b hb
    apply foldl_establish (fun b : List α => b.length = M * N)
      (CellIs (M * N) (i * N + j) (cpuCell K N A B i j)) _ _ (j / 16) (List.mem_range.2 hgj)
    · intro b gc _ hb
      exact hlenGroup (i / 16) gc b hb
    · intro b hb
      have hr : i % 16 < TILE_SIZE := by unfold TILE_SIZE; omega
      have hc : j % 16 < TILE_SIZE := by unfold TILE_SIZE; omega
      have hi' : i / 16 * TILE_SIZE + i % 16 = i := by unfold TILE_SIZE; omega
      have hj' : j / 16 * TILE_SIZE + j % 16 = j := by unfold TILE_SIZE; omega
      apply foldl_establish (fun b : List α => b.length = M * N)
        (CellIs (M * N) (i * N + j) (cpuCell K N A B i j)) _ _ (i % 16, j % 16)
        (mem_localIds.2 ⟨hr, hc⟩)
      · intro b id _ hb
        exact writeResult_length M N _ _ _ _ b id hb
      · intro b hb
        unfold writeResult
        simp only [hi', hj', hi, hj, and_self, if_true]
        rw [runWorkGroup_accumulator hpad u M K N A B _ _ _ _ hr hc (by omega) (by omega),
          hi', hj']
        exact cellIs_set_self hb (cell_index_lt hi hj)
      · intro b id hid hb
        exact writeResult_keeps hpad u M K N A B i j hj _ _ b id hid hb
      · exact hb
    · intro b gc _ hb
      exact hkeepGroup _ gc b hb
    · exact hb
  · intro b gr _ hb
    apply foldl_inv (CellIs (M * N) (i * N + j) (cpuCell K N A B i j)) _ _ _ _ hb
    intro b gc _ hb
    exact hkeepGroup gr gc b hb
  · exact hbuf

theorem MultiplyOnGpu_length (u : Uninit α) (M K N : Nat) (A B : List α) :
    (MultiplyOnGpu u M K N A B).length = M * N := by
  unfold MultiplyOnGpu
  apply MultiplyMatricesTiled_length
  simp

theorem MultiplyOnGpu_cell (hpad : ∀ x : α, x + 0 * 0 = x) (u : Uninit α)
    (M K N : Nat) (A B : List α) (i j : Nat) (hi : i < M) (hj : j < N) :
    CellIs (M * N) (i * N + j) (cpuCell K N A B i j) (MultiplyOnGpu u M K N A B) := by
  unfold MultiplyOnGpu
  apply MultiplyMatricesTiled_cell hpad u M K N A B _ _ i j hi hj
  simp

/-- Two buffers of length `M * N` that agree on every cell `(i, j)` are equal. -/
theorem eq_of_cells {M N : Nat} {f : Nat → Nat → α} {a b : List α}
    (ha : ∀ i j, i < M → j < N → CellIs (M * N) (i * N + j) (f i j) a)
    (hb : ∀ i j, i < M → j < N → CellIs (M * N) (i * N + j) (f i j) b)
    (hla : a.length = M * N) (hlb : b.length = M * N) : a = b := by
  apply List.ext_getElem (by rw [hla, hlb])
  intro n h1 h2
  have hn : n < M * N := by omega
  have hN : 0 < N := by
    rcases Nat.eq_zero_or_pos N with h | h
    · subst h; simp at hn
    · exact h
  have hidx : n / N * N + n % N = n := by
    rw [Nat.mul_comm]; exact Nat.div_add_mod n N
  have hi : n / N < M := (Nat.div_lt_iff_lt_mul hN).2 hn
  have hj : n % N < N := Nat.mod_lt _ hN
  have h3 := (ha _ _ hi hj).2
  have h4 := (hb _ _ hi hj).2
  rw [hidx] at h3 h4
  rw [List.getElem?_eq_getElem h1] at h3
  rw [List.getElem?_eq_getElem h2] at h4
  exact Option.some.inj (h3.trans h4.symm)

/-- The device path returns the same vector as the host path. -/
theorem MultiplyOnGpu_eq_MultiplyOnCpu (hpad : ∀ x : α, x + 0 * 0 = x) (u : Uninit α)
    (M K N : Nat) (A B : List α) :
    MultiplyOnGpu u M K N A B = MultiplyOnCpu M K N A B :=
  eq_of_cells (fun i j hi hj => MultiplyOnGpu_cell hpad u M K N A B i j hi hj)
    (fun i j hi hj => MultiplyOnCpu_cell M K N A B i j hi hj)
    (MultiplyOnGpu_length u M K N A B) (MultiplyOnCpu_length M K N A B)

end DispatchProofs

/-! ## Claims on the matrix multiplier -/

/-- C1. For every `M, K, N ≥ 1` and row-major operands of lengths `M * K` and `K * N`, the
tiled kernel as dispatched by `MultiplyOnGpu` leaves in every output cell `(i, j)` with
`i < M`, `j < N` exactly the value that the triple loop of `MultiplyOnCpu` computes for
that cell, whatever the uninitialised device memory held and whether or not the
dimensions are multiples of 16; the only arithmetic fact used is that a zero-padded step
adds `0 * 0`, which leaves the accumulator unchanged. -/
theorem C1_tiled_kernel_refines_cpu {α : Type} [Add α] [Mul α] [Zero α]
    (hpad : ∀ x : α, x + 0 * 0 = x) (u : Uninit α) (M K N : Nat) (A B : List α)
    (hM : 1 ≤ M) (hK : 1 ≤ K) (hN : 1 ≤ N) (hA : A.length = M * K) (hB : B.length = K * N)
    (i j : Nat) (hi : i < M) (hj : j < N) :
    (MultiplyOnGpu u M K N A B)[i * N + j]? = some (cpuCell K N A B i j) ∧
    (MultiplyOnCpu M K N A B)[i * N + j]? = some (cpuCell K N A B i j) :=
  ⟨(MultiplyOnGpu_cell hpad u M K N A B i j hi hj).2,
    (MultiplyOnCpu_cell M K N A B i j hi hj).2⟩

/-- C1 at `17 x 18` by `18 x 19` integer operands (no dimension a multiple of 16), cell
`(16, 18)`. -/
theorem C1_tiled_kernel_refines_cpu_witness :
    (MultiplyOnGpu (⟨fun _ => 7, fun _ _ => 5, fun _ _ => 3⟩ : Uninit ℤ) 17 18 19
        ((List.range (17 * 18)).map (fun n : ℕ => (n : ℤ) % 7 - 3))
        ((List.range (18 * 19)).map (fun n : ℕ => (n : ℤ) % 5 - 2)))[16 * 19 + 18]?
      = some (cpuCell 18 19 ((List.range (17 * 18)).map (fun n : ℕ => (n : ℤ) % 7 - 3))
          ((List.range (18 * 19)).map (fun n : ℕ => (n : ℤ) % 5 - 2)) 16 18) ∧
    (MultiplyOnCpu 17 18 19
        ((List.range (17 * 18)).map (fun n : ℕ => (n : ℤ) % 7 - 3))
        ((List.range (18 * 19)).map (fun n : ℕ => (n : ℤ) % 5 - 2)))[16 * 19 + 18]?
      = some (cpuCell 18 19 ((List.range (17 * 18)).map (fun n : ℕ => (n : ℤ) % 7 - 3))
          ((List.range (18 * 19)).map (fun n : ℕ => (n : ℤ) % 5 - 2)) 16 18) :=
  C1_tiled_kernel_refines_cpu (by intro x; simp) _ 17 18 19 _ _ (by decide) (by decide)
    (by decide) (by rw [List.length_map, List.length_range]) (by rw [List.length_map, List.length_range]) 16 18 (by decide) (by decide)

/-- C2. For `A` = 2x3 `[1,2,3,4,5,6]` and `B` = 3x2 `[7,8,9,10,11,12]` the host path and
the device path (for any initial device memory) both produce `[58,64,139,154]`, and the
verification rule of `RunBenchmark` applied to the two results yields `true`. -/
theorem C2_example_product (u : Uninit ℚ) :
    MultiplyOnCpu 2 3 2 ([1, 2, 3, 4, 5, 6] : List ℚ) [7, 8, 9, 10, 11, 12]
      = [58, 64, 139, 154] ∧
    MultiplyOnGpu u 2 3 2 ([1, 2, 3, 4, 5, 6] : List ℚ) [7, 8, 9, 10, 11, 12]
      = [58, 64, 139, 154] ∧
    verified (MultiplyOnCpu 2 3 2 ([1, 2, 3, 4, 5, 6] : List ℚ) [7, 8, 9, 10, 11, 12])
      (MultiplyOnGpu u 2 3 2 ([1, 2, 3, 4, 5, 6] : List ℚ) [7, 8, 9, 10, 11, 12]) = true := by
  have hcpu : MultiplyOnCpu 2 3 2 ([1, 2, 3, 4, 5, 6] : List ℚ) [7, 8, 9, 10, 11, 12]
      = [58, 64, 139, 154] := by
    simp only [MultiplyOnCpu, List.range_succ, List.range_zero, List.nil_append,
      List.cons_append, List.foldl_cons, List.foldl_nil, List.replicate, List.set,
      List.getD_cons_zero, List.getD_cons_succ]
    norm_num
  have hgpu := MultiplyOnGpu_eq_MultiplyOnCpu (fun x : ℚ => by simp) u 2 3 2
    ([1, 2, 3, 4, 5, 6] : List ℚ) [7, 8, 9, 10, 11, 12]
  rw [hgpu, hcpu]
  refine ⟨rfl, rfl, ?_⟩
  simp [verified]

/-- In exact arithmetic the left-to-right accumulation of the inner loop is the sum of the
products. -/
theorem cpuCell_eq_sum {α : Type} [NonUnitalNonAssocSemiring α] (K N : Nat) (A B : List α)
    (i j : Nat) :
    cpuCell K N A B i j = ∑ k in Finset.range K, A.getD (i * K + k) 0 * B.getD (k * N + j) 0 := by
  unfold cpuCell
  have : ∀ (f : Nat → α) (n : Nat),
      (List.range n).foldl (fun sum k => sum + f k) 0 = ∑ k in Finset.range n, f k := by
    intro f n
    induction n with
    | zero => simp
    | succ n ih => rw [List.range_succ, List.foldl_append, ih, Finset.sum_range_succ]; simp
  exact this (fun k => A.getD (i * K + k) 0 * B.getD (k * N + j) 0) K

/-- C3. For every `M, K, N ≥ 1` and operands of lengths `M * K` and `K * N`,
`MultiplyOnCpu` returns a vector of length exactly `M * N` (shape `rows(A) x cols(B)`)
whose element at index `i * N + j` is the sum over `k < K` of `A[i*K + k] * B[k*N + j]`,
and `MultiplyOnGpu` returns a vector of length exactly `M * N`. -/
theorem C3_result_shape {α : Type} [NonUnitalNonAssocSemiring α] (u : Uninit α)
    (M K N : Nat) (A B : List α)
    (hM : 1 ≤ M) (hK : 1 ≤ K) (hN : 1 ≤ N) (hA : A.length = M * K) (hB : B.length = K * N) :
    (MultiplyOnCpu M K N A B).length = M * N ∧
    (∀ i j, i < M → j < N →
      (MultiplyOnCpu M K N A B)[i * N + j]?
        = some (∑ k in Finset.range K, A.getD (i * K + k) 0 * B.getD (k * N + j) 0)) ∧
    (MultiplyOnGpu u M K N A B).length = M * N := by
  refine ⟨MultiplyOnCpu_length M K N A B, ?_, MultiplyOnGpu_length u M K N A B⟩
  intro i j hi hj
  rw [← cpuCell_eq_sum]
  exact (MultiplyOnCpu_cell M K N A B i j hi hj).2

/-- C3 at the 2x3 by 3x2 integer example. -/
theorem C3_result_shape_witness :
    (MultiplyOnCpu 2 3 2 ([1, 2, 3, 4, 5, 6] : List ℤ) [7, 8, 9, 10, 11, 12]).length = 2 * 2 ∧
    (∀ i j, i < 2 → j < 2 →
      (MultiplyOnCpu 2 3 2 ([1, 2, 3, 4, 5, 6] : List ℤ) [7, 8, 9, 10, 11, 12])[i * 2 + j]?
        = some (∑ k in Finset.range 3, ([1, 2, 3, 4, 5, 6] : List ℤ).getD (i * 3 + k) 0 *
            ([7, 8, 9, 10, 11, 12] : List ℤ).getD (k * 2 + j) 0)) ∧
    (MultiplyOnGpu (⟨fun _ => 7, fun _ _ => 5, fun _ _ => 3⟩ : Uninit ℤ) 2 3 2
      ([1, 2, 3, 4, 5, 6] : List ℤ) [7, 8, 9, 10, 11, 12]).length = 2 * 2 :=
  C3_result_shape _ 2 3 2 _ _ (by decide) (by decide) (by decide) (by decide) (by decide)

theorem headD_eq_getD {α : Type} (l : List α) (d : α) : l.headD d = l.getD 0 d := by
  cases l <;> rfl

theorem getLastD_eq_getD {α : Type} (l : List α) (d : α) :
    l.getLastD d = l.getD (l.length - 1) d := by
  induction l generalizing d with
  | nil => rfl
  | cons a l ih =>
    cases l with
    | nil => rfl
    | cons b l =>
      have h := ih a
      simp only [List.getLastD_cons, List.length_cons, Nat.add_sub_cancel] at h ⊢
      rw [List.getD_cons_succ]
      rw [h]
      simp [List.getD_eq_getElem?_getD]

/-- The flag of `RunBenchmark` spelled out on indices. -/
theorem verified_iff (cpu gpu : List ℚ) :
    verified cpu gpu = true ↔
      cpu ≠ [] ∧ gpu ≠ [] ∧ cpu.length = gpu.length ∧
      |cpu.getD 0 0 - gpu.getD 0 0| ≤ 1 / 1000 ∧
      |cpu.getD (cpu.length - 1) 0 - gpu.getD (gpu.length - 1) 0| ≤ 1 / 1000 := by
  unfold verified
  rw [headD_eq_getD, headD_eq_getD, getLastD_eq_getD, getLastD_eq_getD]
  by_cases h1 : cpu = []
  · simp [h1]
  by_cases h2 : gpu = []
  · simp [h2]
  by_cases h3 : cpu.length = gpu.length
  · simp [h1, h2, h3, List.isEmpty_iff, not_lt]
  · simp [h1, h2, h3, List.isEmpty_iff]

/-- C4. The verification flag of `RunBenchmark` is `true` exactly when both results are
non-empty, have equal length, and their first elements and their last elements each
differ by at most `1e-3`; overwriting any interior element of either result leaves the
flag unchanged, and there are results that differ by more than `1e-3` in an interior
element for which the flag is `true`. -/
theorem C4_verification_flag :
    (∀ cpu gpu : List ℚ, verified cpu gpu = true ↔
      cpu ≠ [] ∧ gpu ≠ [] ∧ cpu.length = gpu.length ∧
      |cpu.getD 0 0 - gpu.getD 0 0| ≤ 1 / 1000 ∧
      |cpu.getD (cpu.length - 1) 0 - gpu.getD (gpu.length - 1) 0| ≤ 1 / 1000) ∧
    (∀ (cpu gpu : List ℚ) (k : Nat) (v : ℚ), 0 < k → k + 1 < cpu.length →
      verified (cpu.set k v) gpu = verified cpu gpu ∧
      verified cpu (gpu.set k v) = verified cpu gpu) ∧
    (∃ (cpu gpu : List ℚ) (k : Nat), 0 < k ∧ k + 1 < cpu.length ∧
      |cpu.getD k 0 - gpu.getD k 0| > 1 / 1000 ∧ verified cpu gpu = true) := by
  refine ⟨verified_iff, ?_, ?_⟩
  · intro cpu gpu k v hk hlen
    have key : ∀ (a b : List ℚ) (x y : Bool),
        (x = true ↔ y = true) → x = y := by
      intro _ _ x y h
      cases x <;> cases y <;> simp_all
    constructor
    · apply key cpu gpu
      rw [verified_iff, verified_iff]
      have h0 : (cpu.set k v).getD 0 0 = cpu.getD 0 0 := by
        simp only [List.getD_eq_getElem?_getD]
        rw [List.getElem?_set_ne (by omega)]
      have h1 : (cpu.set k v).getD ((cpu.set k v).length - 1) 0
          = cpu.getD (cpu.length - 1) 0 := by
        simp only [List.getD_eq_getElem?_getD, List.length_set]
        rw [List.getElem?_set_ne (by omega)]
      have h2 : cpu.set k v ≠ [] ↔ cpu ≠ [] := by
        simp [List.set_eq_nil_iff]
      rw [h0, h1, h2, List.length_set]
    · apply key cpu gpu
      rw [verified_iff, verified_iff]
      by_cases hl : cpu.length = gpu.length
      · have h0 : (gpu.set k v).getD 0 0 = gpu.getD 0 0 := by
          simp only [List.getD_eq_getElem?_getD]
          rw [List.getElem?_set_ne (by omega)]
        have h1 : (gpu.set k v).getD ((gpu.set k v).length - 1) 0
            = gpu.getD (gpu.length - 1) 0 := by
          simp only [List.getD_eq_getElem?_getD, List.length_set]
          rw [List.getElem?_set_ne (by omega)]
        have h2 : gpu.set k v ≠ [] ↔ gpu ≠ [] := by
          simp [List.set_eq_nil_iff]
        rw [h0, h1, h2, List.length_set]
      · simp [hl, List.length_set]
  · refine ⟨[0, 5, 0], [0, 0, 0], 1, by decide, by decide, ?_, ?_⟩
    · norm_num
    · simp [verified]

/-- C4 used at concrete results: changing the interior element of `[0, 5, 0]` does not
change the flag against `[0, 0, 0]`. -/
theorem C4_verification_flag_witness :
    verified (([0, 5, 0] : List ℚ).set 1 7) [0, 0, 0] = verified [0, 5, 0] [0, 0, 0] :=
  (C4_verification_flag.2.1 [0, 5, 0] [0, 0, 0] 1 7 (by decide) (by decide)).1

section IdentityProofs

variable {α : Type} [Add α] [Mul α] [Zero α] [One α]

theorem identityMatrix_getD (K k j : Nat) (hk : k < K) (hj : j < K) :
    (identityMatrix K : List α).getD (k * K + j) 0 = if k = j then 1 else 0 := by
  have hK : 0 < K := by omega
  have hlt : k * K + j < K * K := cell_index_lt hk hj
  have hdiv : (k * K + j) / K = k := by
    rw [Nat.mul_comm, Nat.mul_add_div hK, Nat.div_eq_of_lt hj, Nat.add_zero]
  have hmod : (k * K + j) % K = j := by
    rw [Nat.mul_comm, Nat.mul_add_mod, Nat.mod_eq_of_lt hj]
  unfold identityMatrix
  rw [List.getD_eq_getElem?_getD, List.getElem?_map, List.getElem?_range hlt]
  simp [hdiv, hmod]

/-- Row `i` of `A` times column `j` of the identity: only the step `k = j` contributes. -/
theorem cpuCell_mul_identity (h : ZeroOneLaws α) (K : Nat) (A : List α) (i j : Nat)
    (hj : j < K) :
    cpuCell K K A (identityMatrix K) i j = A.getD (i * K + j) 0 := by
  unfold cpuCell
  have : ∀ n, n ≤ K →
      (List.range n).foldl
        (fun sum k => sum + A.getD (i * K + k) 0 * (identityMatrix K : List α).getD (k * K + j) 0)
        (0 : α) = if j < n then A.getD (i * K + j) 0 else 0 := by
    intro n
    induction n with
    | zero => intro _; simp
    | succ n ih =>
      intro hn
      rw [List.range_succ, List.foldl_append, ih (by omega)]
      simp only [List.foldl_cons, List.foldl_nil]
      rw [identityMatrix_getD K n j (by omega) hj]
      by_cases h1 : j < n
      · have h2 : ¬ n = j := by omega
        have h3 : j < n + 1 := by omega
        simp [h1, h2, h3, h.mul_zero, h.add_zero]
      · by_cases h2 : n = j
        · subst h2
          simp [h.mul_one, h.zero_add]
        · have h3 : ¬ j < n + 1 := by omega
          simp [h1, h2, h3, h.mul_zero, h.add_zero]
  rw [this K (Nat.le_refl K), if_pos hj]

/-- Row `i` of the identity times column `j` of `B`: only the step `k = i` contributes. -/
theorem cpuCell_identity_mul (h : ZeroOneLaws α) (K N : Nat) (B : List α) (i j : Nat)
    (hi : i < K) :
    cpuCell K N (identityMatrix K) B i j = B.getD (i * N + j) 0 := by
  unfold cpuCell
  have : ∀ n, n ≤ K →
      (List.range n).foldl
        (fun sum k => sum + (identityMatrix K : List α).getD (i * K + k) 0 * B.getD (k * N + j) 0)
        (0 : α) = if i < n then B.getD (i * N + j) 0 else 0 := by
    intro n
    induction n with
    | zero => intro _; simp
    | succ n ih =>
      intro hn
      rw [List.range_succ, List.foldl_append, ih (by omega)]
      simp only [List.foldl_cons, List.foldl_nil]
      rw [identityMatrix_getD K i n hi (by omega)]
      by_cases h1 : i < n
      · have h2 : ¬ i = n := by omega
        have h3 : i < n + 1 := by omega
        simp [h1, h2, h3, h.zero_mul, h.add_zero]
      · by_cases h2 : i = n
        · subst h2
          simp [h.one_mul, h.zero_add]
        · have h3 : ¬ i < n + 1 := by omega
          simp [h1, h2, h3, h.zero_mul, h.add_zero]
  rw [this K (Nat.le_refl K), if_pos hi]

theorem cellIs_self (M N : Nat) (A : List α) (hA : A.length = M * N) (i j : Nat)
    (hi : i < M) (hj : j < N) : CellIs (M * N) (i * N + j) (A.getD (i * N + j) 0) A := by
  refine ⟨hA, ?_⟩
  have := cell_index_lt hi hj
  rw [List.getD_eq_getElem?_getD, List.getElem?_eq_getElem (by omega)]
  rfl

theorem ZeroOneLaws.pad (h : ZeroOneLaws α) : ∀ x : α, x + 0 * 0 = x := by
  intro x
  rw [h.mul_zero, h.add_zero]

theorem mul_identity_right (h : ZeroOneLaws α) (u : Uninit α) (M K : Nat) (A : List α)
    (hA : A.length = M * K) :
    MultiplyOnCpu M K K A (identityMatrix K) = A ∧
    MultiplyOnGpu u M K K A (identityMatrix K) = A := by
  have hcpu : MultiplyOnCpu M K K A (identityMatrix K) = A := by
    apply eq_of_cells (f := fun i j => A.getD (i * K + j) 0) _
      (fun i j hi hj => cellIs_self M K A hA i j hi hj) (MultiplyOnCpu_length M K K A _) hA
    intro i j hi hj
    have := MultiplyOnCpu_cell M K K A (identityMatrix K) i j hi hj
    rw [cpuCell_mul_identity h K A i j hj] at this
    exact this
  exact ⟨hcpu, (MultiplyOnGpu_eq_MultiplyOnCpu h.pad u M K K A _).trans hcpu⟩

theorem mul_identity_left (h : ZeroOneLaws α) (u : Uninit α) (K N : Nat) (B : List α)
    (hB : B.length = K * N) :
    MultiplyOnCpu K K N (identityMatrix K) B = B ∧
    MultiplyOnGpu u K K N (identityMatrix K) B = B := by
  have hcpu : MultiplyOnCpu K K N (identityMatrix K) B = B := by
    apply eq_of_cells (f := fun i j => B.getD (i * N + j) 0) _
      (fun i j hi hj => cellIs_self K N B hB i j hi hj) (MultiplyOnCpu_length K K N _ B) hB
    intro i j hi hj
    have := MultiplyOnCpu_cell K K N (identityMatrix K) B i j hi hj
    rw [cpuCell_identity_mul h K N B i j hi] at this
    exact this
  exact ⟨hcpu, (MultiplyOnGpu_eq_MultiplyOnCpu h.pad u K K N _ B).trans hcpu⟩

end IdentityProofs

/-- C5. Multiplying by an identity leaves the values unchanged: for every `M, K ≥ 1` and
`M x K` matrix `A` the result of `A * I` (with `I` the `K x K` identity) is `A` element by
element, and for every `K x N` matrix `B` the result of `I * B` is `B`, on the host path
and on the tiled device path; in a scalar type where `0` and `1` obey their usual laws the
results are equal, hence within `1e-3`. -/
theorem C5_identity_multiplication {α : Type} [Add α] [Mul α] [Zero α] [One α]
    (h : ZeroOneLaws α) (u : Uninit α) (M K N : Nat) (A B : List α)
    (hM : 1 ≤ M) (hK : 1 ≤ K) (hN : 1 ≤ N) (hA : A.length = M * K) (hB : B.length = K * N) :
    MultiplyOnCpu M K K A (identityMatrix K) = A ∧
    MultiplyOnGpu u M K K A (identityMatrix K) = A ∧
    MultiplyOnCpu K K N (identityMatrix K) B = B ∧
    MultiplyOnGpu u K K N (identityMatrix K) B = B :=
  ⟨(mul_identity_right h u M K A hA).1, (mul_identity_right h u M K A hA).2,
    (mul_identity_left h u K N B hB).1, (mul_identity_left h u K N B hB).2⟩

/-- C5 at a 2x3 matrix `A`, a 3x2 matrix `B` and the 3x3 identity over the integers. -/
theorem C5_identity_multiplication_witness :
    MultiplyOnCpu 2 3 3 ([1, 2, 3, 4, 5, 6] : List ℤ) (identityMatrix 3) = [1, 2, 3, 4, 5, 6] ∧
    MultiplyOnGpu (⟨fun _ => 7, fun _ _ => 5, fun _ _ => 3⟩ : Uninit ℤ) 2 3 3
      ([1, 2, 3, 4, 5, 6] : List ℤ) (identityMatrix 3) = [1, 2, 3, 4, 5, 6] ∧
    MultiplyOnCpu 3 3 2 (identityMatrix 3) ([7, 8, 9, 10, 11, 12] : List ℤ)
      = [7, 8, 9, 10, 11, 12] ∧
    MultiplyOnGpu (⟨fun _ => 7, fun _ _ => 5, fun _ _ => 3⟩ : Uninit ℤ) 3 3 2
      (identityMatrix 3) ([7, 8, 9, 10, 11, 12] : List ℤ) = [7, 8, 9, 10, 11, 12] :=
  C5_identity_multiplication
    ⟨fun x => by simp, fun x => by simp, fun x => by simp, fun x => by simp,
      fun x => by simp, fun x => by simp⟩
    _ 2 3 2 _ _ (by decide) (by decide) (by decide) (by decide) (by decide)

/-! ## Gaussian filter: kernel weights -/

theorem intRange_symm (r : Nat) :
    intRange (-(r : Int)) r
      = (List.range (2 * r + 1)).map (fun n : Nat => -(r : Int) + (n : Int)) := by
  unfold intRange
  have : ((r : Int) + 1 - -(r : Int)).toNat = 2 * r + 1 := by omega
  rw [this]

/-- Filling a zeroed vector of size `N` in index order while summing the values. -/
theorem fill_loop (f : Nat → ℚ) (N k : Nat) (hk : k ≤ N) :
    (List.range k).foldl (fun (st : List ℚ × ℚ) m => (st.1.set m (f m), st.2 + f m))
        (List.replicate N 0, (0 : ℚ))
      = ((List.range k).map f ++ List.replicate (N - k) 0, ((List.range k).map f).sum) := by
  induction k with
  | zero => simp
  | succ k ih =>
    rw [List.range_succ, List.foldl_append, ih (by omega)]
    simp only [List.foldl_cons, List.foldl_nil, List.map_append, List.map_cons, List.map_nil,
      List.sum_append, List.sum_cons, List.sum_nil, add_zero]
    have hrep : List.replicate (N - k) (0 : ℚ) = 0 :: List.replicate (N - (k + 1)) 0 := by
      have : N - k = (N - (k + 1)) + 1 := by omega
      rw [this, List.replicate_succ]
    have hlen : (List.map f (List.range k)).length = k := by simp
    congr 1
    rw [hrep]
    conv_lhs => rw [← hlen]
    rw [List.set_append_right _ _ (by simp)]
    simp

theorem sum_map_div (l : List ℚ) (s : ℚ) : (l.map (fun v => v / s)).sum = l.sum / s := by
  induction l with
  | nil => simp
  | cons a l ih => simp [ih, add_div]

/-- The sum of the unnormalised values is positive: the value at offset 0 is `exp 0 = 1`
and no value is negative. -/
theorem gaussSum_pos (expf : ℚ → ℚ) (hnn : ∀ x, 0 ≤ expf x) (h0 : expf 0 = 1) (r : Nat)
    (sigma : ℚ) :
    0 < ((List.range (2 * r + 1)).map
      (fun n : Nat => GaussianFilter.gaussValue expf sigma (-(r : Int) + n))).sum := by
  have hmem : GaussianFilter.gaussValue expf sigma (-(r : Int) + (r : Nat)) ∈
      (List.range (2 * r + 1)).map
        (fun n : Nat => GaussianFilter.gaussValue expf sigma (-(r : Int) + n)) :=
    List.mem_map.2 ⟨r, List.mem_range.2 (by omega), rfl⟩
  have hle := List.single_le_sum (fun x hx => by
    obtain ⟨n, _, rfl⟩ := List.mem_map.1 hx
    exact hnn _) _ hmem
  have hone : GaussianFilter.gaussValue expf sigma (-(r : Int) + (r : Nat)) = 1 := by
    have : (-(r : Int) + (r : Nat)) = 0 := by omega
    rw [this]
    simp [GaussianFilter.gaussValue, h0]
  rw [hone] at hle
  linarith

theorem CreateGaussianKernelValues_eq (expf : ℚ → ℚ) (hnn : ∀ x, 0 ≤ expf x)
    (h0 : expf 0 = 1) (r : Nat) (sigma : ℚ) :
    GaussianFilter.CreateGaussianKernelValues expf r sigma =
      some ((List.range (2 * r + 1)).map (fun m : Nat =>
        GaussianFilter.gaussValue expf sigma (-(r : Int) + m) /
        ((List.range (2 * r + 1)).map
          (fun n : Nat => GaussianFilter.gaussValue expf sigma (-(r : Int) + n))).sum)) := by
  have hpos := gaussSum_pos expf hnn h0 r sigma
  unfold GaussianFilter.CreateGaussianKernelValues
  have hsz : ¬ (2 * (r : Int) + 1 < 0) := by omega
  have hN : (2 * (r : Int) + 1).toNat = 2 * r + 1 := by omega
  simp only [hsz, if_false, hN]
  rw [intRange_symm, List.foldl_map]
  have hstep : ∀ (st : List ℚ × ℚ) (m : Nat),
      (st.1.set (-(r : Int) + (m : Int) + (r : Int)).toNat
          (GaussianFilter.gaussValue expf sigma (-(r : Int) + m)),
        st.2 + GaussianFilter.gaussValue expf sigma (-(r : Int) + m))
      = (st.1.set m (GaussianFilter.gaussValue expf sigma (-(r : Int) + m)),
        st.2 + GaussianFilter.gaussValue expf sigma (-(r : Int) + m)) := by
    intro st m
    have : (-(r : Int) + (m : Int) + (r : Int)).toNat = m := by omega
    rw [this]
  simp only [hstep]
  rw [fill_loop (fun m : Nat => GaussianFilter.gaussValue expf sigma (-(r : Int) + m))
    (2 * r + 1) (2 * r + 1) (Nat.le_refl _)]
  simp only [Nat.sub_self, List.replicate_zero, List.append_nil, hpos, if_true, List.map_map]
  rfl

theorem list_sum_range_map (f : Nat → ℚ) (n : Nat) :
    ((List.range n).map f).sum = ∑ k in Finset.range n, f k := by
  induction n with
  | zero => simp
  | succ n ih => rw [List.range_succ, List.map_append, List.sum_append, ih,
      Finset.sum_range_succ]; simp

/-- C7. For every `radius ≥ 0` and every `sigma > 0`, `CreateGaussianKernelValues` returns
exactly `2 * radius + 1` weights; the weight at index `m` (offset `i = m - radius`) is
`exp(-i² / (2 sigma²))` divided by the sum of these values over all offsets, and the
weights sum to `1`.  Scalars are exact rationals and `exp` is any non-negative function
with `exp 0 = 1`. -/
theorem C7_gaussian_kernel_weights (expf : ℚ → ℚ) (hnn : ∀ x, 0 ≤ expf x) (h0 : expf 0 = 1)
    (radius : Nat) (sigma : ℚ) (hsigma : 0 < sigma) :
    ∃ kernel : List ℚ,
      GaussianFilter.CreateGaussianKernelValues expf radius sigma = some kernel ∧
      kernel.length = 2 * radius + 1 ∧
      (∀ m : Nat, m < 2 * radius + 1 →
        kernel[m]? = some
          (expf (-(((((m : Int) - radius) * ((m : Int) - radius) : Int)) : ℚ)
              / (2 * sigma * sigma)) /
            ∑ n in Finset.range (2 * radius + 1),
              expf (-(((((n : Int) - radius) * ((n : Int) - radius) : Int)) : ℚ)
                / (2 * sigma * sigma)))) ∧
      kernel.sum = 1 := by
  have hpos := gaussSum_pos expf hnn h0 radius sigma
  refine ⟨_, CreateGaussianKernelValues_eq expf hnn h0 radius sigma, by simp, ?_, ?_⟩
  · intro m hm
    rw [List.getElem?_map, List.getElem?_range hm, list_sum_range_map]
    simp only [Option.map_some', GaussianFilter.gaussValue]
    have e : ∀ k : Nat, (-(radius : Int) + (k : Int)) = (k : Int) - radius := by
      intro k; omega
    simp only [e]
  · have := sum_map_div ((List.range (2 * radius + 1)).map
      (fun n : Nat => GaussianFilter.gaussValue expf sigma (-(radius : Int) + n)))
      ((List.range (2 * radius + 1)).map
        (fun n : Nat => GaussianFilter.gaussValue expf sigma (-(radius : Int) + n))).sum
    rw [List.map_map] at this
    rw [div_self (ne_of_gt hpos)] at this
    exact this

/-- C7 at `radius = 2`, `sigma = 1` with the rational stand-in `1 / (1 + x²)` for `exp`:
five weights that sum to one. -/
theorem C7_gaussian_kernel_weights_witness :
    ∃ kernel : List ℚ,
      GaussianFilter.CreateGaussianKernelValues (fun x => 1 / (1 + x * x)) 2 1 = some kernel ∧
      kernel.length = 5 ∧ kernel.sum = 1 := by
  obtain ⟨kernel, h1, h2, _, h4⟩ := C7_gaussian_kernel_weights (fun x => 1 / (1 + x * x))
    (fun x => div_nonneg zero_le_one (add_nonneg zero_le_one (mul_self_nonneg x)))
    (by norm_num) 2 1 (by norm_num)
  exact ⟨kernel, h1, h2, h4⟩

/-! ## Gaussian filter: a constant image -/

section Uniform

open GaussianFilter

theorem uniformImage_succ (n r g b a : Nat) :
    uniformImage (n + 1) r g b a = r :: g :: b :: a :: uniformImage n r g b a := by
  simp [uniformImage, List.replicate_succ]

theorem uniformImage_length (n r g b a : Nat) : (uniformImage n r g b a).length = 4 * n := by
  induction n with
  | zero => simp [uniformImage]
  | succ n ih => rw [uniformImage_succ]; simp [ih]; omega

theorem uniformImage_getD (n r g b a p : Nat) (hp : p < n) :
    (uniformImage n r g b a).getD (4 * p) 0 = r ∧
    (uniformImage n r g b a).getD (4 * p + 1) 0 = g ∧
    (uniformImage n r g b a).getD (4 * p + 2) 0 = b ∧
    (uniformImage n r g b a).getD (4 * p + 3) 0 = a := by
  induction n generalizing p with
  | zero => omega
  | succ n ih =>
    rw [uniformImage_succ]
    cases p with
    | zero => simp
    | succ p =>
      have h := ih p (by omega)
      have shift : ∀ j, (r :: g :: b :: a :: uniformImage n r g b a).getD (4 * (p + 1) + j) 0
          = (uniformImage n r g b a).getD (4 * p + j) 0 := by
        intro j
        have e : 4 * (p + 1) + j = (4 * p + j) + 1 + 1 + 1 + 1 := by omega
        rw [e]
        simp only [List.getD_cons_succ]
      have s0 := shift 0
      rw [Nat.add_zero, Nat.add_zero] at s0
      rw [s0, shift 1, shift 2, shift 3]
      exact h

theorem toPixels_uniform (n r g b a : Nat) :
    toPixels (uniformImage n r g b a) n = List.replicate n ⟨r, g, b, a⟩ := by
  unfold toPixels
  apply List.ext_getElem (by simp)
  intro p h1 h2
  have hp : p < n := by simpa using h1
  obtain ⟨e0, e1, e2, e3⟩ := uniformImage_getD n r g b a p hp
  rw [List.getElem_map, List.getElem_range, List.getElem_replicate, e0, e1, e2, e3]

theorem toBytes_replicate (n r g b a : Nat) :
    toBytes (List.replicate n ⟨r, g, b, a⟩) = uniformImage n r g b a := by
  induction n with
  | zero => simp [toBytes, uniformImage]
  | succ n ih =>
    rw [uniformImage_succ, ← ih]
    simp [toBytes, List.replicate_succ]

theorem roundTiesEven_natCast (n : Nat) : roundTiesEven (n : ℚ) = n := by
  unfold roundTiesEven
  have : Int.floor ((n : ℚ)) = (n : Int) := Int.floor_natCast n
  simp [this]

theorem convert_uchar_sat_rte_natCast (n : Nat) (hn : n ≤ 255) :
    convert_uchar_sat_rte (n : ℚ) = n := by
  unfold convert_uchar_sat_rte
  rw [roundTiesEven_natCast]
  have h1 : ¬ ((n : Int) < 0) := by omega
  have h2 : ¬ ((n : Int) > 255) := by omega
  simp [h1, h2]

theorem mulAdd_fold (cf : Float4) (k : Nat → ℚ) (N : Nat) :
    (List.range N).foldl (fun s m => mulAdd s cf (k m)) (⟨0, 0, 0, 0⟩ : Float4)
      = ⟨cf.x * ((List.range N).map k).sum, cf.y * ((List.range N).map k).sum,
          cf.z * ((List.range N).map k).sum, cf.w * ((List.range N).map k).sum⟩ := by
  induction N with
  | zero => simp
  | succ N ih =>
    rw [List.range_succ, List.foldl_append, ih]
    simp [mulAdd, mul_add]

theorem map_getD_range {α : Type} (l : List α) (d : α) :
    (List.range l.length).map (fun m => l.getD m d) = l := by
  apply List.ext_getElem (by simp)
  intro p h1 h2
  simp [List.getD_eq_getElem?_getD, h2]

/-- Every sample index of `BlurPass` lies inside the image. -/
theorem blur_sample_index (W H gid : Nat) (hgid : gid < W * H) (offset : Int) :
    (((gid / W : Nat) : Int) * (W : Int)
        + clamp (((gid % W : Nat) : Int) + offset) 0 ((W : Int) - 1)).toNat < W * H := by
  have hW : 0 < W := by
    rcases Nat.eq_zero_or_pos W with h | h
    · subst h; simp at hgid
    · exact h
  have hq : gid / W < H := (Nat.div_lt_iff_lt_mul hW).2 (by rw [Nat.mul_comm]; exact hgid)
  have hmul : (gid / W + 1) * W ≤ H * W := Nat.mul_le_mul_right W hq
  rw [Nat.succ_mul, Nat.mul_comm H W] at hmul
  have hc0 : 0 ≤ clamp (((gid % W : Nat) : Int) + offset) 0 ((W : Int) - 1) := by
    unfold clamp; omega
  have hc1 : clamp (((gid % W : Nat) : Int) + offset) 0 ((W : Int) - 1) ≤ (W : Int) - 1 := by
    unfold clamp; omega
  have hcast : (((gid / W : Nat) : Int) * (W : Int)) = ((gid / W * W : Nat) : Int) := by
    push_cast; rfl
  rw [hcast]
  omega

/-- On an image in which every pixel is `c`, with weights that sum to one, the work-item
`gid` of `BlurPass` stores `c`. -/
theorem BlurPass_uniform (W H n : Nat) (hn : W * H = n) (c : UChar4)
    (hc : c.x ≤ 255 ∧ c.y ≤ 255 ∧ c.z ≤ 255 ∧ c.w ≤ 255)
    (kernel : List ℚ) (R : Nat) (hlen : kernel.length = 2 * R + 1) (hsum : kernel.sum = 1)
    (out : List UChar4) (gid : Nat) (hgid : gid < n) :
    BlurPass (List.replicate n c) kernel R W H out gid = out.set gid c := by
  unfold BlurPass
  have hg : ¬ gid ≥ W * H := by omega
  simp only [hg, if_false]
  rw [intRange_symm, List.foldl_map]
  have hstep : ∀ (s : Float4) (m : Nat),
      mulAdd s
        (convert_float4 ((List.replicate n c).getD
          (((gid / W : Nat) : Int) * (W : Int)
            + clamp (((gid % W : Nat) : Int) + (-(R : Int) + (m : Int))) 0 ((W : Int) - 1)).toNat
          ⟨0, 0, 0, 0⟩))
        (kernel.getD (-(R : Int) + (m : Int) + (R : Int)).toNat 0)
      = mulAdd s (convert_float4 c) (kernel.getD m 0) := by
    intro s m
    have h1 := blur_sample_index W H gid (by omega) (-(R : Int) + (m : Int))
    rw [hn] at h1
    have h2 : (-(R : Int) + (m : Int) + (R : Int)).toNat = m := by omega
    rw [h2, List.getD_eq_getElem?_getD, List.getElem?_replicate, if_pos h1]
    rfl
  simp only [hstep]
  rw [mulAdd_fold, ← hlen, map_getD_range, hsum]
  obtain ⟨h1, h2, h3, h4⟩ := hc
  simp [convert_uchar4_sat_rte, convert_float4, convert_uchar_sat_rte_natCast, h1, h2, h3, h4]

/-- A buffer whose every cell holds `c` is the constant buffer. -/
theorem eq_replicate_of_cells {α : Type} {n : Nat} {c : α} {l : List α}
    (h : ∀ idx, idx < n → CellIs n idx c l) (hl : l.length = n) : l = List.replicate n c := by
  apply List.ext_getElem (by simp [hl])
  intro p h1 h2
  have := (h p (by omega)).2
  rw [List.getElem?_eq_getElem h1] at this
  simp [Option.some.inj this]

theorem dispatch1D_const {α : Type} (n : Nat) (c : α) (item : List α → Nat → List α)
    (hitem : ∀ out gid, gid < n → item out gid = out.set gid c)
    (out : List α) (hout : out.length = n) : dispatch1D n item out = List.replicate n c := by
  have hlen : ∀ b gid, gid ∈ List.range n → b.length = n → (item b gid).length = n := by
    intro b gid hg hb
    rw [hitem b gid (List.mem_range.1 hg)]
    simpa using hb
  apply eq_replicate_of_cells
  · intro idx hidx
    unfold dispatch1D
    apply foldl_establish (fun b : List α => b.length = n) (CellIs n idx c) _ _ idx
      (List.mem_range.2 hidx) hlen
    · intro b hb
      rw [hitem b idx hidx]
      exact cellIs_set_self hb hidx
    · intro b gid hg hb
      rw [hitem b gid (List.mem_range.1 hg)]
      exact cellIs_set hb (fun _ => rfl)
    · exact hout
  · unfold dispatch1D
    exact foldl_inv (fun b : List α => b.length = n) _ _ hlen _ hout

theorem dispatch2D_const {α : Type} (W H n : Nat) (hn : W * H = n) (c : α)
    (item : List α → Nat → Nat → List α)
    (hitem : ∀ out x y, x < W → y < H → item out x y = out.set (x * H + y) c)
    (out : List α) (hout : out.length = n) : dispatch2D W H item out = List.replicate n c := by
  have hlen : ∀ x, x ∈ List.range W → ∀ b y, y ∈ List.range H → b.length = n →
      (item b x y).length = n := by
    intro x hx b y hy hb
    rw [hitem b x y (List.mem_range.1 hx) (List.mem_range.1 hy)]
    simpa using hb
  have hkeep : ∀ idx x, x ∈ List.range W → ∀ b y, y ∈ List.range H → CellIs n idx c b →
      CellIs n idx c (item b x y) := by
    intro idx x hx b y hy hb
    rw [hitem b x y (List.mem_range.1 hx) (List.mem_range.1 hy)]
    exact cellIs_set hb (fun _ => rfl)
  apply eq_replicate_of_cells
  · intro idx hidx
    have hH : 0 < H := by
      rcases Nat.eq_zero_or_pos H with h | h
      · subst h; simp at hn; omega
      · exact h
    have hx : idx / H < W := (Nat.div_lt_iff_lt_mul hH).2 (by rw [hn]; exact hidx)
    have hy : idx % H < H := Nat.mod_lt _ hH
    have hidx' : idx / H * H + idx % H = idx := by
      rw [Nat.mul_comm]; exact Nat.div_add_mod idx H
    unfold dispatch2D
    apply foldl_establish (fun b : List α => b.length = n) (CellIs n idx c) _ _ (idx / H)
      (List.mem_range.2 hx)
    · intro b x hx hb
      exact foldl_inv (fun b : List α => b.length = n) _ _ (hlen x hx) _ hb
    · intro b hb
      apply foldl_establish (fun b : List α => b.length = n) (CellIs n idx c) _ _ (idx % H)
        (List.mem_range.2 hy) (hlen _ (List.mem_range.2 hx))
      · intro b hb
        rw [hitem b _ _ hx hy, hidx']
        exact cellIs_set_self hb hidx
      · exact hkeep idx _ (List.mem_range.2 hx)
      · exact hb
    · intro b x hx hb
      exact foldl_inv (CellIs n idx c) _ _ (hkeep idx x hx) _ hb
    · exact hout
  · unfold dispatch2D
    apply foldl_inv (fun b : List α => b.length = n) _ _ _ _ hout
    intro b x hx hb
    exact foldl_inv (fun b : List α => b.length = n) _ _ (hlen x hx) _ hb

theorem TransposeImage_uniform (W H n : Nat) (hn : W * H = n) (c : UChar4)
    (out : List UChar4) (x y : Nat) (hx : x < W) (hy : y < H) :
    TransposeImage (List.replicate n c) W H out x y = out.set (x * H + y) c := by
  unfold TransposeImage
  have hg : ¬ (x ≥ W ∨ y ≥ H) := by omega
  have hidx : y * W + x < n := by
    rw [← hn, Nat.mul_comm W H]; exact cell_index_lt hy hx
  simp only [hg, if_false]
  rw [List.getD_eq_getElem?_getD, List.getElem?_replicate, if_pos hidx]
  rfl

end Uniform

/-- C6. For every `radius ≥ 0` and every `width, height ≥ 1`, applying the Gaussian filter
to a 4-channel image in which every pixel is `(r, g, b, a)` returns the image of the same
size in which every pixel is still `(r, g, b, a)`, whatever the temporary device buffer
held: both blur passes, both transposes and the saturating round-to-nearest conversion
keep a constant field.  Scalars are exact rationals and `exp` is any non-negative
function with `exp 0 = 1`. -/
theorem C6_gaussian_uniform_image (expf : ℚ → ℚ) (hnn : ∀ x, 0 ≤ expf x) (h0 : expf 0 = 1)
    (tempBuffer0 : Nat → UChar4) (radius width height r g b a : Nat)
    (hw : 1 ≤ width) (hh : 1 ≤ height)
    (hr : r ≤ 255) (hg : g ≤ 255) (hb : b ≤ 255) (ha : a ≤ 255) :
    GaussianFilter.ApplyFilter expf tempBuffer0 radius
        (uniformImage (width * height) r g b a) width height 4
      = some (uniformImage (width * height) r g b a) := by
  unfold GaussianFilter.ApplyFilter
  by_cases hrad : (radius : Int) = 0
  · simp [hrad]
  · simp only [hrad, if_false, ne_eq, not_true_eq_false]
    rw [CreateGaussianKernelValues_eq expf hnn h0 radius]
    simp only []
    have hpos := gaussSum_pos expf hnn h0 radius (max 1 (((radius : Int) : ℚ) / 2))
    have hklen : ((List.range (2 * radius + 1)).map (fun m : Nat =>
        GaussianFilter.gaussValue expf (max 1 (((radius : Int) : ℚ) / 2)) (-(radius : Int) + m) /
        ((List.range (2 * radius + 1)).map (fun n : Nat =>
          GaussianFilter.gaussValue expf (max 1 (((radius : Int) : ℚ) / 2))
            (-(radius : Int) + n))).sum)).length = 2 * radius + 1 := by simp
    have hksum : ((List.range (2 * radius + 1)).map (fun m : Nat =>
        GaussianFilter.gaussValue expf (max 1 (((radius : Int) : ℚ) / 2)) (-(radius : Int) + m) /
        ((List.range (2 * radius + 1)).map (fun n : Nat =>
          GaussianFilter.gaussValue expf (max 1 (((radius : Int) : ℚ) / 2))
            (-(radius : Int) + n))).sum)).sum = 1 := by
      have := sum_map_div ((List.range (2 * radius + 1)).map
        (fun n : Nat => GaussianFilter.gaussValue expf (max 1 (((radius : Int) : ℚ) / 2))
          (-(radius : Int) + n)))
        ((List.range (2 * radius + 1)).map
          (fun n : Nat => GaussianFilter.gaussValue expf (max 1 (((radius : Int) : ℚ) / 2))
            (-(radius : Int) + n))).sum
      rw [List.map_map] at this
      rw [div_self (ne_of_gt hpos)] at this
      exact this
    have hc : (⟨r, g, b, a⟩ : UChar4).x ≤ 255 ∧ (⟨r, g, b, a⟩ : UChar4).y ≤ 255 ∧
        (⟨r, g, b, a⟩ : UChar4).z ≤ 255 ∧ (⟨r, g, b, a⟩ : UChar4).w ≤ 255 := ⟨hr, hg, hb, ha⟩
    rw [toPixels_uniform]
    rw [dispatch1D_const (width * height) (⟨r, g, b, a⟩ : UChar4) _
      (fun out gid hgid => BlurPass_uniform width height (width * height) rfl _ hc _ radius
        hklen hksum out gid hgid) _ (by simp)]
    rw [dispatch2D_const width height (width * height) rfl (⟨r, g, b, a⟩ : UChar4) _
      (fun out x y hx hy => TransposeImage_uniform width height (width * height) rfl _ out x y
        hx hy) _ (by simp)]
    rw [dispatch1D_const (width * height) (⟨r, g, b, a⟩ : UChar4) _
      (fun out gid hgid => BlurPass_uniform height width (width * height)
        (Nat.mul_comm height width) _ hc _ radius hklen hksum out gid hgid) _ (by simp)]
    rw [dispatch2D_const height width (width * height) (Nat.mul_comm height width)
      (⟨r, g, b, a⟩ : UChar4) _
      (fun out x y hx hy => TransposeImage_uniform height width (width * height)
        (Nat.mul_comm height width) _ out x y hx hy) _ (by simp)]
    rw [toBytes_replicate, List.drop_of_length_le (by rw [uniformImage_length]; omega)]
    simp

/-- C6 at a 3 x 2 image of colour `(10, 20, 30, 255)`, radius 2, with the rational
stand-in `1 / (1 + x²)` for `exp`. -/
theorem C6_gaussian_uniform_image_witness :
    GaussianFilter.ApplyFilter (fun x => 1 / (1 + x * x)) (fun _ => ⟨9, 9, 9, 9⟩) (2 : Nat)
        (uniformImage (3 * 2) 10 20 30 255) 3 2 4
      = some (uniformImage (3 * 2) 10 20 30 255) :=
  C6_gaussian_uniform_image (fun x => 1 / (1 + x * x))
    (fun x => div_nonneg zero_le_one (add_nonneg zero_le_one (mul_self_nonneg x)))
    (by norm_num) _ 2 3 2 10 20 30 255 (by decide) (by decide) (by decide) (by decide)
    (by decide) (by decide)

/-! ## Identity cases of the median and motion blur kernels -/

section IdentityKernels

/-- A dispatch whose work-item `(x, y)` copies the `ch` bytes of pixel `(x, y)` from
`input` reproduces `input`. -/
theorem dispatch2D_copy (w h ch : Nat) (input : List Nat) (hin : input.length = w * h * ch)
    (item : List Nat → Nat → Nat → List Nat)
    (hitem : ∀ out x y, x < w → y < h → item out x y =
      (List.range ch).foldl
        (fun out c => out.set ((y * w + x) * ch + c) (input.getD ((y * w + x) * ch + c) 0)) out)
    (out : List Nat) (hout : out.length = w * h * ch) : dispatch2D w h item out = input := by
  have hlenC : ∀ (x y : Nat) (b : List Nat), b.length = w * h * ch →
      ((List.range ch).foldl
        (fun out c => out.set ((y * w + x) * ch + c) (input.getD ((y * w + x) * ch + c) 0))
        b).length = w * h * ch := by
    intro x y b hb
    apply foldl_inv (fun b : List Nat => b.length = w * h * ch) _ _ _ _ hb
    intro b c _ hb
    simpa using hb
  have hkeepC : ∀ (idx x y : Nat) (b : List Nat),
      CellIs (w * h * ch) idx (input.getD idx 0) b →
      CellIs (w * h * ch) idx (input.getD idx 0) ((List.range ch).foldl
        (fun out c => out.set ((y * w + x) * ch + c) (input.getD ((y * w + x) * ch + c) 0))
        b) := by
    intro idx x y b hb
    apply foldl_inv (CellIs (w * h * ch) idx (input.getD idx 0)) _ _ _ _ hb
    intro b c _ hb
    exact cellIs_set hb (fun he => by rw [he])
  have hlen : ∀ x, x ∈ List.range w → ∀ b y, y ∈ List.range h → b.length = w * h * ch →
      (item b x y).length = w * h * ch := by
    intro x hx b y hy hb
    rw [hitem b x y (List.mem_range.1 hx) (List.mem_range.1 hy)]
    exact hlenC x y b hb
  have hkeep : ∀ idx x, x ∈ List.range w → ∀ b y, y ∈ List.range h →
      CellIs (w * h * ch) idx (input.getD idx 0) b →
      CellIs (w * h * ch) idx (input.getD idx 0) (item b x y) := by
    intro idx x hx b y hy hb
    rw [hitem b x y (List.mem_range.1 hx) (List.mem_range.1 hy)]
    exact hkeepC idx x y b hb
  have hlenAll : (dispatch2D w h item out).length = w * h * ch := by
    unfold dispatch2D
    apply foldl_inv (fun b : List Nat => b.length = w * h * ch) _ _ _ _ hout
    intro b x hx hb
    exact foldl_inv (fun b : List Nat => b.length = w * h * ch) _ _ (hlen x hx) _ hb
  apply List.ext_getElem (by rw [hlenAll, hin])
  intro idx h1 h2
  have hidx : idx < w * h * ch := by omega
  have hch : 0 < ch := by
    rcases Nat.eq_zero_or_pos ch with hz | hz
    · subst hz; simp at hidx
    · exact hz
  have hp : idx / ch < w * h := (Nat.div_lt_iff_lt_mul hch).2 hidx
  have hw : 0 < w := by
    rcases Nat.eq_zero_or_pos w with hz | hz
    · subst hz; simp at hp
    · exact hz
  have hc : idx % ch < ch := Nat.mod_lt _ hch
  have hy : idx / ch / w < h :=
    (Nat.div_lt_iff_lt_mul hw).2 (by rw [Nat.mul_comm h w]; exact hp)
  have hx : idx / ch % w < w := Nat.mod_lt _ hw
  have e1 : idx / ch / w * w + idx / ch % w = idx / ch := by
    rw [Nat.mul_comm]; exact Nat.div_add_mod _ w
  have e2 : (idx / ch / w * w + idx / ch % w) * ch + idx % ch = idx := by
    rw [e1, Nat.mul_comm]; exact Nat.div_add_mod idx ch
  have hcell : CellIs (w * h * ch) idx (input.getD idx 0) (dispatch2D w h item out) := by
    unfold dispatch2D
    apply foldl_establish (fun b : List Nat => b.length = w * h * ch)
      (CellIs (w * h * ch) idx (input.getD idx 0)) _ _ (idx / ch % w) (List.mem_range.2 hx)
    · intro b x hx hb
      exact foldl_inv (fun b : List Nat => b.length = w * h * ch) _ _ (hlen x hx) _ hb
    · intro b hb
      apply foldl_establish (fun b : List Nat => b.length = w * h * ch)
        (CellIs (w * h * ch) idx (input.getD idx 0)) _ _ (idx / ch / w) (List.mem_range.2 hy)
        (hlen _ (List.mem_range.2 hx))
      · intro b hb
        rw [hitem b _ _ hx hy]
        apply foldl_establish (fun b : List Nat => b.length = w * h * ch)
          (CellIs (w * h * ch) idx (input.getD idx 0)) _ _ (idx % ch) (List.mem_range.2 hc)
        · intro b c _ hb
          simpa using hb
        · intro b hb
          rw [e2]
          exact cellIs_set_self hb hidx
        · intro b c _ hb
          exact cellIs_set hb (fun he => by rw [he])
        · exact hb
      · exact hkeep idx _ (List.mem_range.2 hx)
      · exact hb
    · intro b x hx hb
      exact foldl_inv (CellIs (w * h * ch) idx (input.getD idx 0)) _ _ (hkeep idx x hx) _ hb
    · exact hout
  have := hcell.2
  rw [List.getElem?_eq_getElem h1, List.getD_eq_getElem?_getD, List.getElem?_eq_getElem h2] at this
  simpa using this

theorem intRange_zero : intRange 0 0 = [0] := by
  decide

theorem clamp_self (x w : Nat) (hx : x < w) : clamp ((x : Int) + 0) 0 ((w : Int) - 1) = x := by
  unfold clamp
  omega

end IdentityKernels

section MedianIdentity

open MedianFilter

theorem sample_index_self (w h ch x y c : Nat) (hx : x < w) (hy : y < h) :
    ((clamp ((y : Int) + 0) 0 ((h : Int) - 1) * (w : Int)
        + clamp ((x : Int) + 0) 0 ((w : Int) - 1)) * (ch : Int) + (c : Int)).toNat
      = (y * w + x) * ch + c := by
  rw [clamp_self x w hx, clamp_self y h hy]
  have : (((y : Int) * (w : Int) + (x : Int)) * (ch : Int) + (c : Int))
      = (((y * w + x) * ch + c : Nat) : Int) := by push_cast; rfl
  rw [this, Int.toNat_ofNat]

/-- With radius 0 the window loops collect exactly one sample: the pixel itself. -/
theorem collectWindow_zero (input : List Nat) (w h ch x y c : Nat) (hx : x < w) (hy : y < h)
    (wv : List Nat) :
    collectWindow input w h ch 0 x y c wv
      = (wv.set 0 (input.getD ((y * w + x) * ch + c) 0), 1) := by
  unfold collectWindow
  simp only [neg_zero, intRange_zero, List.foldl_cons, List.foldl_nil]
  rw [sample_index_self w h ch x y c hx hy]
  simp

theorem SortWindowSegment_one (l : List Nat) : SortWindowSegment l 1 = l := by
  simp [SortWindowSegment]

theorem medianChannel_zero (input : List Nat) (w h ch x y : Nat) (hx : x < w) (hy : y < h)
    (out wv : List Nat) (hwv : 0 < wv.length) (c : Nat) :
    medianChannel input w h ch 0 x y (out, wv) c
      = (out.set ((y * w + x) * ch + c) (input.getD ((y * w + x) * ch + c) 0),
          wv.set 0 (input.getD ((y * w + x) * ch + c) 0)) := by
  unfold medianChannel
  simp only [collectWindow_zero input w h ch x y c hx hy, SortWindowSegment_one]
  have : (wv.set 0 (input.getD ((y * w + x) * ch + c) 0)).getD (1 / 2) 0
      = input.getD ((y * w + x) * ch + c) 0 := by
    have h12 : 1 / 2 = 0 := by decide
    rw [h12, List.getD_eq_getElem?_getD, List.getElem?_set_self hwv]
    rfl
  have hpos : (1 : Nat) > 0 := by decide
  simp only [hpos, if_true, this]

theorem medianChannel_zero_fold (input : List Nat) (w h ch x y : Nat) (hx : x < w)
    (hy : y < h) (cs : List Nat) (out wv : List Nat) (hwv : 0 < wv.length) :
    (cs.foldl (medianChannel input w h ch 0 x y) (out, wv)).1
      = cs.foldl
          (fun out c => out.set ((y * w + x) * ch + c) (input.getD ((y * w + x) * ch + c) 0))
          out := by
  induction cs generalizing out wv with
  | nil => rfl
  | cons c cs ih =>
    rw [List.foldl_cons, List.foldl_cons, medianChannel_zero input w h ch x y hx hy out wv hwv]
    exact ih _ _ (by simpa using hwv)

theorem ApplyMedianFilter_zero (wv0 : Nat → Nat) (input : List Nat) (w h ch : Nat)
    (out : List Nat) (x y : Nat) (hx : x < w) (hy : y < h) :
    ApplyMedianFilter wv0 input w h ch 0 out x y
      = (List.range ch).foldl
          (fun out c => out.set ((y * w + x) * ch + c) (input.getD ((y * w + x) * ch + c) 0))
          out := by
  unfold ApplyMedianFilter
  have hg : ¬ (x ≥ w ∨ y ≥ h) := by omega
  simp only [hg, if_false]
  exact medianChannel_zero_fold input w h ch x y hx hy _ out _ (by simp)

end MedianIdentity

/-- C8. The median filter with radius 0 is the identity transform: for every
`width, height, channels ≥ 1` and every pixel buffer of length `width * height * channels`,
`ApplyFilter` with parameter 0 passes radius 0 to the kernel, the kernel collects a window
of exactly one sample for every pixel and channel, and the buffer after the call equals
the buffer before it, whatever the uninitialised device memory held. -/
theorem C8_median_radius_zero_identity (outputBuffer0 windowValues0 : Nat → Nat)
    (imageData : List Nat) (width height channels : Nat)
    (hw : 1 ≤ width) (hh : 1 ≤ height) (hc : 1 ≤ channels)
    (hlen : imageData.length = width * height * channels) :
    MedianFilter.actualRadius 0 = 0 ∧
    (∀ x y c (wv : List Nat), x < width → y < height →
      (MedianFilter.collectWindow imageData width height channels 0 x y c wv).2 = 1) ∧
    MedianFilter.ApplyFilter outputBuffer0 windowValues0 0 imageData width height channels
      = imageData := by
  refine ⟨by decide, ?_, ?_⟩
  · intro x y c wv hx hy
    rw [collectWindow_zero imageData width height channels x y c hx hy]
  · unfold MedianFilter.ApplyFilter
    have h0 : MedianFilter.actualRadius 0 = 0 := by decide
    simp only [h0]
    rw [List.take_of_length_le (by omega), List.drop_of_length_le (by omega), List.append_nil]
    exact dispatch2D_copy width height channels imageData hlen _
      (fun out x y hx hy =>
        ApplyMedianFilter_zero windowValues0 imageData width height channels out x y hx hy)
      _ (by simp)

/-- C8 at a 3 x 2 image with 2 channels. -/
theorem C8_median_radius_zero_identity_witness :
    MedianFilter.ApplyFilter (fun _ => 99) (fun _ => 77) 0
        [1, 2, 3, 4, 5, 6, 7, 8, 9, 10, 11, 12] 3 2 2
      = [1, 2, 3, 4, 5, 6, 7, 8, 9, 10, 11, 12] :=
  (C8_median_radius_zero_identity (fun _ => 99) (fun _ => 77)
    [1, 2, 3, 4, 5, 6, 7, 8, 9, 10, 11, 12] 3 2 2 (by decide) (by decide) (by decide)
    (by decide)).2.2

/-- C9. Median filter capping: for every requested radius `r > 10` (in particular
`r = 15`) and every image, `MedianFilter::ApplyFilter` passes radius 10 to the kernel, and
so produces exactly the output buffer of the filter with radius 10 on the same image (in
the same device state). -/
theorem C9_median_radius_capped (outputBuffer0 windowValues0 : Nat → Nat) (r : Int)
    (hr : 10 < r) (imageData : List Nat) (width height channels : Nat) :
    MedianFilter.actualRadius r = 10 ∧
    MedianFilter.ApplyFilter outputBuffer0 windowValues0 r imageData width height channels
      = MedianFilter.ApplyFilter outputBuffer0 windowValues0 10 imageData width height
          channels := by
  have h1 : MedianFilter.actualRadius r = 10 := by
    unfold MedianFilter.actualRadius MedianFilter.MAX_KERNEL_SUPPORTED_RADIUS
    simp only []
    rw [min_eq_right (le_of_lt hr)]
    decide
  have h2 : MedianFilter.actualRadius 10 = 10 := by decide
  refine ⟨h1, ?_⟩
  unfold MedianFilter.ApplyFilter
  rw [h1, h2]

/-- C9 at radius 15 on a 3 x 3 single-channel image. -/
theorem C9_median_radius_capped_witness :
    MedianFilter.actualRadius 15 = 10 ∧
    MedianFilter.ApplyFilter (fun _ => 99) (fun _ => 77) 15 [1, 200, 3, 4, 5, 6, 7, 8, 9] 3 3 1
      = MedianFilter.ApplyFilter (fun _ => 99) (fun _ => 77) 10 [1, 200, 3, 4, 5, 6, 7, 8, 9]
          3 3 1 :=
  C9_median_radius_capped (fun _ => 99) (fun _ => 77) 15 (by decide)
    [1, 200, 3, 4, 5, 6, 7, 8, 9] 3 3 1

section MotionIdentity

open MotionBlurFilter

theorem offsets_one : offsets 1 = (0, 0) := by
  decide

theorem toUChar_natCast_div_one (n : Nat) : toUChar ((n : ℚ) / ((1 : Nat) : ℚ)) = n := by
  unfold toUChar
  simp

/-- With `blurLength = 1` the channel body copies the byte of the pixel itself. -/
theorem blurChannel_one (input : List Nat) (w h ch x y : Nat) (hx : x < w) (hy : y < h)
    (out : List Nat) (c : Nat) :
    blurChannel input w h ch 1 x y out c
      = out.set ((y * w + x) * ch + c) (input.getD ((y * w + x) * ch + c) 0) := by
  unfold blurChannel
  simp only [offsets_one, intRange_zero, List.foldl_cons, List.foldl_nil]
  have hidx : ((((y : Int) * (w : Int) + clamp ((x : Int) + 0) 0 ((w : Int) - 1)) * (ch : Int)
      + (c : Int))).toNat = (y * w + x) * ch + c := by
    rw [clamp_self x w hx]
    have : (((y : Int) * (w : Int) + (x : Int)) * (ch : Int) + (c : Int))
        = (((y * w + x) * ch + c : Nat) : Int) := by push_cast; rfl
    rw [this, Int.toNat_ofNat]
  rw [hidx]
  have hpos : (0 + 1 : Nat) > 0 := by decide
  simp only [hpos, if_true, zero_add]
  rw [toUChar_natCast_div_one]

theorem ApplyMotionBlur_one (input : List Nat) (w h ch : Nat) (out : List Nat) (x y : Nat)
    (hx : x < w) (hy : y < h) :
    ApplyMotionBlur input w h ch 1 out x y
      = (List.range ch).foldl
          (fun out c => out.set ((y * w + x) * ch + c) (input.getD ((y * w + x) * ch + c) 0))
          out := by
  unfold ApplyMotionBlur
  have hg : ¬ (x ≥ w ∨ y ≥ h) := by omega
  simp only [hg, if_false]
  apply List.foldl_ext
  intro out c _
  exact blurChannel_one input w h ch x y hx hy out c

end MotionIdentity

/-- C10. Motion blur with `blurLength = 1` is the identity transform: the kernel's offset
loop runs over offset 0 only, and for every `width, height, channels ≥ 1` and every pixel
buffer of length `width * height * channels` the buffer after `ApplyFilter` equals the
buffer before it, whatever the uninitialised output buffer held. -/
theorem C10_motion_blur_length_one_identity (outputBuffer0 : Nat → Nat)
    (imageData : List Nat) (width height channels : Nat)
    (hw : 1 ≤ width) (hh : 1 ≤ height) (hc : 1 ≤ channels)
    (hlen : imageData.length = width * height * channels) :
    intRange (MotionBlurFilter.offsets 1).1 (MotionBlurFilter.offsets 1).2 = [0] ∧
    (∀ x y c out, x < width → y < height →
      MotionBlurFilter.blurChannel imageData width height channels 1 x y out c
        = out.set ((y * width + x) * channels + c)
            (imageData.getD ((y * width + x) * channels + c) 0)) ∧
    MotionBlurFilter.ApplyFilter outputBuffer0 1 imageData width height channels
      = imageData := by
  refine ⟨by decide, ?_, ?_⟩
  · intro x y c out hx hy
    exact blurChannel_one imageData width height channels x y hx hy out c
  · unfold MotionBlurFilter.ApplyFilter
    have h0 : ¬ ((1 : Int) ≤ 0) := by decide
    simp only [h0, if_false]
    rw [List.take_of_length_le (by omega), List.drop_of_length_le (by omega), List.append_nil]
    exact dispatch2D_copy width height channels imageData hlen _
      (fun out x y hx hy => ApplyMotionBlur_one imageData width height channels out x y hx hy)
      _ (by simp)

/-- C10 at a 3 x 2 image with 2 channels. -/
theorem C10_motion_blur_length_one_identity_witness :
    MotionBlurFilter.ApplyFilter (fun _ => 99) 1 [1, 2, 3, 4, 5, 6, 7, 8, 9, 10, 11, 12] 3 2 2
      = [1, 2, 3, 4, 5, 6, 7, 8, 9, 10, 11, 12] :=
  (C10_motion_blur_length_one_identity (fun _ => 99)
    [1, 2, 3, 4, 5, 6, 7, 8, 9, 10, 11, 12] 3 2 2 (by decide) (by decide) (by decide)
    (by decide)).2.2

/-! ## A dispatch in which every work-item writes the bytes of its own pixel -/

section PixelDispatch

/-- Byte indices `(y * w + x) * ch + c` are unique. -/
theorem byte_index_inj {w ch x y c x' y' c' : Nat} (hx : x < w) (hx' : x' < w)
    (hc : c < ch) (hc' : c' < ch)
    (h : (y' * w + x') * ch + c' = (y * w + x) * ch + c) : x' = x ∧ y' = y ∧ c' = c := by
  obtain ⟨h1, h2⟩ := cell_index_inj hc' hc h
  obtain ⟨h3, h4⟩ := cell_index_inj hx' hx h1
  exact ⟨h4, h3, h2⟩

theorem byte_index_lt {w h ch x y c : Nat} (hx : x < w) (hy : y < h) (hc : c < ch) :
    (y * w + x) * ch + c < w * h * ch := by
  have h1 : y * w + x < h * w := cell_index_lt hy hx
  rw [Nat.mul_comm h w] at h1
  exact cell_index_lt h1 hc

/-- If the work-item `(x, y)` stores `val x y c` at byte `(y * w + x) * ch + c` for every
channel `c` and nothing else, then after the dispatch every byte of every pixel holds the
value stored by its own work-item. -/
theorem dispatch2D_pixel (w h ch : Nat) (val : Nat → Nat → Nat → Nat)
    (item : List Nat → Nat → Nat → List Nat)
    (hitem : ∀ out x y, x < w → y < h → item out x y =
      (List.range ch).foldl
        (fun out c => out.set ((y * w + x) * ch + c) (val x y c)) out)
    (out : List Nat) (hout : out.length = w * h * ch)
    (x y c : Nat) (hx : x < w) (hy : y < h) (hc : c < ch) :
    CellIs (w * h * ch) ((y * w + x) * ch + c) (val x y c) (dispatch2D w h item out) := by
  have hlen : ∀ x', x' ∈ List.range w → ∀ b y', y' ∈ List.range h → b.length = w * h * ch →
      (item b x' y').length = w * h * ch := by
    intro x' hx' b y' hy' hb
    rw [hitem b x' y' (List.mem_range.1 hx') (List.mem_range.1 hy')]
    apply foldl_inv (fun b : List Nat => b.length = w * h * ch) _ _ _ _ hb
    intro b c _ hb
    simpa using hb
  have hkeep : ∀ x', x' ∈ List.range w → ∀ b y', y' ∈ List.range h →
      CellIs (w * h * ch) ((y * w + x) * ch + c) (val x y c) b →
      CellIs (w * h * ch) ((y * w + x) * ch + c) (val x y c) (item b x' y') := by
    intro x' hx' b y' hy' hb
    rw [hitem b x' y' (List.mem_range.1 hx') (List.mem_range.1 hy')]
    apply foldl_inv (CellIs (w * h * ch) ((y * w + x) * ch + c) (val x y c)) _ _ _ _ hb
    intro b c' hc' hb
    apply cellIs_set hb
    intro he
    obtain ⟨e1, e2, e3⟩ := byte_index_inj hx (List.mem_range.1 hx') hc (List.mem_range.1 hc') he
    rw [e1, e2, e3]
  unfold dispatch2D
  apply foldl_establish (fun b : List Nat => b.length = w * h * ch)
    (CellIs (w * h * ch) ((y * w + x) * ch + c) (val x y c)) _ _ x (List.mem_range.2 hx)
  · intro b x' hx' hb
    exact foldl_inv (fun b : List Nat => b.length = w * h * ch) _ _ (hlen x' hx') _ hb
  · intro b hb
    apply foldl_establish (fun b : List Nat => b.length = w * h * ch)
      (CellIs (w * h * ch) ((y * w + x) * ch + c) (val x y c)) _ _ y (List.mem_range.2 hy)
      (hlen _ (List.mem_range.2 hx))
    · intro b hb
      rw [hitem b _ _ hx hy]
      apply foldl_establish (fun b : List Nat => b.length = w * h * ch)
        (CellIs (w * h * ch) ((y * w + x) * ch + c) (val x y c)) _ _ c (List.mem_range.2 hc)
      · intro b c' _ hb
        simpa using hb
      · intro b hb
        exact cellIs_set_self hb (byte_index_lt hx hy hc)
      · intro b c' hc' hb
        apply cellIs_set hb
        intro he
        obtain ⟨_, _, e3⟩ := byte_index_inj hx hx hc (List.mem_range.1 hc') he
        rw [e3]
      · exact hb
    · exact hkeep _ (List.mem_range.2 hx)
    · exact hb
  · intro b x' hx' hb
    exact foldl_inv (CellIs (w * h * ch) ((y * w + x) * ch + c) (val x y c)) _ _
      (hkeep x' hx') _ hb
  · exact hout

/-- A loop over the concatenation of lists is the nested loop. -/
theorem foldl_flatMap_eq {α β γ : Type} (f : α → List β) (g : γ → β → γ) (l : List α)
    (init : γ) :
    (l.flatMap f).foldl g init = l.foldl (fun acc a => (f a).foldl g acc) init := by
  induction l generalizing init with
  | nil => rfl
  | cons a l ih => rw [List.flatMap_cons, List.foldl_append, ih, List.foldl_cons]

end PixelDispatch

/-! ## Median filter: the bubble sort -/

section BubbleSort

open MedianFilter

theorem swapStep_cons (a : Nat) (l : List Nat) (j : Nat) :
    swapStep (a :: l) (j + 1) = a :: swapStep l j := by
  unfold swapStep
  simp only [List.getD_cons_succ]
  split <;> simp

theorem swapStep_zero (x y : Nat) (l : List Nat) :
    swapStep (x :: y :: l) 0 = if x > y then y :: x :: l else x :: y :: l := by
  unfold swapStep
  simp

theorem foldl_swapStep_cons (js : List Nat) (a : Nat) (l : List Nat) :
    js.foldl (fun seg j => swapStep seg (j + 1)) (a :: l) = a :: js.foldl swapStep l := by
  induction js generalizing l with
  | nil => rfl
  | cons j js ih => rw [List.foldl_cons, List.foldl_cons, swapStep_cons, ih]

/-- One inner loop of the bubble sort over the first `t.length + 1` elements is a `carry`
pass; the rest of the array is untouched. -/
theorem inner_pass (t : List Nat) (x : Nat) (rest : List Nat) :
    (List.range t.length).foldl swapStep (x :: t ++ rest) = carry x t ++ rest := by
  induction t generalizing x with
  | nil => rfl
  | cons y t ih =>
    rw [List.length_cons, List.range_succ_eq_map, List.foldl_cons, List.foldl_map]
    have h0 : swapStep (x :: (y :: t) ++ rest) 0
        = if x > y then y :: (x :: t ++ rest) else x :: (y :: t ++ rest) := by
      simpa using swapStep_zero x y (t ++ rest)
    rw [h0]
    by_cases hxy : x > y
    · simp only [hxy, if_true, carry]
      have := foldl_swapStep_cons (List.range t.length) y (x :: t ++ rest)
      simp only [Nat.succ_eq_add_one] at this ⊢
      rw [this, ih x]
      rfl
    · simp only [hxy, if_false, carry]
      have := foldl_swapStep_cons (List.range t.length) x (y :: t ++ rest)
      simp only [Nat.succ_eq_add_one] at this ⊢
      rw [this, ih y]
      rfl

theorem carry_perm (t : List Nat) (x : Nat) : (carry x t).Perm (x :: t) := by
  induction t generalizing x with
  | nil => exact List.Perm.refl _
  | cons y t ih =>
    unfold carry
    by_cases hxy : x > y
    · simp only [hxy, if_true]
      exact ((ih x).cons y).trans (List.Perm.swap x y t)
    · simp only [hxy, if_false]
      exact (ih y).cons x

/-- A `carry` pass leaves the largest element last. -/
theorem carry_last (t : List Nat) (x : Nat) :
    ∃ init mx, carry x t = init ++ [mx] ∧ (∀ a ∈ init, a ≤ mx) ∧ x ≤ mx ∧
      init.length = t.length := by
  induction t generalizing x with
  | nil => exact ⟨[], x, rfl, by simp, Nat.le_refl x, rfl⟩
  | cons y t ih =>
    unfold carry
    by_cases hxy : x > y
    · obtain ⟨init, mx, h1, h2, h3, h4⟩ := ih x
      refine ⟨y :: init, mx, by simp [hxy, h1], ?_, h3, by simp [h4]⟩
      intro a ha
      rcases List.mem_cons.1 ha with rfl | ha
      · omega
      · exact h2 a ha
    · obtain ⟨init, mx, h1, h2, h3, h4⟩ := ih y
      refine ⟨x :: init, mx, by simp [hxy, h1], ?_, by omega, by simp [h4]⟩
      intro a ha
      rcases List.mem_cons.1 ha with rfl | ha
      · omega
      · exact h2 a ha

/-- The bubble sort sorts the first `count` elements and leaves the rest untouched. -/
theorem SortWindowSegment_spec (n : Nat) (p rest : List Nat) (hp : p.length = n) :
    ∃ s, SortWindowSegment (p ++ rest) n = s ++ rest ∧ s.Sorted (· ≤ ·) ∧ s.Perm p := by
  induction n generalizing p rest with
  | zero =>
    have : p = [] := List.length_eq_zero.1 hp
    subst this
    exact ⟨[], by simp [SortWindowSegment], List.sorted_nil, List.Perm.refl _⟩
  | succ k ih =>
    cases p with
    | nil => simp at hp
    | cons x t =>
      have ht : t.length = k := by simpa using hp
      cases k with
      | zero =>
        have : t = [] := List.length_eq_zero.1 ht
        subst this
        exact ⟨[x], by simp [SortWindowSegment], List.sorted_singleton x, List.Perm.refl _⟩
      | succ m =>
        obtain ⟨init, mx, h1, h2, _, h4⟩ := carry_last t x
        obtain ⟨s', hs1, hs2, hs3⟩ := ih init ([mx] ++ rest) (by rw [h4, ht])
        refine ⟨s' ++ [mx], ?_, ?_, ?_⟩
        · unfold SortWindowSegment at hs1 ⊢
          have hr : m + 1 + 1 - 1 = m + 1 := by omega
          rw [hr, List.range_succ_eq_map, List.foldl_cons, List.foldl_map]
          have hr2 : m + 1 + 1 - 0 - 1 = t.length := by omega
          rw [hr2, inner_pass t x rest, h1]
          have hr3 : m + 1 - 1 = m := by omega
          rw [hr3] at hs1
          have hfun : (fun (segment : List Nat) (i : Nat) =>
                (List.range (m + 1 + 1 - Nat.succ i - 1)).foldl swapStep segment)
              = (fun (segment : List Nat) (i : Nat) =>
                (List.range (m + 1 - i - 1)).foldl swapStep segment) := by
            funext segment i
            have : m + 1 + 1 - Nat.succ i - 1 = m + 1 - i - 1 := by omega
            rw [this]
          rw [hfun]
          simp only [List.append_assoc] at hs1 ⊢
          exact hs1
        · rw [List.Sorted, List.pairwise_append]
          refine ⟨hs2, List.pairwise_singleton _ _, ?_⟩
          intro a ha b hb
          rw [List.mem_singleton.1 hb]
          exact h2 a (hs3.mem_iff.1 ha)
        · have hc := carry_perm t x
          rw [h1] at hc
          exact (List.Perm.append_right [mx] hs3).trans hc

/-- The sorted prefix is the ascending sort of the prefix. -/
theorem SortWindowSegment_eq (p rest : List Nat) :
    SortWindowSegment (p ++ rest) p.length = p.insertionSort (· ≤ ·) ++ rest := by
  obtain ⟨s, h1, h2, h3⟩ := SortWindowSegment_spec p.length p rest rfl
  have : s = p.insertionSort (· ≤ ·) :=
    List.eq_of_perm_of_sorted (h3.trans (List.perm_insertionSort (· ≤ ·) p).symm) h2
      (List.sorted_insertionSort (· ≤ ·) p)
  rw [h1, this]

end BubbleSort

/-! ## Median filter: the window and the median -/

section MedianWindow

open MedianFilter

theorem intRange_length (lo hi : Int) : (intRange lo hi).length = (hi + 1 - lo).toNat := by
  simp [intRange]

theorem windowSamples_length (input : List Nat) (w h ch : Nat) (r : Int) (x y c : Nat) :
    (windowSamples input w h ch r x y c).length
      = (2 * r + 1).toNat * (2 * r + 1).toNat := by
  unfold windowSamples
  rw [List.length_flatMap]
  have : (List.length ∘ fun dy : Int =>
      (intRange (-r) r).map (fun dx =>
        input.getD
          ((clamp ((y : Int) + dy) 0 ((h : Int) - 1) * w
            + clamp ((x : Int) + dx) 0 ((w : Int) - 1)) * ch + c).toNat 0))
      = fun _ => (2 * r + 1).toNat := by
    funext dy
    simp only [Function.comp, List.length_map, intRange_length]
    congr 1
    omega
  rw [this, List.map_const', List.sum_replicate, intRange_length]
  have : (r + 1 - -r).toNat = (2 * r + 1).toNat := by congr 1; omega
  rw [this]
  simp

theorem windowSamples_length_le (input : List Nat) (w h ch : Nat) (r : Int) (x y c : Nat)
    (hr : r ≤ 10) : (windowSamples input w h ch r x y c).length ≤ 441 := by
  rw [windowSamples_length]
  have h1 : (2 * r + 1).toNat ≤ 21 := by omega
  calc (2 * r + 1).toNat * (2 * r + 1).toNat ≤ 21 * 21 := Nat.mul_le_mul h1 h1
    _ = 441 := by decide

/-- Storing the samples `vs` one after another from position `pre.length`, with the
capacity guard of the kernel. -/
theorem push_fold (vs pre mid post : List Nat) (hmid : mid.length = vs.length)
    (hcap : pre.length + vs.length ≤ 441) :
    vs.foldl (fun (st : List Nat × Nat) v => if st.2 < 441 then (st.1.set st.2 v, st.2 + 1) else st)
        (pre ++ mid ++ post, pre.length)
      = (pre ++ vs ++ post, pre.length + vs.length) := by
  induction vs generalizing pre mid with
  | nil =>
    have : mid = [] := List.length_eq_zero.1 (by simpa using hmid)
    subst this
    simp
  | cons v vs ih =>
    cases mid with
    | nil => simp at hmid
    | cons m mid =>
      rw [List.foldl_cons]
      have hlt : pre.length < 441 := by simp at hcap; omega
      simp only [hlt, if_true]
      have hset : (pre ++ m :: mid ++ post).set pre.length v = (pre ++ [v]) ++ mid ++ post := by
        rw [List.append_assoc, List.set_append_right _ _ (Nat.le_refl _)]
        simp
      rw [hset]
      have hl : pre.length + 1 = (pre ++ [v]).length := by simp
      rw [hl, ih (pre ++ [v]) mid (by simpa using hmid) (by simp at hcap ⊢; omega)]
      simp
      omega

/-- The two window loops store exactly the window samples, in order, at the front of the
window array: the capacity guard discards nothing when the radius is at most 10. -/
theorem collectWindow_eq (input : List Nat) (w h ch : Nat) (r : Int) (hr : r ≤ 10)
    (x y c : Nat) (wv : List Nat) (hwv : wv.length = 441) :
    collectWindow input w h ch r x y c wv
      = (windowSamples input w h ch r x y c
          ++ wv.drop (windowSamples input w h ch r x y c).length,
        (windowSamples input w h ch r x y c).length) := by
  have hle := windowSamples_length_le input w h ch r x y c hr
  have hpush := push_fold (windowSamples input w h ch r x y c) []
    (wv.take (windowSamples input w h ch r x y c).length)
    (wv.drop (windowSamples input w h ch r x y c).length)
    (by rw [List.length_take]; omega) (by simpa using hle)
  simp only [List.nil_append, List.take_append_drop, List.length_nil, Nat.zero_add] at hpush
  rw [← hpush]
  unfold collectWindow windowSamples
  rw [foldl_flatMap_eq]
  simp only [List.foldl_map]

/-- For a radius in `0 .. 10` the channel body stores the window median at the byte of the
pixel and keeps the window array at its size. -/
theorem medianChannel_eq (input : List Nat) (w h ch : Nat) (r : Int) (hr0 : 0 ≤ r)
    (hr : r ≤ 10) (x y : Nat) (out wv : List Nat) (hwv : wv.length = 441) (c : Nat) :
    (medianChannel input w h ch r x y (out, wv) c).1
        = out.set ((y * w + x) * ch + c) (windowMedian input w h ch r x y c) ∧
    (medianChannel input w h ch r x y (out, wv) c).2.length = 441 := by
  have hle := windowSamples_length_le input w h ch r x y c hr
  have hlen := windowSamples_length input w h ch r x y c
  have hpos : 0 < (windowSamples input w h ch r x y c).length := by
    rw [hlen]
    have : 0 < (2 * r + 1).toNat := by omega
    exact Nat.mul_pos this this
  unfold medianChannel
  simp only [collectWindow_eq input w h ch r hr x y c wv hwv, SortWindowSegment_eq]
  have hgt : (windowSamples input w h ch r x y c).length > 0 := hpos
  simp only [hgt, if_true]
  constructor
  · congr 1
    unfold windowMedian
    simp only []
    have hidx : (windowSamples input w h ch r x y c).length / 2
        < ((windowSamples input w h ch r x y c).insertionSort (· ≤ ·)).length := by
      rw [List.length_insertionSort]
      omega
    rw [List.getD_eq_getElem?_getD, List.getD_eq_getElem?_getD, List.getElem?_append_left hidx]
  · simp only [List.length_append, List.length_insertionSort, List.length_drop, hwv]
    omega

theorem medianChannel_fold (input : List Nat) (w h ch : Nat) (r : Int) (hr0 : 0 ≤ r)
    (hr : r ≤ 10) (x y : Nat) (cs : List Nat) (out wv : List Nat) (hwv : wv.length = 441) :
    (cs.foldl (medianChannel input w h ch r x y) (out, wv)).1
      = cs.foldl
          (fun out c => out.set ((y * w + x) * ch + c) (windowMedian input w h ch r x y c))
          out := by
  induction cs generalizing out wv with
  | nil => rfl
  | cons c cs ih =>
    rw [List.foldl_cons, List.foldl_cons]
    obtain ⟨h1, h2⟩ := medianChannel_eq input w h ch r hr0 hr x y out wv hwv c
    have hpair : medianChannel input w h ch r x y (out, wv) c
        = ((medianChannel input w h ch r x y (out, wv) c).1,
            (medianChannel input w h ch r x y (out, wv) c).2) := rfl
    rw [hpair, ih _ _ h2, h1]

theorem ApplyMedianFilter_eq (wv0 : Nat → Nat) (input : List Nat) (w h ch : Nat) (r : Int)
    (hr0 : 0 ≤ r) (hr : r ≤ 10) (out : List Nat) (x y : Nat) (hx : x < w) (hy : y < h) :
    ApplyMedianFilter wv0 input w h ch r out x y
      = (List.range ch).foldl
          (fun out c => out.set ((y * w + x) * ch + c) (windowMedian input w h ch r x y c))
          out := by
  unfold ApplyMedianFilter
  have hg : ¬ (x ≥ w ∨ y ≥ h) := by omega
  simp only [hg, if_false]
  exact medianChannel_fold input w h ch r hr0 hr x y _ out _ (by simp)

end MedianWindow

section MedianClaims

open MedianFilter

theorem toNat_mul_self (a : Int) (ha : 0 ≤ a) : a.toNat * a.toNat = (a * a).toNat := by
  obtain ⟨n, rfl⟩ := Int.eq_ofNat_of_zero_le ha
  have : ((n : Int) * (n : Int)) = ((n * n : Nat) : Int) := by push_cast; rfl
  rw [this, Int.toNat_ofNat, Int.toNat_ofNat]

theorem actualRadius_of_mem (r : Int) (hr0 : 0 ≤ r) (hr : r ≤ 10) : actualRadius r = r := by
  unfold actualRadius MAX_KERNEL_SUPPORTED_RADIUS
  simp only []
  rw [min_eq_left hr]
  have : ¬ r < 0 := by omega
  simp [this]

theorem actualRadius_range (m : Int) : 0 ≤ actualRadius m ∧ actualRadius m ≤ 10 := by
  unfold actualRadius MAX_KERNEL_SUPPORTED_RADIUS
  simp only []
  split <;> omega

/-- Every sample index of the median window is the byte of channel `c` of a pixel inside
the image. -/
theorem median_sample_index (w h ch x y c : Nat) (hw : 1 ≤ w) (hh : 1 ≤ h) (dx dy : Int) :
    ∃ p, p < w * h ∧
      ((clamp ((y : Int) + dy) 0 ((h : Int) - 1) * w
          + clamp ((x : Int) + dx) 0 ((w : Int) - 1)) * ch + c).toNat = p * ch + c := by
  have hy0 : 0 ≤ clamp ((y : Int) + dy) 0 ((h : Int) - 1) := by unfold clamp; omega
  have hy1 : clamp ((y : Int) + dy) 0 ((h : Int) - 1) ≤ (h : Int) - 1 := by unfold clamp; omega
  have hx0 : 0 ≤ clamp ((x : Int) + dx) 0 ((w : Int) - 1) := by unfold clamp; omega
  have hx1 : clamp ((x : Int) + dx) 0 ((w : Int) - 1) ≤ (w : Int) - 1 := by unfold clamp; omega
  obtain ⟨sy, hsy⟩ := Int.eq_ofNat_of_zero_le hy0
  obtain ⟨sx, hsx⟩ := Int.eq_ofNat_of_zero_le hx0
  rw [hsy] at hy1
  rw [hsx] at hx1
  rw [hsy, hsx]
  refine ⟨sy * w + sx, ?_, ?_⟩
  · have : sy * w + sx < h * w := cell_index_lt (by omega) (by omega)
    rw [Nat.mul_comm w h]
    exact this
  · have : (((sy : Int) * (w : Int) + (sx : Int)) * (ch : Int) + (c : Int))
        = (((sy * w + sx) * ch + c : Nat) : Int) := by push_cast; rfl
    rw [this, Int.toNat_ofNat]

/-- The window samples of channel `c` depend on channel `c` of the image only. -/
theorem windowSamples_congr (input input' : List Nat) (w h ch : Nat) (r : Int) (x y c : Nat)
    (hw : 1 ≤ w) (hh : 1 ≤ h)
    (hagree : ∀ p, p < w * h → input'.getD (p * ch + c) 0 = input.getD (p * ch + c) 0) :
    windowSamples input' w h ch r x y c = windowSamples input w h ch r x y c := by
  unfold windowSamples
  congr 1
  funext dy
  congr 1
  funext dx
  obtain ⟨p, hp, hidx⟩ := median_sample_index w h ch x y c hw hh dx dy
  rw [hidx]
  exact hagree p hp

theorem MedianFilter_ApplyFilter_cell (outputBuffer0 windowValues0 : Nat → Nat) (r : Int)
    (hr0 : 0 ≤ r) (hr : r ≤ 10) (input : List Nat) (w h ch : Nat)
    (hlen : input.length = w * h * ch) (x y c : Nat) (hx : x < w) (hy : y < h) (hc : c < ch) :
    (MedianFilter.ApplyFilter outputBuffer0 windowValues0 r input w h ch)[(y * w + x) * ch + c]?
      = some (windowMedian input w h ch r x y c) := by
  unfold MedianFilter.ApplyFilter
  simp only [actualRadius_of_mem r hr0 hr]
  rw [List.take_of_length_le (by omega), List.drop_of_length_le (by omega), List.append_nil]
  exact (dispatch2D_pixel w h ch (fun x y c => windowMedian input w h ch r x y c) _
    (fun out x y hx hy => ApplyMedianFilter_eq windowValues0 input w h ch r hr0 hr out x y hx hy)
    _ (by simp) x y c hx hy hc).2

end MedianClaims

/-- C14. For every radius `r` with `0 ≤ r ≤ 10`, every image with
`width, height, channels ≥ 1` and every pixel `(x, y)` and channel `c`, the byte the median
kernel leaves at `(y * width + x) * channels + c` is the element at index `count / 2`,
`count = (2r + 1)²`, of the ascending sort of the window samples
`input[clamp(y + dy, 0, h - 1)][clamp(x + dx, 0, w - 1)][c]` for `dy, dx` in `-r .. r`,
whatever the uninitialised device memory held; and it is the same for any other image that
agrees with `input` on channel `c`. -/
theorem C14_median_kernel_output (outputBuffer0 windowValues0 : Nat → Nat) (r : Int)
    (hr0 : 0 ≤ r) (hr : r ≤ 10) (input : List Nat) (w h ch : Nat)
    (hw : 1 ≤ w) (hh : 1 ≤ h) (hch : 1 ≤ ch) (hlen : input.length = w * h * ch)
    (x y c : Nat) (hx : x < w) (hy : y < h) (hc : c < ch) :
    (∃ sorted : List Nat,
      sorted.Sorted (· ≤ ·) ∧
      sorted.Perm (MedianFilter.windowSamples input w h ch r x y c) ∧
      (MedianFilter.windowSamples input w h ch r x y c).length
        = ((2 * r + 1) * (2 * r + 1)).toNat ∧
      (MedianFilter.ApplyFilter outputBuffer0 windowValues0 r input w h ch)[(y * w + x) * ch + c]?
        = some (sorted.getD (((2 * r + 1) * (2 * r + 1)).toNat / 2) 0)) ∧
    (∀ input' : List Nat, input'.length = w * h * ch →
      (∀ p, p < w * h → input'.getD (p * ch + c) 0 = input.getD (p * ch + c) 0) →
      (MedianFilter.ApplyFilter outputBuffer0 windowValues0 r input' w h ch)[(y * w + x) * ch + c]?
        = (MedianFilter.ApplyFilter outputBuffer0 windowValues0 r input w h ch)[(y * w + x) * ch + c]?) := by
  have hcount : (MedianFilter.windowSamples input w h ch r x y c).length
      = ((2 * r + 1) * (2 * r + 1)).toNat := by
    rw [windowSamples_length]
    have h1 : (0 : Int) ≤ 2 * r + 1 := by omega
    rw [toNat_mul_self _ h1]
  constructor
  · refine ⟨(MedianFilter.windowSamples input w h ch r x y c).insertionSort (· ≤ ·),
      List.sorted_insertionSort (· ≤ ·) _, List.perm_insertionSort (· ≤ ·) _, hcount, ?_⟩
    rw [MedianFilter_ApplyFilter_cell outputBuffer0 windowValues0 r hr0 hr input w h ch hlen
      x y c hx hy hc, ← hcount]
    rfl
  · intro input' hlen' hagree
    rw [MedianFilter_ApplyFilter_cell outputBuffer0 windowValues0 r hr0 hr input w h ch hlen
      x y c hx hy hc,
      MedianFilter_ApplyFilter_cell outputBuffer0 windowValues0 r hr0 hr input' w h ch hlen'
      x y c hx hy hc]
    unfold MedianFilter.windowMedian
    rw [windowSamples_congr input input' w h ch r x y c hw hh hagree]

/-- C14 at the centre of a 3 x 3 single-channel image with radius 1: the window is the
whole image and the output byte is its median. -/
theorem C14_median_kernel_output_witness :
    (MedianFilter.ApplyFilter (fun _ => 99) (fun _ => 77) 1 [1, 200, 3, 4, 5, 6, 7, 8, 9] 3 3 1)[
      (1 * 3 + 1) * 1 + 0]? = some 6 := by
  obtain ⟨sorted, h1, h2, _, h4⟩ := (C14_median_kernel_output (fun _ => 99) (fun _ => 77) 1
    (by decide) (by decide) [1, 200, 3, 4, 5, 6, 7, 8, 9] 3 3 1 (by decide) (by decide)
    (by decide) (by decide) 1 1 0 (by decide) (by decide) (by decide)).1
  have hs : sorted = [1, 3, 4, 5, 6, 7, 8, 9, 200] :=
    List.eq_of_perm_of_sorted (h2.trans (by decide)) h1 (by decide)
  rw [h4, hs]
  decide

/-- C16. For every value of the stored parameter, the radius `MedianFilter::ApplyFilter`
passes to the kernel lies in `0 .. 10` and `(2r + 1)²` is at most 441; with that radius
the window loops count exactly `(2r + 1)²` samples, store every one of them at the front
of the 441-element array and leave the array at 441 elements: no store is out of bounds
and the capacity guard discards no sample. -/
theorem C16_median_window_capacity (m_effectRadius : Int) :
    0 ≤ MedianFilter.actualRadius m_effectRadius ∧
    MedianFilter.actualRadius m_effectRadius ≤ 10 ∧
    (2 * MedianFilter.actualRadius m_effectRadius + 1)
      * (2 * MedianFilter.actualRadius m_effectRadius + 1) ≤ 441 ∧
    (∀ (input : List Nat) (w h ch x y c : Nat) (windowValues : List Nat),
      windowValues.length = 441 →
      (MedianFilter.collectWindow input w h ch (MedianFilter.actualRadius m_effectRadius)
          x y c windowValues).2
        = ((2 * MedianFilter.actualRadius m_effectRadius + 1)
            * (2 * MedianFilter.actualRadius m_effectRadius + 1)).toNat ∧
      (MedianFilter.collectWindow input w h ch (MedianFilter.actualRadius m_effectRadius)
          x y c windowValues).1.length = 441 ∧
      (MedianFilter.collectWindow input w h ch (MedianFilter.actualRadius m_effectRadius)
          x y c windowValues).1.take
            ((2 * MedianFilter.actualRadius m_effectRadius + 1)
              * (2 * MedianFilter.actualRadius m_effectRadius + 1)).toNat
        = MedianFilter.windowSamples input w h ch (MedianFilter.actualRadius m_effectRadius)
            x y c) := by
  obtain ⟨h0, h10⟩ := actualRadius_range m_effectRadius
  refine ⟨h0, h10, ?_, ?_⟩
  · nlinarith
  · intro input w h ch x y c wv hwv
    have hcount : (MedianFilter.windowSamples input w h ch
        (MedianFilter.actualRadius m_effectRadius) x y c).length
        = ((2 * MedianFilter.actualRadius m_effectRadius + 1)
            * (2 * MedianFilter.actualRadius m_effectRadius + 1)).toNat := by
      rw [windowSamples_length]
      have h1 : (0 : Int) ≤ 2 * MedianFilter.actualRadius m_effectRadius + 1 := by omega
      rw [toNat_mul_self _ h1]
    have hle := windowSamples_length_le input w h ch
      (MedianFilter.actualRadius m_effectRadius) x y c h10
    rw [collectWindow_eq input w h ch _ h10 x y c wv hwv, ← hcount]
    refine ⟨rfl, ?_, ?_⟩
    · simp only [List.length_append, List.length_drop, hwv]
      omega
    · simp

/-- C16 at a stored parameter of 15: radius 10, and the 441 window samples of a pixel fill
the array exactly. -/
theorem C16_median_window_capacity_witness :
    (MedianFilter.collectWindow [1, 200, 3, 4, 5, 6, 7, 8, 9] 3 3 1
        (MedianFilter.actualRadius 15) 1 1 0 (List.replicate 441 0)).2
      = ((2 * MedianFilter.actualRadius 15 + 1) * (2 * MedianFilter.actualRadius 15 + 1)).toNat :=
  ((C16_median_window_capacity 15).2.2.2 [1, 200, 3, 4, 5, 6, 7, 8, 9] 3 3 1 1 1 0
    (List.replicate 441 0) (List.length_replicate 441 0)).1

/-! ## Motion blur: the general kernel -/

section MotionGeneral

open MotionBlurFilter

end MotionGeneral

/-! ## Radial blur -/

section Radial

open RadialBlurFilter

theorem radialChannel_eq (input : List Nat) (w h ch : Nat) (dirX dirY sampleStep : ℚ)
    (numSamples : Int) (x y : Nat) (out : List Nat) (c : Nat) :
    radialChannel input w h ch dirX dirY sampleStep numSamples x y out c
      = out.set ((y * w + x) * ch + c)
          (radialByte input w h ch dirX dirY sampleStep numSamples x y c) := by
  unfold radialChannel radialByte
  simp only []
  split <;> rfl

/-- Every work-item of `ApplyRadialBlur` stores `pixelByte` at the bytes of its pixel. -/
theorem ApplyRadialBlur_eq (sqrtf : ℚ → ℚ) (input : List Nat) (w h ch : Nat) (I : Int)
    (out : List Nat) (x y : Nat) (hx : x < w) (hy : y < h) :
    ApplyRadialBlur sqrtf input w h ch I out x y
      = (List.range ch).foldl
          (fun out c => out.set ((y * w + x) * ch + c) (pixelByte sqrtf input w h ch I x y c))
          out := by
  unfold ApplyRadialBlur pixelByte
  have hg : ¬ (x ≥ w ∨ y ≥ h) := by omega
  simp only [hg, if_false]
  split
  · rfl
  · apply List.foldl_ext
    intro out c _
    rw [radialChannel_eq]

theorem RadialBlurFilter_ApplyFilter_cell (sqrtf : ℚ → ℚ) (outputBuffer0 : Nat → Nat)
    (I : Int) (hI : 0 < I) (input : List Nat) (w h ch : Nat)
    (hlen : input.length = w * h * ch) (x y c : Nat) (hx : x < w) (hy : y < h) (hc : c < ch) :
    (RadialBlurFilter.ApplyFilter sqrtf outputBuffer0 I input w h ch)[(y * w + x) * ch + c]?
      = some (pixelByte sqrtf input w h ch I x y c) := by
  unfold RadialBlurFilter.ApplyFilter
  have h0 : ¬ (I ≤ 0) := by omega
  simp only [h0, if_false]
  rw [List.take_of_length_le (by omega), List.drop_of_length_le (by omega), List.append_nil]
  exact (dispatch2D_pixel w h ch (fun x y c => pixelByte sqrtf input w h ch I x y c) _
    (fun out x y hx hy => ApplyRadialBlur_eq sqrtf input w h ch I out x y hx hy)
    _ (by simp) x y c hx hy hc).2

end Radial

/-- C11. Radial blur leaves the centre unchanged: for every intensity and every image,
every pixel `(x, y)` with `(x - width/2)² + (y - height/2)² < 1` has each of its channel
bytes in the output equal to the input byte, whatever the uninitialised output buffer
held.  The built-in `sqrt` is any function that maps values in `[0, 1)` below 1. -/
theorem C11_radial_blur_centre_unchanged (sqrtf : ℚ → ℚ)
    (hsqrt : ∀ v : ℚ, 0 ≤ v → v < 1 → sqrtf v < 1) (outputBuffer0 : Nat → Nat)
    (intensity : Int) (input : List Nat) (w h ch : Nat)
    (hw : 1 ≤ w) (hh : 1 ≤ h) (hch : 1 ≤ ch) (hlen : input.length = w * h * ch)
    (x y c : Nat) (hx : x < w) (hy : y < h) (hc : c < ch)
    (hdist : ((x : ℚ) - (w : ℚ) / 2) ^ 2 + ((y : ℚ) - (h : ℚ) / 2) ^ 2 < 1) :
    (RadialBlurFilter.ApplyFilter sqrtf outputBuffer0 intensity input w h ch)[
        (y * w + x) * ch + c]?
      = input[(y * w + x) * ch + c]? := by
  have hidx : (y * w + x) * ch + c < input.length := by
    rw [hlen]; exact byte_index_lt hx hy hc
  by_cases hI : intensity ≤ 0
  · unfold RadialBlurFilter.ApplyFilter
    simp only [hI, if_true]
  · rw [RadialBlurFilter_ApplyFilter_cell sqrtf outputBuffer0 intensity (by omega) input w h ch
      hlen x y c hx hy hc]
    unfold RadialBlurFilter.pixelByte
    have hlt : sqrtf (((x : ℚ) - (w : ℚ) / 2) * ((x : ℚ) - (w : ℚ) / 2)
        + ((y : ℚ) - (h : ℚ) / 2) * ((y : ℚ) - (h : ℚ) / 2)) < 1 := by
      apply hsqrt
      · exact add_nonneg (mul_self_nonneg _) (mul_self_nonneg _)
      · have e : ((x : ℚ) - (w : ℚ) / 2) * ((x : ℚ) - (w : ℚ) / 2)
            + ((y : ℚ) - (h : ℚ) / 2) * ((y : ℚ) - (h : ℚ) / 2)
            = ((x : ℚ) - (w : ℚ) / 2) ^ 2 + ((y : ℚ) - (h : ℚ) / 2) ^ 2 := by ring
        rw [e]; exact hdist
    simp only [hlt, true_or, if_true]
    rw [List.getD_eq_getElem?_getD, List.getElem?_eq_getElem hidx]
    rfl

/-- C11 at the four central pixels' representative `(1, 1)` of a 3 x 3 image with
intensity 4, with a rational stand-in for `sqrt` that is below 1 on `[0, 1)`. -/
theorem C11_radial_blur_centre_unchanged_witness :
    (RadialBlurFilter.ApplyFilter (fun v => if v < 1 then 0 else v) (fun _ => 99) 4
        [10, 20, 30, 40, 50, 60, 70, 80, 90] 3 3 1)[(1 * 3 + 1) * 1 + 0]?
      = ([10, 20, 30, 40, 50, 60, 70, 80, 90] : List Nat)[(1 * 3 + 1) * 1 + 0]? :=
  C11_radial_blur_centre_unchanged (fun v => if v < 1 then 0 else v)
    (fun v _ hv => by simp [hv]) (fun _ => 99) 4 [10, 20, 30, 40, 50, 60, 70, 80, 90] 3 3 1
    (by decide) (by decide) (by decide) (by decide) 1 1 0 (by decide) (by decide) (by decide)
    (by norm_num)

/-! ## Early returns and the stored parameter -/

/-- C12. When the parameter of the Gaussian, motion blur or radial blur filter is zero,
`ApplyFilter` returns immediately: for every pixel buffer and every width, height and
channel count (consistent with the buffer or not) the buffer after the call equals the
buffer before it, and the call issues no OpenCL operation. -/
theorem C12_zero_parameter_is_noop (expf sqrtf : ℚ → ℚ) (tempBuffer0 : Nat → UChar4)
    (outputBuffer0 : Nat → Nat) (imageData : List Nat) (width height channels : Nat) :
    GaussianFilter.ApplyFilter expf tempBuffer0 0 imageData width height channels
      = some imageData ∧
    GaussianFilter.ApplyFilterCalls 0 channels = [] ∧
    MotionBlurFilter.ApplyFilter outputBuffer0 0 imageData width height channels
      = imageData ∧
    MotionBlurFilter.ApplyFilterCalls 0 = [] ∧
    RadialBlurFilter.ApplyFilter sqrtf outputBuffer0 0 imageData width height channels
      = imageData ∧
    RadialBlurFilter.ApplyFilterCalls 0 = [] := by
  refine ⟨?_, ?_, ?_, ?_, ?_, ?_⟩
  · simp [GaussianFilter.ApplyFilter]
  · simp [GaussianFilter.ApplyFilterCalls]
  · simp [MotionBlurFilter.ApplyFilter]
  · simp [MotionBlurFilter.ApplyFilterCalls]
  · simp [RadialBlurFilter.ApplyFilter]
  · simp [RadialBlurFilter.ApplyFilterCalls]

/-- C13. Unsupported channel count in the Gaussian filter is a non-mutating early return:
for every stored radius (negative ones included), every width and height and every
`channels ≠ 4`, `GaussianFilter::ApplyFilter` returns normally, leaves the pixel buffer
unchanged and issues no OpenCL operation. -/
theorem C13_gaussian_unsupported_channels (expf : ℚ → ℚ) (tempBuffer0 : Nat → UChar4)
    (radius : Int) (imageData : List Nat) (width height channels : Nat)
    (hch : channels ≠ 4) :
    GaussianFilter.ApplyFilter expf tempBuffer0 radius imageData width height channels
      = some imageData ∧
    GaussianFilter.ApplyFilterCalls radius channels = [] := by
  constructor
  · unfold GaussianFilter.ApplyFilter
    by_cases h0 : radius = 0
    · simp [h0]
    · simp [h0, hch]
  · unfold GaussianFilter.ApplyFilterCalls
    by_cases h0 : radius = 0
    · simp [h0]
    · simp [h0, hch]

/-- C13 at radius `-3` on a 3-channel 2 x 1 image. -/
theorem C13_gaussian_unsupported_channels_witness :
    GaussianFilter.ApplyFilter (fun x => 1 / (1 + x * x)) (fun _ => ⟨9, 9, 9, 9⟩) (-3)
        [1, 2, 3, 4, 5, 6] 2 1 3 = some [1, 2, 3, 4, 5, 6] ∧
    GaussianFilter.ApplyFilterCalls (-3) 3 = [] :=
  C13_gaussian_unsupported_channels (fun x => 1 / (1 + x * x)) (fun _ => ⟨9, 9, 9, 9⟩) (-3)
    [1, 2, 3, 4, 5, 6] 2 1 3 (by decide)

/-- C17, the code at the failing input: each constructor stores a negative initial value
unchanged, so with no `SetEffectRadius` call the stored parameter is `-1`; after any
`SetEffectRadius` call it is non-negative. -/
theorem C17_constructor_keeps_negative (d ctx q p k k2 : Nat) :
    (GaussianFilter.GaussianFilter d ctx q p k k2 (-1)).m_effectRadius = -1 ∧
    (MedianFilter.MedianFilter d ctx q p k (-1)).m_effectRadius = -1 ∧
    (MotionBlurFilter.MotionBlurFilter d ctx q p k (-1)).m_blurLength = -1 ∧
    (RadialBlurFilter.RadialBlurFilter d ctx q p k (-1)).m_intensity = -1 ∧
    (∀ (f : GaussianFilter.Object) (v : Int),
      0 ≤ (GaussianFilter.SetEffectRadius f v).m_effectRadius) ∧
    (∀ (f : MedianFilter.Object) (v : Int),
      0 ≤ (MedianFilter.SetEffectRadius f v).m_effectRadius) ∧
    (∀ (f : MotionBlurFilter.Object) (v : Int),
      0 ≤ (MotionBlurFilter.SetEffectRadius f v).m_blurLength) ∧
    (∀ (f : RadialBlurFilter.Object) (v : Int),
      0 ≤ (RadialBlurFilter.SetEffectRadius f v).m_intensity) := by
  refine ⟨rfl, rfl, rfl, rfl, ?_, ?_, ?_, ?_⟩ <;>
  · intro f v
    exact le_max_left 0 v

/-- C18. For each of the four filters and every integer `v`, `SetEffectRadius(v)` sets the
stored parameter to `max(0, v)` and leaves the device, context, queue, program and kernel
handles as they were, and an `ApplyFilter` on the resulting object is the filter applied
with parameter `max(0, v)`. -/
theorem C18_set_effect_radius (v : Int) :
    (∀ (f : GaussianFilter.Object),
      (GaussianFilter.SetEffectRadius f v).m_effectRadius = max 0 v ∧
      (GaussianFilter.SetEffectRadius f v).m_deviceId = f.m_deviceId ∧
      (GaussianFilter.SetEffectRadius f v).m_context = f.m_context ∧
      (GaussianFilter.SetEffectRadius f v).m_commandQueue = f.m_commandQueue ∧
      (GaussianFilter.SetEffectRadius f v).m_program = f.m_program ∧
      (GaussianFilter.SetEffectRadius f v).m_blurPassKernel = f.m_blurPassKernel ∧
      (GaussianFilter.SetEffectRadius f v).m_transposeKernel = f.m_transposeKernel ∧
      ∀ expf tempBuffer0 imageData width height channels,
        (GaussianFilter.SetEffectRadius f v).ApplyFilter expf tempBuffer0 imageData width
            height channels
          = GaussianFilter.ApplyFilter expf tempBuffer0 (max 0 v) imageData width height
              channels) ∧
    (∀ (f : MedianFilter.Object),
      (MedianFilter.SetEffectRadius f v).m_effectRadius = max 0 v ∧
      (MedianFilter.SetEffectRadius f v).m_deviceId = f.m_deviceId ∧
      (MedianFilter.SetEffectRadius f v).m_context = f.m_context ∧
      (MedianFilter.SetEffectRadius f v).m_commandQueue = f.m_commandQueue ∧
      (MedianFilter.SetEffectRadius f v).m_program = f.m_program ∧
      (MedianFilter.SetEffectRadius f v).m_kernel = f.m_kernel ∧
      ∀ outputBuffer0 windowValues0 imageData width height channels,
        (MedianFilter.SetEffectRadius f v).ApplyFilter outputBuffer0 windowValues0 imageData
            width height channels
          = MedianFilter.ApplyFilter outputBuffer0 windowValues0 (max 0 v) imageData width
              height channels) ∧
    (∀ (f : MotionBlurFilter.Object),
      (MotionBlurFilter.SetEffectRadius f v).m_blurLength = max 0 v ∧
      (MotionBlurFilter.SetEffectRadius f v).m_deviceId = f.m_deviceId ∧
      (MotionBlurFilter.SetEffectRadius f v).m_context = f.m_context ∧
      (MotionBlurFilter.SetEffectRadius f v).m_commandQueue = f.m_commandQueue ∧
      (MotionBlurFilter.SetEffectRadius f v).m_program = f.m_program ∧
      (MotionBlurFilter.SetEffectRadius f v).m_kernel = f.m_kernel ∧
      ∀ outputBuffer0 imageData width height channels,
        (MotionBlurFilter.SetEffectRadius f v).ApplyFilter outputBuffer0 imageData width
            height channels
          = MotionBlurFilter.ApplyFilter outputBuffer0 (max 0 v) imageData width height
              channels) ∧
    (∀ (f : RadialBlurFilter.Object),
      (RadialBlurFilter.SetEffectRadius f v).m_intensity = max 0 v ∧
      (RadialBlurFilter.SetEffectRadius f v).m_deviceId = f.m_deviceId ∧
      (RadialBlurFilter.SetEffectRadius f v).m_context = f.m_context ∧
      (RadialBlurFilter.SetEffectRadius f v).m_commandQueue = f.m_commandQueue ∧
      (RadialBlurFilter.SetEffectRadius f v).m_program = f.m_program ∧
      (RadialBlurFilter.SetEffectRadius f v).m_kernel = f.m_kernel ∧
      ∀ sqrtf outputBuffer0 imageData width height channels,
        (RadialBlurFilter.SetEffectRadius f v).ApplyFilter sqrtf outputBuffer0 imageData
            width height channels
          = RadialBlurFilter.ApplyFilter sqrtf outputBuffer0 (max 0 v) imageData width height
              channels) := by
  refine ⟨?_, ?_, ?_, ?_⟩
  · intro f
    exact ⟨rfl, rfl, rfl, rfl, rfl, rfl, rfl, fun _ _ _ _ _ _ => rfl⟩
  · intro f
    exact ⟨rfl, rfl, rfl, rfl, rfl, rfl, fun _ _ _ _ _ _ => rfl⟩
  · intro f
    exact ⟨rfl, rfl, rfl, rfl, rfl, rfl, fun _ _ _ _ _ => rfl⟩
  · intro f
    exact ⟨rfl, rfl, rfl, rfl, rfl, rfl, fun _ _ _ _ _ _ => rfl⟩

/-! ## Program build failure and backend initialisation -/

/-- C19, counterexample: for the build status `-11` and the diagnostic log
`"error: bad kernel"`, the error raised by `CreateProgramWithSource` is
`"OpenCL Error: clBuildProgram failed with code -11"`, which does not contain the log. -/
theorem C19_raised_error_lacks_log :
    (CreateProgramWithSource 0 5 (-11) "error: bad kernel").result
      = .error "OpenCL Error: clBuildProgram failed with code -11" ∧
    ¬ ("error: bad kernel".data <:+: "OpenCL Error: clBuildProgram failed with code -11".data) := by
  constructor
  · rfl
  · decide

/-- C19 as amended. When `clBuildProgram` fails with status `buildErr`,
`CreateProgramWithSource` retrieves the diagnostic log, writes it to `std::cerr` between
two marker lines, and raises an error whose text names the operation `clBuildProgram` and
the status; the log is in the diagnostic output, not in the raised error. -/
theorem C19_build_failure_reports_log (program : Nat) (buildErr : Int) (buildLog : String)
    (hfail : buildErr ≠ CL_SUCCESS) :
    (CreateProgramWithSource CL_SUCCESS program buildErr buildLog).result
      = .error ("OpenCL Error: " ++ "clBuildProgram" ++ " failed with code "
          ++ toString buildErr) ∧
    (CreateProgramWithSource CL_SUCCESS program buildErr buildLog).cerr
      = ["--- OpenCL Program Build Log ---", buildLog, "------------------------------",
          "OpenCL Error during " ++ "clBuildProgram" ++ ": " ++ toString buildErr] ∧
    buildLog ∈ (CreateProgramWithSource CL_SUCCESS program buildErr buildLog).cerr := by
  have h : CreateProgramWithSource CL_SUCCESS program buildErr buildLog
      = ⟨["--- OpenCL Program Build Log ---", buildLog, "------------------------------",
          "OpenCL Error during " ++ "clBuildProgram" ++ ": " ++ toString buildErr], [],
        .error ("OpenCL Error: " ++ "clBuildProgram" ++ " failed with code "
          ++ toString buildErr)⟩ := by
    simp [CreateProgramWithSource, CheckCLError, bind, pure, Outcome.andThen, Outcome.ok,
      Outcome.throw, Outcome.writeCerr, hfail]
  rw [h]
  simp

/-- C19 as amended, at status `-11` and a sample log. -/
theorem C19_build_failure_reports_log_witness :
    "error: bad kernel" ∈ (CreateProgramWithSource CL_SUCCESS 5 (-11) "error: bad kernel").cerr :=
  (C19_build_failure_reports_log 5 (-11) "error: bad kernel" (by decide)).2.2
theorem createContextAndQueue_ok (env : ClEnvironment) (d : Nat)
    (hctx : (env.createContext d).1 = CL_SUCCESS)
    (hq : (env.createCommandQueue (env.createContext d).2 d).1 = CL_SUCCESS) :
    createContextAndQueue env d
      = ⟨[], [.clCreateContext d, .clCreateCommandQueue (env.createContext d).2 d],
          .ok ⟨d, (env.createContext d).2, (env.createCommandQueue (env.createContext d).2 d).2⟩⟩ := by
  simp [createContextAndQueue, CheckCLError, bind, pure, Outcome.andThen, Outcome.ok,
    Outcome.call, hctx, hq]

/-- C20. Backend initialisation (`MatrixMultiplier::InitializeOpenCl` and
`GaussianFilter::InitializeOpenCl`) over an abstract platform/device enumeration: with no
platform it fails with the no-platform error; otherwise it works on the first platform,
selects that platform's first GPU-class device when there is one, queries the CPU class
and selects its first device exactly when the GPU query found none, and fails with an
error when neither class has a device; when context and queue creation succeed, the calls
end with `clCreateContext` for the selected device followed by `clCreateCommandQueue` for
that context and device. -/
theorem C20_backend_initialisation (createContext : Nat → Int × Nat)
    (createCommandQueue : Nat → Nat → Int × Nat) :
    -- no platform
    ((MatrixMultiplier.InitializeOpenCl ⟨[], createContext, createCommandQueue⟩).result
        = .error "No OpenCL platforms found." ∧
      (GaussianFilter.InitializeOpenCl ⟨[], createContext, createCommandQueue⟩).result
        = .error "GaussianFilter: No OpenCL platforms found.") ∧
    -- a GPU-class device on the first platform
    (∀ (g : Nat) (gs cpus : List Nat) (ps : List ClPlatform),
      (createContext g).1 = CL_SUCCESS →
      (createCommandQueue (createContext g).2 g).1 = CL_SUCCESS →
      MatrixMultiplier.InitializeOpenCl
          ⟨⟨g :: gs, cpus⟩ :: ps, createContext, createCommandQueue⟩
        = ⟨[], [.clGetPlatformIDs, .clGetPlatformIDs,
              .clGetDeviceIDs .CL_DEVICE_TYPE_GPU, .clGetDeviceIDs .CL_DEVICE_TYPE_GPU,
              .clGetDeviceInfo g,
              .clCreateContext g, .clCreateCommandQueue (createContext g).2 g],
            .ok ⟨g, (createContext g).2, (createCommandQueue (createContext g).2 g).2⟩⟩ ∧
      GaussianFilter.InitializeOpenCl
          ⟨⟨g :: gs, cpus⟩ :: ps, createContext, createCommandQueue⟩
        = ⟨[], [.clGetPlatformIDs, .clGetPlatformIDs,
              .clGetDeviceIDs .CL_DEVICE_TYPE_GPU,
              .clCreateContext g, .clCreateCommandQueue (createContext g).2 g],
            .ok ⟨g, (createContext g).2, (createCommandQueue (createContext g).2 g).2⟩⟩) ∧
    -- no GPU-class device, a CPU-class device
    (∀ (c : Nat) (cs : List Nat) (ps : List ClPlatform),
      (createContext c).1 = CL_SUCCESS →
      (createCommandQueue (createContext c).2 c).1 = CL_SUCCESS →
      MatrixMultiplier.InitializeOpenCl
          ⟨⟨[], c :: cs⟩ :: ps, createContext, createCommandQueue⟩
        = ⟨[], [.clGetPlatformIDs, .clGetPlatformIDs,
              .clGetDeviceIDs .CL_DEVICE_TYPE_GPU,
              .clGetDeviceIDs .CL_DEVICE_TYPE_CPU, .clGetDeviceIDs .CL_DEVICE_TYPE_CPU,
              .clGetDeviceInfo c,
              .clCreateContext c, .clCreateCommandQueue (createContext c).2 c],
            .ok ⟨c, (createContext c).2, (createCommandQueue (createContext c).2 c).2⟩⟩ ∧
      GaussianFilter.InitializeOpenCl
          ⟨⟨[], c :: cs⟩ :: ps, createContext, createCommandQueue⟩
        = ⟨[], [.clGetPlatformIDs, .clGetPlatformIDs,
              .clGetDeviceIDs .CL_DEVICE_TYPE_GPU, .clGetDeviceIDs .CL_DEVICE_TYPE_CPU,
              .clCreateContext c, .clCreateCommandQueue (createContext c).2 c],
            .ok ⟨c, (createContext c).2, (createCommandQueue (createContext c).2 c).2⟩⟩) ∧
    -- neither class
    (∀ (ps : List ClPlatform),
      (MatrixMultiplier.InitializeOpenCl
          ⟨⟨[], []⟩ :: ps, createContext, createCommandQueue⟩).result
        = .error "No GPU or CPU OpenCL devices found." ∧
      (GaussianFilter.InitializeOpenCl
          ⟨⟨[], []⟩ :: ps, createContext, createCommandQueue⟩).result
        = .error "OpenCL Error: clGetDeviceIDs (CPU) failed with code -1") := by
  refine ⟨⟨?_, ?_⟩, ?_, ?_, ?_⟩
  · simp [MatrixMultiplier.InitializeOpenCl, ClEnvironment.clGetPlatformIDs, CheckCLError,
      bind, pure, Outcome.andThen, Outcome.ok, Outcome.call, Outcome.throw, CL_SUCCESS]
  · simp [GaussianFilter.InitializeOpenCl, ClEnvironment.clGetPlatformIDs, CheckCLError,
      bind, pure, Outcome.andThen, Outcome.ok, Outcome.call, Outcome.throw, CL_SUCCESS]
  · intro g gs cpus ps hctx hq
    have hcq := createContextAndQueue_ok ⟨⟨g :: gs, cpus⟩ :: ps, createContext,
      createCommandQueue⟩ g hctx hq
    constructor
    · simp [MatrixMultiplier.InitializeOpenCl, ClEnvironment.clGetPlatformIDs, CheckCLError,
        clGetDeviceIDs, bind, pure, Outcome.andThen, Outcome.ok, Outcome.call, Outcome.throw,
        CL_SUCCESS, CL_DEVICE_NOT_FOUND, hcq]
    · simp [GaussianFilter.InitializeOpenCl, ClEnvironment.clGetPlatformIDs, CheckCLError,
        clGetDeviceIDs, bind, pure, Outcome.andThen, Outcome.ok, Outcome.call, Outcome.throw,
        CL_SUCCESS, CL_DEVICE_NOT_FOUND, hcq]
  · intro c cs ps hctx hq
    have hcq := createContextAndQueue_ok ⟨⟨[], c :: cs⟩ :: ps, createContext,
      createCommandQueue⟩ c hctx hq
    constructor
    · simp [MatrixMultiplier.InitializeOpenCl, ClEnvironment.clGetPlatformIDs, CheckCLError,
        clGetDeviceIDs, bind, pure, Outcome.andThen, Outcome.ok, Outcome.call, Outcome.throw,
        CL_SUCCESS, CL_DEVICE_NOT_FOUND, hcq]
    · simp [GaussianFilter.InitializeOpenCl, ClEnvironment.clGetPlatformIDs, CheckCLError,
        clGetDeviceIDs, bind, pure, Outcome.andThen, Outcome.ok, Outcome.call, Outcome.throw,
        CL_SUCCESS, CL_DEVICE_NOT_FOUND, hcq]
  · intro ps
    constructor
    · simp [MatrixMultiplier.InitializeOpenCl, ClEnvironment.clGetPlatformIDs, CheckCLError,
        clGetDeviceIDs, bind, pure, Outcome.andThen, Outcome.ok, Outcome.call, Outcome.throw,
        CL_SUCCESS, CL_DEVICE_NOT_FOUND]
    · simp [GaussianFilter.InitializeOpenCl, ClEnvironment.clGetPlatformIDs, CheckCLError,
        clGetDeviceIDs, bind, pure, Outcome.andThen, Outcome.ok, Outcome.call, Outcome.throw,
        Outcome.writeCerr, CL_SUCCESS, CL_DEVICE_NOT_FOUND]
      decide

/-- C20 on a platform with GPU devices 7 and 8 and CPU device 3: device 7 is selected,
then its context and its queue are created. -/
theorem C20_backend_initialisation_witness :
    MatrixMultiplier.InitializeOpenCl
        ⟨[⟨[7, 8], [3]⟩], fun d => (0, 100 + d), fun c d => (0, 1000 + c + d)⟩
      = ⟨[], [.clGetPlatformIDs, .clGetPlatformIDs,
            .clGetDeviceIDs .CL_DEVICE_TYPE_GPU, .clGetDeviceIDs .CL_DEVICE_TYPE_GPU,
            .clGetDeviceInfo 7, .clCreateContext 7, .clCreateCommandQueue 107 7],
          .ok ⟨7, 107, 1114⟩⟩ :=
  ((C20_backend_initialisation (fun d => (0, 100 + d)) (fun c d => (0, 1000 + c + d))).2.1
    7 [8] [3] [] rfl rfl).1

/-! ## Ticket office -/

namespace TicketOffice

lemma sellLoop_seq (casFailures : List Bool) (T : Int) (hT : 0 ≤ T) :
    ∀ n : Int, 0 < n →
      sellLoop casFailures T T n =
        if T = 0 then some (0, 0)
        else if false ∈ casFailures then some (min n T, T - min n T) else none := by
  induction casFailures with
  | nil =>
    intro n hn
    unfold sellLoop
    by_cases h0 : T = 0
    · subst h0; simp [hn]
    · simp [h0]
  | cons f rest ih =>
    intro n hn
    unfold sellLoop
    by_cases h0 : T = 0
    · subst h0; simp [hn]
    · have hpos : 0 < T := lt_of_le_of_ne hT (Ne.symm h0)
      have hmin : (if T < n then T else n) = min n T := by
        split_ifs with h
        · exact (min_eq_right (le_of_lt h)).symm
        · exact (min_eq_left (not_lt.mp h)).symm
      cases f with
      | false =>
        simp [h0, compare_exchange_weak, hmin]
      | true =>
        have hrec := ih (min n T) (lt_min hn hpos)
        rw [min_eq_left (min_le_right n T), if_neg h0] at hrec
        simp only [h0, and_false, if_false, compare_exchange_weak, hmin]
        simpa using hrec

lemma SellTickets_eq (T n : Int) (hT : 0 ≤ T) (hn : 0 < n) (casFailures : List Bool) :
    SellTickets (TicketOffice T) n casFailures =
      if T = 0 then some (.ok 0, TicketOffice 0)
      else if false ∈ casFailures then some (.ok (min n T), TicketOffice (T - min n T))
      else none := by
  unfold SellTickets
  have := sellLoop_seq casFailures T hT n hn
  simp only [TicketOffice, not_le.mpr hn, if_false, this]
  by_cases h0 : T = 0
  · subst h0; simp
  · by_cases hf : false ∈ casFailures
    · simp [h0, hf]
    · simp [h0, hf]

lemma SellTickets_seq (T n : Int) (hT : 0 ≤ T) (hn : 0 < n) (casFailures : List Bool)
    (hf : false ∈ casFailures) :
    SellTickets (TicketOffice T) n casFailures =
      some (.ok (min n T), TicketOffice (T - min n T)) := by
  rw [SellTickets_eq T n hT hn]
  by_cases h0 : T = 0
  · subst h0; simp [min_eq_right (le_of_lt hn)]
  · simp [h0, hf]

lemma SellSequence_conserve (calls : List (Int × List Bool))
    (hcalls : ∀ c ∈ calls, 0 < c.1 ∧ false ∈ c.2) :
    ∀ T : Int, 0 ≤ T →
      ∃ total after, SellSequence (TicketOffice T) calls = some (total, after)
        ∧ total + GetTicketsLeft after = T ∧ 0 ≤ GetTicketsLeft after := by
  induction calls with
  | nil =>
    intro T hT
    exact ⟨0, TicketOffice T, rfl, by simp [GetTicketsLeft, TicketOffice], hT⟩
  | cons c rest ih =>
    intro T hT
    have hc := hcalls c (List.mem_cons_self _ _)
    have hrest : ∀ c ∈ rest, 0 < c.1 ∧ false ∈ c.2 :=
      fun c' hc' => hcalls c' (List.mem_cons_of_mem _ hc')
    have hle : min c.1 T ≤ T := min_le_right _ _
    obtain ⟨total, after, hrun, hsum, hnn⟩ := ih hrest (T - min c.1 T) (by omega)
    refine ⟨min c.1 T + total, after, ?_, by omega, hnn⟩
    simp only [SellSequence, SellTickets_seq T c.1 hT hc.1 c.2 hc.2, hrun, Option.map_some']

lemma sum_map_set {α : Type} (f : α → Int) :
    ∀ (l : List α) (i : Nat) (a b : α), l[i]? = some a →
      ((l.set i b).map f).sum + f a = (l.map f).sum + f b := by
  intro l
  induction l with
  | nil => intro i a b h; simp at h
  | cons x xs ih =>
    intro i a b h
    cases i with
    | zero =>
      simp at h
      subst h
      simp only [List.set_cons_zero, List.map_cons, List.sum_cons]
      omega
    | succ j =>
      simp at h
      have := ih j a b h
      simp only [List.set_cons_succ, List.map_cons, List.sum_cons]
      omega

lemma Thread_step_conserve (m : Int) (f : Bool) (t : Thread) :
    (t.step m f).1 + (t.step m f).2.sold = m + t.sold := by
  cases t with
  | start n =>
    simp only [Thread.step]
    split_ifs <;> simp [Thread.sold]
  | loop n cur =>
    simp only [Thread.step]
    by_cases h : cur < n ∧ cur = 0
    · rw [if_pos h]; simp [Thread.sold]
    · simp only [h, if_false, compare_exchange_weak]
      by_cases hc : m = cur ∧ f = false
      · simp only [hc, and_self, if_true, Thread.sold]
        omega
      · simp only [hc, if_false, Thread.sold]
  | returned v => simp [Thread.step, Thread.sold]
  | threw => simp [Thread.step, Thread.sold]

lemma Concurrent_step_conserve (s : Concurrent) (i : Nat) (f : Bool) :
    ((s.step i f).threads.map Thread.sold).sum + (s.step i f).m_numTickets
      = (s.threads.map Thread.sold).sum + s.m_numTickets := by
  unfold Concurrent.step
  cases h : s.threads[i]? with
  | none => rfl
  | some t =>
    have h1 := sum_map_set Thread.sold s.threads i t (t.step s.m_numTickets f).2 h
    have h2 := Thread_step_conserve s.m_numTickets f t
    simp only
    omega

lemma Concurrent_run_conserve (schedule : List (Nat × Bool)) :
    ∀ s : Concurrent,
      ((s.run schedule).threads.map Thread.sold).sum + (s.run schedule).m_numTickets
        = (s.threads.map Thread.sold).sum + s.m_numTickets := by
  induction schedule with
  | nil => intro s; rfl
  | cons a rest ih =>
    intro s
    have := ih (s.step a.1 a.2)
    simp only [Concurrent.run, List.foldl_cons] at this ⊢
    rw [this, Concurrent_step_conserve]

lemma init_sold (T : Int) (requests : List Int) :
    ((Concurrent.init T requests).threads.map Thread.sold).sum = 0 := by
  simp only [Concurrent.init, List.map_map]
  induction requests with
  | nil => rfl
  | cons r rs ih => simpa [Thread.sold] using ih

/-- C21: `SellTickets` rejects a non-positive request atomically.  For every office state,
every `ticketsToBuy ≤ 0` and whatever the compare-exchanges would do, the call throws
`std::invalid_argument` (message "ticketsToBuy must be positive") and `GetTicketsLeft`
returns the same value after the call as before it; in the thread model the rejected call
is one step that leaves the shared counter untouched. -/
theorem C21_sell_rejects_non_positive (self : Object) (ticketsToBuy : Int)
    (casFailures : List Bool) (h : ticketsToBuy ≤ 0) :
    (∃ after : Object,
      SellTickets self ticketsToBuy casFailures
          = some (.error "ticketsToBuy must be positive", after)
        ∧ GetTicketsLeft after = GetTicketsLeft self)
    ∧ ∀ (m : Int) (spuriousFailure : Bool),
        (Thread.start ticketsToBuy).step m spuriousFailure = (m, Thread.threw) := by
  refine ⟨⟨self, ?_, rfl⟩, ?_⟩
  · simp [SellTickets, h]
  · intro m f
    simp [Thread.step, h]

/-- Witness for C21: the test's office of 100 tickets and request of 0. -/
theorem C21_sell_rejects_non_positive_witness :
    (0 : Int) ≤ 0 ∧
    ((∃ after : Object,
      SellTickets (TicketOffice 100) 0 []
          = some (.error "ticketsToBuy must be positive", after)
        ∧ GetTicketsLeft after = GetTicketsLeft (TicketOffice 100))
    ∧ ∀ (m : Int) (spuriousFailure : Bool),
        (Thread.start 0).step m spuriousFailure = (m, Thread.threw)) :=
  ⟨le_refl 0, C21_sell_rejects_non_positive (TicketOffice 100) 0 [] (le_refl 0)⟩

/-- C22: the ticket office conserves tickets.  For every initial count `T ≥ 0` and every
finite sequence of `SellTickets` calls with positive arguments, made one after another,
each with any number of spurious compare-exchange failures, all calls return and the sum
of the returned values plus `GetTicketsLeft()` equals `T`.  The same holds for calls made
by concurrent threads: after every interleaving of their atomic actions, the values
returned so far plus the counter equal `T`. -/
theorem C22_tickets_conserved (T : Int) (hT : 0 ≤ T) (calls : List (Int × Nat))
    (hpos : ∀ c ∈ calls, 0 < c.1) (requests : List Int) (schedule : List (Nat × Bool)) :
    (∃ (totalSold : Int) (after : Object),
      SellSequence (TicketOffice T)
          (calls.map (fun c => (c.1, List.replicate c.2 true ++ [false])))
        = some (totalSold, after)
      ∧ totalSold + GetTicketsLeft after = T)
    ∧ (((Concurrent.init T requests).run schedule).threads.map Thread.sold).sum
        + ((Concurrent.init T requests).run schedule).m_numTickets = T := by
  constructor
  · have hcalls : ∀ c ∈ calls.map (fun c => (c.1, List.replicate c.2 true ++ [false])),
        0 < c.1 ∧ false ∈ c.2 := by
      intro c hc
      obtain ⟨c0, hc0, rfl⟩ := List.mem_map.mp hc
      exact ⟨hpos c0 hc0, by simp⟩
    obtain ⟨total, after, hrun, hsum, _⟩ := SellSequence_conserve _ hcalls T hT
    exact ⟨total, after, hrun, hsum⟩
  · rw [Concurrent_run_conserve, init_sold]
    simp [Concurrent.init]

/-- Witness for C22: the test's 1000 tickets and ten buyers asking for 150 each, called in
turn and run by ten threads under a short interleaving. -/
theorem C22_tickets_conserved_witness :
    (0 : Int) ≤ 1000 ∧ (∀ c ∈ List.replicate 10 ((150 : Int), 0), 0 < c.1) ∧
    ((∃ (totalSold : Int) (after : Object),
      SellSequence (TicketOffice 1000)
          ((List.replicate 10 ((150 : Int), 0)).map
            (fun c => (c.1, List.replicate c.2 true ++ [false])))
        = some (totalSold, after)
      ∧ totalSold + GetTicketsLeft after = 1000)
    ∧ (((Concurrent.init 1000 (List.replicate 10 150)).run
          [(0, false), (1, false), (0, false), (1, true)]).threads.map Thread.sold).sum
        + ((Concurrent.init 1000 (List.replicate 10 150)).run
          [(0, false), (1, false), (0, false), (1, true)]).m_numTickets = 1000) :=
  ⟨by decide, by decide,
    C22_tickets_conserved 1000 (by decide) (List.replicate 10 (150, 0)) (by decide)
      (List.replicate 10 150) [(0, false), (1, false), (0, false), (1, true)]⟩

/-- C29: for every initial count `T ≥ 0` and every `n > 0`, `SellTickets(n)` called without
interference, after any number of spurious compare-exchange failures, returns `min(n, T)`
and leaves `GetTicketsLeft()` equal to `T - min(n, T)`, which is never negative; no run of
the loop gives any other result, and a sold-out office returns `0` without changing
state. -/
theorem C29_sell_returns_min (T n : Int) (hT : 0 ≤ T) (hn : 0 < n) (spurious : Nat) :
    SellTickets (TicketOffice T) n (List.replicate spurious true ++ [false])
        = some (.ok (min n T), TicketOffice (T - min n T))
    ∧ GetTicketsLeft (TicketOffice (T - min n T)) = T - min n T
    ∧ 0 ≤ T - min n T
    ∧ (∀ (casFailures : List Bool) (r : Except String Int × Object),
        SellTickets (TicketOffice T) n casFailures = some r →
          r = (.ok (min n T), TicketOffice (T - min n T)))
    ∧ (T = 0 → ∀ casFailures : List Bool,
        SellTickets (TicketOffice T) n casFailures = some (.ok 0, TicketOffice T)) := by
  have hle : min n T ≤ T := min_le_right _ _
  refine ⟨SellTickets_seq T n hT hn _ (by simp), rfl, by omega, ?_, ?_⟩
  · intro casFailures r hr
    rw [SellTickets_eq T n hT hn] at hr
    by_cases h0 : T = 0
    · subst h0
      simp only [if_true, Option.some.injEq] at hr
      rw [← hr]
      simp [min_eq_right (le_of_lt hn)]
    · by_cases hf : false ∈ casFailures
      · simp only [h0, hf, if_false, if_true, Option.some.injEq] at hr
        exact hr.symm
      · simp [h0, hf] at hr
  · intro h0 casFailures
    rw [SellTickets_eq T n hT hn, if_pos h0, h0]

/-- Witness for C29: 100 tickets, a request of 150 and two spurious failures. -/
theorem C29_sell_returns_min_witness :
    (0 : Int) ≤ 100 ∧ (0 : Int) < 150 ∧
    (SellTickets (TicketOffice 100) 150 (List.replicate 2 true ++ [false])
        = some (.ok (min 150 100), TicketOffice (100 - min 150 100))
    ∧ GetTicketsLeft (TicketOffice (100 - min 150 100)) = 100 - min 150 100
    ∧ (0 : Int) ≤ 100 - min 150 100
    ∧ (∀ (casFailures : List Bool) (r : Except String Int × Object),
        SellTickets (TicketOffice 100) 150 casFailures = some r →
          r = (.ok (min 150 100), TicketOffice (100 - min 150 100)))
    ∧ ((100 : Int) = 0 → ∀ casFailures : List Bool,
        SellTickets (TicketOffice 100) 150 casFailures = some (.ok 0, TicketOffice 100))) :=
  ⟨by decide, by decide, C29_sell_returns_min 100 150 (by decide) (by decide) 2⟩

end TicketOffice

namespace MedianFilter

/-- C24: `SortWindowSegment` sorts.  For every array segment and every count with
`0 ≤ count ≤ length`, after the call the first `count` elements are in non-decreasing
order and are a permutation of the first `count` elements before the call, the length is
the same, and the elements at index `≥ count` are unchanged. -/
theorem C24_sort_window_segment (segment : List Nat) (count : Nat)
    (h : count ≤ segment.length) :
    ((SortWindowSegment segment count).take count).Sorted (· ≤ ·)
    ∧ ((SortWindowSegment segment count).take count).Perm (segment.take count)
    ∧ (SortWindowSegment segment count).length = segment.length
    ∧ ∀ i, count ≤ i → (SortWindowSegment segment count)[i]? = segment[i]? := by
  have hlen : (segment.take count).length = count := by
    rw [List.length_take]; exact min_eq_left h
  obtain ⟨s, hs, hsorted, hperm⟩ :=
    SortWindowSegment_spec count (segment.take count) (segment.drop count) hlen
  rw [List.take_append_drop] at hs
  have hslen : s.length = count := by rw [hperm.length_eq, hlen]
  have htake : (s ++ segment.drop count).take count = s := by
    rw [← hslen, List.take_left']
    rfl
  rw [hs, htake]
  refine ⟨hsorted, hperm, ?_, ?_⟩
  · rw [List.length_append, hslen, List.length_drop]; omega
  · intro i hi
    rw [List.getElem?_append_right (by omega), hslen, List.getElem?_drop]
    congr 1
    omega

/-- Witness for C24: sorting the first three of five elements. -/
theorem C24_sort_window_segment_witness :
    3 ≤ [5, 3, 9, 1, 7].length ∧
    (((SortWindowSegment [5, 3, 9, 1, 7] 3).take 3).Sorted (· ≤ ·)
    ∧ ((SortWindowSegment [5, 3, 9, 1, 7] 3).take 3).Perm ([5, 3, 9, 1, 7].take 3)
    ∧ (SortWindowSegment [5, 3, 9, 1, 7] 3).length = [5, 3, 9, 1, 7].length
    ∧ ∀ i, 3 ≤ i → (SortWindowSegment [5, 3, 9, 1, 7] 3)[i]? = [5, 3, 9, 1, 7][i]?) :=
  ⟨by decide, C24_sort_window_segment [5, 3, 9, 1, 7] 3 (by decide)⟩

end MedianFilter

/-! ## Dispatch sizes of `MultiplyOnGpu` -/

/-- C30: dispatch-size rounding in `MultiplyOnGpu`.  For every dimension `d` (`numRows1` or
`numColumns2`), the global work size `g = (d + 16 - 1) / 16 * 16` satisfies
`d ≤ g < d + 16` and is a multiple of the local size 16; so for every output cell `(i, j)`
with `i < numRows1` and `j < numColumns2` exactly one work-item of the dispatch, given by
its work-group and its local id, has the global id `(i, j)`. -/
theorem C30_dispatch_size_rounding (numRows1 numColumns2 i j : Nat)
    (hi : i < numRows1) (hj : j < numColumns2) :
    (∀ d : Nat,
        d ≤ (d + m_tileSize - 1) / m_tileSize * m_tileSize
      ∧ (d + m_tileSize - 1) / m_tileSize * m_tileSize < d + 16
      ∧ (d + m_tileSize - 1) / m_tileSize * m_tileSize % m_tileSize = 0
      ∧ m_tileSize = 16)
    ∧ ∃! item : (Nat × Nat) × (Nat × Nat),
        item.1.1 < (numRows1 + m_tileSize - 1) / m_tileSize * m_tileSize / m_tileSize
      ∧ item.1.2 < (numColumns2 + m_tileSize - 1) / m_tileSize * m_tileSize / m_tileSize
      ∧ item.2 ∈ localIds
      ∧ item.1.1 * TILE_SIZE + item.2.1 = i
      ∧ item.1.2 * TILE_SIZE + item.2.2 = j := by
  have hm : m_tileSize = 16 := rfl
  have ht : TILE_SIZE = 16 := rfl
  constructor
  · intro d
    rw [hm]
    refine ⟨?_, ?_, ?_, rfl⟩ <;> omega
  · refine ⟨((i / 16, j / 16), (i % 16, j % 16)), ?_, ?_⟩
    · simp only [mem_localIds, hm, ht]
      refine ⟨?_, ?_, ⟨?_, ?_⟩, ?_, ?_⟩ <;> omega
    · rintro ⟨⟨gr, gc⟩, ⟨lr, lc⟩⟩ h
      simp only [mem_localIds, hm, ht] at h
      obtain ⟨_, _, ⟨h3, h4⟩, h5, h6⟩ := h
      have e1 : gr = i / 16 := by omega
      have e2 : gc = j / 16 := by omega
      have e3 : lr = i % 16 := by omega
      have e4 : lc = j % 16 := by omega
      rw [e1, e2, e3, e4]

/-- Witness for C30: the cell `(16, 2)` of a `17 x 3` result, in work-group `(1, 0)`. -/
theorem C30_dispatch_size_rounding_witness :
    16 < 17 ∧ 2 < 3 ∧
    ((∀ d : Nat,
        d ≤ (d + m_tileSize - 1) / m_tileSize * m_tileSize
      ∧ (d + m_tileSize - 1) / m_tileSize * m_tileSize < d + 16
      ∧ (d + m_tileSize - 1) / m_tileSize * m_tileSize % m_tileSize = 0
      ∧ m_tileSize = 16)
    ∧ ∃! item : (Nat × Nat) × (Nat × Nat),
        item.1.1 < (17 + m_tileSize - 1) / m_tileSize * m_tileSize / m_tileSize
      ∧ item.1.2 < (3 + m_tileSize - 1) / m_tileSize * m_tileSize / m_tileSize
      ∧ item.2 ∈ localIds
      ∧ item.1.1 * TILE_SIZE + item.2.1 = 16
      ∧ item.1.2 * TILE_SIZE + item.2.2 = 2) :=
  ⟨by decide, by decide, C30_dispatch_size_rounding 17 3 16 2 (by decide) (by decide)⟩

/-! ## Clamp-to-edge sampling stays inside the image -/

theorem clamp_range (v : Int) (n : Nat) (hn : 1 ≤ n) :
    ∃ s : Nat, clamp v 0 ((n : Int) - 1) = (s : Int) ∧ s < n := by
  have h0 : 0 ≤ clamp v 0 ((n : Int) - 1) := by unfold clamp; omega
  have h1 : clamp v 0 ((n : Int) - 1) ≤ (n : Int) - 1 := by unfold clamp; omega
  obtain ⟨s, hs⟩ := Int.eq_ofNat_of_zero_le h0
  exact ⟨s, hs, by omega⟩

/-- C26: clamp-to-edge keeps every read inside the image.  For every width, height,
channels `≥ 1`, every work-item `(x, y)` with `x < width` and `y < height`, every channel
`c < channels` and every offset, the sample index computed by the median kernel and by the
motion blur kernel lies in `[0, width * height * channels)`; and for every work-item
`gid < width * height` and every offset the pixel index computed by the Gaussian `BlurPass`
lies in `[0, width * height)`. -/
theorem C26_clamp_keeps_reads_inside (width height channels x y c gid : Nat)
    (hw : 1 ≤ width) (hh : 1 ≤ height) (hx : x < width) (hy : y < height)
    (hc : c < channels) (hgid : gid < width * height) (offsetX offsetY : Int) :
    (0 ≤ (clamp ((y : Int) + offsetY) 0 ((height : Int) - 1) * width
            + clamp ((x : Int) + offsetX) 0 ((width : Int) - 1)) * channels + c
      ∧ (clamp ((y : Int) + offsetY) 0 ((height : Int) - 1) * width
            + clamp ((x : Int) + offsetX) 0 ((width : Int) - 1)) * channels + c
          < ((width * height * channels : Nat) : Int))
    ∧ (0 ≤ ((y : Int) * width + clamp ((x : Int) + offsetX) 0 ((width : Int) - 1)) * channels + c
      ∧ ((y : Int) * width + clamp ((x : Int) + offsetX) 0 ((width : Int) - 1)) * channels + c
          < ((width * height * channels : Nat) : Int))
    ∧ (0 ≤ ((gid / width : Nat) : Int) * width
            + clamp (((gid % width : Nat) : Int) + offsetX) 0 ((width : Int) - 1)
      ∧ ((gid / width : Nat) : Int) * width
            + clamp (((gid % width : Nat) : Int) + offsetX) 0 ((width : Int) - 1)
          < ((width * height : Nat) : Int)) := by
  obtain ⟨sy, hsy, hsy'⟩ := clamp_range ((y : Int) + offsetY) height hh
  obtain ⟨sx, hsx, hsx'⟩ := clamp_range ((x : Int) + offsetX) width hw
  obtain ⟨gx, hgx, hgx'⟩ := clamp_range (((gid % width : Nat) : Int) + offsetX) width hw
  have hq : gid / width < height :=
    (Nat.div_lt_iff_lt_mul hw).2 (by rw [Nat.mul_comm]; exact hgid)
  rw [hsy, hsx, hgx]
  have b1 : (sy * width + sx) * channels + c < width * height * channels :=
    byte_index_lt hsx' hsy' hc
  have b2 : (y * width + sx) * channels + c < width * height * channels :=
    byte_index_lt hsx' hy hc
  have b3 : gid / width * width + gx < width * height := by
    rw [Nat.mul_comm width height]; exact cell_index_lt hq hgx'
  refine ⟨⟨?_, ?_⟩, ⟨?_, ?_⟩, ⟨?_, ?_⟩⟩
  · positivity
  · exact_mod_cast b1
  · positivity
  · exact_mod_cast b2
  · positivity
  · exact_mod_cast b3

/-- Witness for C26: the corner pixel of a `3 x 2` image with three channels and offsets
that leave the image on both sides. -/
theorem C26_clamp_keeps_reads_inside_witness :
    1 ≤ 3 ∧ 1 ≤ 2 ∧ 2 < 3 ∧ 1 < 2 ∧ 2 < 3 ∧ 5 < 3 * 2 ∧
    ((0 ≤ (clamp (((1 : Nat) : Int) + (-7)) 0 (((2 : Nat) : Int) - 1) * (3 : Nat)
            + clamp (((2 : Nat) : Int) + 9) 0 (((3 : Nat) : Int) - 1)) * (3 : Nat) + (2 : Nat)
      ∧ (clamp (((1 : Nat) : Int) + (-7)) 0 (((2 : Nat) : Int) - 1) * (3 : Nat)
            + clamp (((2 : Nat) : Int) + 9) 0 (((3 : Nat) : Int) - 1)) * (3 : Nat) + (2 : Nat)
          < ((3 * 2 * 3 : Nat) : Int))
    ∧ (0 ≤ (((1 : Nat) : Int) * (3 : Nat)
            + clamp (((2 : Nat) : Int) + 9) 0 (((3 : Nat) : Int) - 1)) * (3 : Nat) + (2 : Nat)
      ∧ (((1 : Nat) : Int) * (3 : Nat)
            + clamp (((2 : Nat) : Int) + 9) 0 (((3 : Nat) : Int) - 1)) * (3 : Nat) + (2 : Nat)
          < ((3 * 2 * 3 : Nat) : Int))
    ∧ (0 ≤ ((5 / 3 : Nat) : Int) * (3 : Nat)
            + clamp (((5 % 3 : Nat) : Int) + 9) 0 (((3 : Nat) : Int) - 1)
      ∧ ((5 / 3 : Nat) : Int) * (3 : Nat)
            + clamp (((5 % 3 : Nat) : Int) + 9) 0 (((3 : Nat) : Int) - 1)
          < ((3 * 2 : Nat) : Int))) :=
  ⟨by decide, by decide, by decide, by decide, by decide, by decide,
    C26_clamp_keeps_reads_inside 3 2 3 2 1 2 5 (by decide) (by decide) (by decide)
      (by decide) (by decide) (by decide) 9 (-7)⟩

/-! ## Dispatches in which every work-item stores one value at its own index -/

section Cells

theorem dispatch1D_cells {α : Type} (n : Nat) (val : Nat → α) (item : List α → Nat → List α)
    (hitem : ∀ out gid, gid < n → item out gid = out.set gid (val gid))
    (out : List α) (hout : out.length = n) (gid : Nat) (hgid : gid < n) :
    CellIs n gid (val gid) (dispatch1D n item out) := by
  have hlen : ∀ b g, g ∈ List.range n → b.length = n → (item b g).length = n := by
    intro b g hg hb
    rw [hitem b g (List.mem_range.1 hg)]
    simpa using hb
  unfold dispatch1D
  apply foldl_establish (fun b : List α => b.length = n) (CellIs n gid (val gid)) _ _ gid
    (List.mem_range.2 hgid) hlen
  · intro b hb
    rw [hitem b gid hgid]
    exact cellIs_set_self hb hgid
  · intro b g hg hb
    rw [hitem b g (List.mem_range.1 hg)]
    exact cellIs_set hb (fun e => by rw [e])
  · exact hout

theorem dispatch2D_cells {α : Type} (W H : Nat) (val : Nat → Nat → α)
    (item : List α → Nat → Nat → List α)
    (hitem : ∀ out x y, x < W → y < H → item out x y = out.set (x * H + y) (val x y))
    (out : List α) (hout : out.length = W * H) (x y : Nat) (hx : x < W) (hy : y < H) :
    CellIs (W * H) (x * H + y) (val x y) (dispatch2D W H item out) := by
  have hlen : ∀ x', x' ∈ List.range W → ∀ b y', y' ∈ List.range H → b.length = W * H →
      (item b x' y').length = W * H := by
    intro x' hx' b y' hy' hb
    rw [hitem b x' y' (List.mem_range.1 hx') (List.mem_range.1 hy')]
    simpa using hb
  have hkeep : ∀ x', x' ∈ List.range W → ∀ b y', y' ∈ List.range H →
      CellIs (W * H) (x * H + y) (val x y) b →
      CellIs (W * H) (x * H + y) (val x y) (item b x' y') := by
    intro x' hx' b y' hy' hb
    rw [hitem b x' y' (List.mem_range.1 hx') (List.mem_range.1 hy')]
    apply cellIs_set hb
    intro e
    obtain ⟨e1, e2⟩ := cell_index_inj (List.mem_range.1 hy') hy e
    rw [e1, e2]
  unfold dispatch2D
  apply foldl_establish (fun b : List α => b.length = W * H)
    (CellIs (W * H) (x * H + y) (val x y)) _ _ x (List.mem_range.2 hx)
  · intro b x' hx' hb
    exact foldl_inv (fun b : List α => b.length = W * H) _ _ (hlen x' hx') _ hb
  · intro b hb
    apply foldl_establish (fun b : List α => b.length = W * H)
      (CellIs (W * H) (x * H + y) (val x y)) _ _ y (List.mem_range.2 hy)
      (hlen _ (List.mem_range.2 hx))
    · intro b hb
      rw [hitem b _ _ hx hy]
      exact cellIs_set_self hb (cell_index_lt hx hy)
    · exact hkeep _ (List.mem_range.2 hx)
    · exact hb
  · intro b x' hx' hb
    exact foldl_inv _ _ _ (hkeep x' hx') _ hb
  · exact hout

theorem ext_of_cells {α : Type} {M N : Nat} {a b : List α}
    (ha : a.length = M * N) (hb : b.length = M * N)
    (h : ∀ i j, i < M → j < N → a[i * N + j]? = b[i * N + j]?) : a = b := by
  apply List.ext_getElem? 
  intro n
  by_cases hn : n < M * N
  · have hN : 0 < N := by
      rcases Nat.eq_zero_or_pos N with h0 | h0
      · subst h0; simp at hn
      · exact h0
    have hi : n / N < M := (Nat.div_lt_iff_lt_mul hN).2 hn
    have := h (n / N) (n % N) hi (Nat.mod_lt _ hN)
    rwa [Nat.mul_comm, Nat.div_add_mod] at this
  · rw [List.getElem?_eq_none (by omega), List.getElem?_eq_none (by omega)]

theorem TransposeImage_item (input : List UChar4) (W H : Nat) (out : List UChar4)
    (x y : Nat) (hx : x < W) (hy : y < H) :
    GaussianFilter.TransposeImage input W H out x y
      = out.set (x * H + y) (input.getD (y * W + x) ⟨0, 0, 0, 0⟩) := by
  unfold GaussianFilter.TransposeImage
  have hg : ¬ (x ≥ W ∨ y ≥ H) := by omega
  simp only [hg, if_false]

theorem TransposeImage_cells (input : List UChar4) (W H : Nat) (out : List UChar4)
    (hout : out.length = W * H) (x y : Nat) (hx : x < W) (hy : y < H) :
    CellIs (W * H) (x * H + y) (input.getD (y * W + x) ⟨0, 0, 0, 0⟩)
      (dispatch2D W H (GaussianFilter.TransposeImage input W H) out) :=
  dispatch2D_cells W H (fun x y => input.getD (y * W + x) ⟨0, 0, 0, 0⟩) _
    (fun out x y hx hy => TransposeImage_item input W H out x y hx hy) out hout x y hx hy

theorem TransposeImage_length (input : List UChar4) (W H : Nat) (hW : 1 ≤ W) (hH : 1 ≤ H)
    (out : List UChar4) (hout : out.length = W * H) :
    (dispatch2D W H (GaussianFilter.TransposeImage input W H) out).length = W * H :=
  (TransposeImage_cells input W H out hout 0 0 (by omega) (by omega)).1

end Cells

/-- C25: transposition round trip.  For every `w, h ≥ 1` and every image of `w * h`
pixels, `TransposeImage` with `(w, h)` leaves `output[x * h + y] = input[y * w + x]` for
all `x < w`, `y < h`; every work-item stores to the single index `x * h + y`, and every
output index below `w * h` is the index of exactly one work-item; and `TransposeImage` with
`(h, w)` applied to that result gives back the original image, whatever the output buffers
held before. -/
theorem C25_transpose_round_trip (input out0 out1 : List UChar4) (w h : Nat)
    (hw : 1 ≤ w) (hh : 1 ≤ h) (hin : input.length = w * h)
    (h0 : out0.length = w * h) (h1 : out1.length = w * h) :
    (∀ x y, x < w → y < h →
      (dispatch2D w h (GaussianFilter.TransposeImage input w h) out0)[x * h + y]?
        = input[y * w + x]?
      ∧ y * w + x < input.length)
    ∧ (∀ out x y, x < w → y < h →
        GaussianFilter.TransposeImage input w h out x y
          = out.set (x * h + y) (input.getD (y * w + x) ⟨0, 0, 0, 0⟩))
    ∧ (∀ idx, idx < w * h → ∃! p : Nat × Nat, p.1 < w ∧ p.2 < h ∧ p.1 * h + p.2 = idx)
    ∧ (dispatch2D w h (GaussianFilter.TransposeImage input w h) out0).length = w * h
    ∧ dispatch2D h w
        (GaussianFilter.TransposeImage
          (dispatch2D w h (GaussianFilter.TransposeImage input w h) out0) h w) out1
      = input := by
  have hcell : ∀ x y, x < w → y < h →
      (dispatch2D w h (GaussianFilter.TransposeImage input w h) out0)[x * h + y]?
        = input[y * w + x]? ∧ y * w + x < input.length := by
    intro x y hx hy
    have hlt : y * w + x < input.length := by rw [hin, Nat.mul_comm w h]; exact cell_index_lt hy hx
    refine ⟨?_, hlt⟩
    rw [(TransposeImage_cells input w h out0 h0 x y hx hy).2, List.getD_eq_getElem?_getD,
      List.getElem?_eq_getElem hlt]
    rfl
  have hlen := TransposeImage_length input w h hw hh out0 h0
  refine ⟨hcell, fun out x y hx hy => TransposeImage_item input w h out x y hx hy, ?_, hlen, ?_⟩
  · intro idx hidx
    have hx : idx / h < w := (Nat.div_lt_iff_lt_mul hh).2 hidx
    have hy : idx % h < h := Nat.mod_lt _ hh
    refine ⟨(idx / h, idx % h), ⟨hx, hy, ?_⟩, ?_⟩
    · show idx / h * h + idx % h = idx
      rw [Nat.mul_comm]; exact Nat.div_add_mod idx h
    · rintro ⟨px, py⟩ ⟨h1, h2, h3⟩
      have e : px * h + py = idx / h * h + idx % h := by
        rw [h3, Nat.mul_comm (idx / h)]; exact (Nat.div_add_mod idx h).symm
      obtain ⟨e1, e2⟩ := cell_index_inj h2 hy e
      simp only at e1 e2
      rw [e1, e2]
  · have h1' : out1.length = h * w := by rw [h1, Nat.mul_comm]
    have hin' : input.length = h * w := by rw [hin, Nat.mul_comm]
    apply ext_of_cells (M := h) (N := w)
      (by rw [TransposeImage_length _ h w hh hw out1 h1']) hin'
    intro y x hy hx
    rw [(TransposeImage_cells _ h w out1 h1' y x hy hx).2, List.getD_eq_getElem?_getD,
      (hcell x y hx hy).1, List.getElem?_eq_getElem (hcell x y hx hy).2]
    rfl

/-- Witness for C25: a `3 x 2` image transposed twice. -/
theorem C25_transpose_round_trip_witness :
    1 ≤ 3 ∧ 1 ≤ 2 ∧
    ((∀ x y, x < 3 → y < 2 →
      (dispatch2D 3 2 (GaussianFilter.TransposeImage
          ((List.range 6).map (fun n => (⟨n, n + 10, n + 20, 255⟩ : UChar4))) 3 2)
          (List.replicate 6 ⟨7, 7, 7, 7⟩))[x * 2 + y]?
        = ((List.range 6).map (fun n => (⟨n, n + 10, n + 20, 255⟩ : UChar4)))[y * 3 + x]?
      ∧ y * 3 + x < ((List.range 6).map (fun n => (⟨n, n + 10, n + 20, 255⟩ : UChar4))).length)
    ∧ (∀ out x y, x < 3 → y < 2 →
        GaussianFilter.TransposeImage
            ((List.range 6).map (fun n => (⟨n, n + 10, n + 20, 255⟩ : UChar4))) 3 2 out x y
          = out.set (x * 2 + y)
              (((List.range 6).map (fun n => (⟨n, n + 10, n + 20, 255⟩ : UChar4))).getD
                (y * 3 + x) ⟨0, 0, 0, 0⟩))
    ∧ (∀ idx, idx < 3 * 2 → ∃! p : Nat × Nat, p.1 < 3 ∧ p.2 < 2 ∧ p.1 * 2 + p.2 = idx)
    ∧ (dispatch2D 3 2 (GaussianFilter.TransposeImage
          ((List.range 6).map (fun n => (⟨n, n + 10, n + 20, 255⟩ : UChar4))) 3 2)
          (List.replicate 6 ⟨7, 7, 7, 7⟩)).length = 3 * 2
    ∧ dispatch2D 2 3
        (GaussianFilter.TransposeImage
          (dispatch2D 3 2 (GaussianFilter.TransposeImage
            ((List.range 6).map (fun n => (⟨n, n + 10, n + 20, 255⟩ : UChar4))) 3 2)
            (List.replicate 6 ⟨7, 7, 7, 7⟩)) 2 3) (List.replicate 6 ⟨8, 8, 8, 8⟩)
      = (List.range 6).map (fun n => (⟨n, n + 10, n + 20, 255⟩ : UChar4))) :=
  ⟨by decide, by decide,
    C25_transpose_round_trip ((List.range 6).map (fun n => (⟨n, n + 10, n + 20, 255⟩ : UChar4)))
      (List.replicate 6 ⟨7, 7, 7, 7⟩) (List.replicate 6 ⟨8, 8, 8, 8⟩) 3 2
      (by decide) (by decide) (by decide) (by decide) (by decide)⟩

/-! ## Gaussian pipeline: two passes and two transposes -/

section Pipeline

open GaussianFilter

theorem BlurPass_item (input : List UChar4) (kernel : List ℚ) (R : Int) (W H : Nat)
    (out : List UChar4) (x y : Nat) (hx : x < W) (hy : y < H) :
    BlurPass input kernel R W H out (y * W + x)
      = out.set (y * W + x) (horizontalBlur input kernel R W x y) := by
  unfold BlurPass
  have hlt : y * W + x < H * W := cell_index_lt hy hx
  have hg : ¬ (y * W + x ≥ W * H) := by rw [Nat.mul_comm W H]; omega
  have hmod : (y * W + x) % W = x := by
    rw [Nat.add_comm, Nat.add_mul_mod_self_right, Nat.mod_eq_of_lt hx]
  have hdiv : (y * W + x) / W = y := by
    rw [Nat.add_comm, Nat.add_mul_div_right _ _ (by omega : 0 < W), Nat.div_eq_of_lt hx,
      Nat.zero_add]
  simp only [hg, if_false, hmod, hdiv]
  congr 1
  unfold horizontalBlur weightedSum
  congr 2
  funext sum offset
  obtain ⟨s, hs, _⟩ := clamp_range ((x : Int) + offset) W (by omega)
  have : ((y : Int) * (W : Int) + (s : Int)).toNat = y * W + s := by
    have : ((y : Int) * (W : Int) + (s : Int)) = ((y * W + s : Nat) : Int) := by push_cast; rfl
    rw [this, Int.toNat_ofNat]
  simp only [hs, Int.toNat_ofNat, this]

theorem BlurPass_cells (input : List UChar4) (kernel : List ℚ) (R : Int) (W H : Nat)
    (out : List UChar4) (hout : out.length = W * H) (x y : Nat) (hx : x < W) (hy : y < H) :
    CellIs (W * H) (y * W + x) (horizontalBlur input kernel R W x y)
      (dispatch1D (W * H) (BlurPass input kernel R W H) out) := by
  have hW : 0 < W := by omega
  have hidx : y * W + x < W * H := by rw [Nat.mul_comm W H]; exact cell_index_lt hy hx
  have := dispatch1D_cells (W * H)
    (fun gid => horizontalBlur input kernel R W (gid % W) (gid / W))
    (BlurPass input kernel R W H)
    (fun out gid hgid => by
      have hq : gid / W < H :=
        (Nat.div_lt_iff_lt_mul hW).2 (by rw [Nat.mul_comm]; exact hgid)
      have hr : gid % W < W := Nat.mod_lt _ hW
      have e : gid / W * W + gid % W = gid := by
        rw [Nat.mul_comm]; exact Nat.div_add_mod gid W
      have := BlurPass_item input kernel R W H out (gid % W) (gid / W) hr hq
      rw [e] at this
      exact this)
    out hout (y * W + x) hidx
  have hmod : (y * W + x) % W = x := by
    rw [Nat.add_comm, Nat.add_mul_mod_self_right, Nat.mod_eq_of_lt hx]
  have hdiv : (y * W + x) / W = y := by
    rw [Nat.add_comm, Nat.add_mul_div_right _ _ hW, Nat.div_eq_of_lt hx, Nat.zero_add]
  simp only [hmod, hdiv] at this
  exact this

theorem getD_of_cell {α : Type} {L idx : Nat} {v d : α} {b : List α} (h : CellIs L idx v b) :
    b.getD idx d = v := by
  rw [List.getD_eq_getElem?_getD, h.2]
  rfl

/-- The four dispatches of `GaussianFilter::ApplyFilter` on the device buffers: the result
of the second transpose holds, at `y * w + x`, the vertical blur of the horizontal blur. -/
theorem pipeline_cells (kernel : List ℚ) (R : Int) (w h : Nat) (hw : 1 ≤ w) (hh : 1 ≤ h)
    (io temp : List UChar4) (hio : io.length = w * h) (htemp : temp.length = w * h)
    (x y : Nat) (hx : x < w) (hy : y < h) :
    CellIs (w * h) (y * w + x)
      (verticalBlur (horizontalBlur io kernel R w) kernel R h x y)
      (dispatch2D h w
        (TransposeImage
          (dispatch1D (w * h)
            (BlurPass
              (dispatch2D w h
                (TransposeImage (dispatch1D (w * h) (BlurPass io kernel R w h) temp) w h) io)
              kernel R h w)
            (dispatch1D (w * h) (BlurPass io kernel R w h) temp))
          h w)
        (dispatch2D w h
          (TransposeImage (dispatch1D (w * h) (BlurPass io kernel R w h) temp) w h) io)) := by
  have hc : h * w = w * h := Nat.mul_comm h w
  -- horizontal pass
  have hH : ∀ x y, x < w → y < h →
      CellIs (w * h) (y * w + x) (horizontalBlur io kernel R w x y)
        (dispatch1D (w * h) (BlurPass io kernel R w h) temp) :=
    fun x y hx hy => BlurPass_cells io kernel R w h temp htemp x y hx hy
  have hHlen := (hH 0 0 (by omega) (by omega)).1
  -- transpose 1
  have hT : ∀ x y, x < w → y < h →
      CellIs (w * h) (x * h + y) (horizontalBlur io kernel R w x y)
        (dispatch2D w h
          (TransposeImage (dispatch1D (w * h) (BlurPass io kernel R w h) temp) w h) io) := by
    intro x y hx hy
    have := TransposeImage_cells (dispatch1D (w * h) (BlurPass io kernel R w h) temp) w h io
      hio x y hx hy
    rwa [getD_of_cell (hH x y hx hy)] at this
  have hTlen := (hT 0 0 (by omega) (by omega)).1
  -- vertical pass on the transposed image
  have hV := BlurPass_cells
    (dispatch2D w h
      (TransposeImage (dispatch1D (w * h) (BlurPass io kernel R w h) temp) w h) io)
    kernel R h w (dispatch1D (w * h) (BlurPass io kernel R w h) temp)
    (by rw [hHlen, hc]) y x hy hx
  rw [hc] at hV
  have hval : horizontalBlur
      (dispatch2D w h
        (TransposeImage (dispatch1D (w * h) (BlurPass io kernel R w h) temp) w h) io)
      kernel R h y x
      = verticalBlur (horizontalBlur io kernel R w) kernel R h x y := by
    unfold horizontalBlur verticalBlur
    congr 1
    funext o
    obtain ⟨s, hs, hs'⟩ := clamp_range ((y : Int) + o) h hh
    rw [hs, Int.toNat_ofNat]
    exact getD_of_cell (hT x s hx hs')
  rw [hval] at hV
  -- transpose 2
  have hF := TransposeImage_cells
    (dispatch1D (w * h)
      (BlurPass
        (dispatch2D w h
          (TransposeImage (dispatch1D (w * h) (BlurPass io kernel R w h) temp) w h) io)
        kernel R h w)
      (dispatch1D (w * h) (BlurPass io kernel R w h) temp))
    h w
    (dispatch2D w h
      (TransposeImage (dispatch1D (w * h) (BlurPass io kernel R w h) temp) w h) io)
    (by rw [hTlen, hc]) y x hy hx
  rw [getD_of_cell hV, hc] at hF
  exact hF

end Pipeline
theorem CreateGaussianKernelValues_some (expf : ℚ → ℚ) (radius : Int) (hr : 0 ≤ radius)
    (sigma : ℚ) : ∃ kernel, GaussianFilter.CreateGaussianKernelValues expf radius sigma
      = some kernel := by
  unfold GaussianFilter.CreateGaussianKernelValues
  have h : ¬ (2 * radius + 1 < 0) := by omega
  simp only [h, if_false]
  split_ifs
  · exact ⟨_, rfl⟩
  · exact ⟨_, rfl⟩

/-- C23: the Gaussian four-dispatch pipeline (`BlurPass` with `(w, h)`, `TransposeImage`
with `(w, h)`, `BlurPass` with `(h, w)`, `TransposeImage` with `(h, w)`) equals a horizontal
clamp-to-edge blur followed by a direct vertical clamp-to-edge blur.  For every radius
`r ≥ 1`, every `w, h ≥ 1`, every 4-channel image and every pixel `(x, y)`, `ApplyFilter`
returns the bytes of a buffer of `w * h` pixels that holds at index `y * w + x` the rounded
weighted sum over the offsets `o` in `-r..r` of the horizontally blurred image at
`(x, clamp(y + o, 0, h - 1))`, in the original orientation, whatever the temporary buffer
held; the weights are the kernel built by `CreateGaussianKernelValues`. -/
theorem C23_gaussian_pipeline_is_separable_blur (expf : ℚ → ℚ) (tempBuffer0 : Nat → UChar4)
    (radius : Int) (hr : 1 ≤ radius) (imageData : List Nat) (w h : Nat)
    (hw : 1 ≤ w) (hh : 1 ≤ h) :
    ∃ (kernel : List ℚ) (final : List UChar4),
      GaussianFilter.CreateGaussianKernelValues expf radius (max 1 ((radius : ℚ) / 2))
        = some kernel
      ∧ GaussianFilter.ApplyFilter expf tempBuffer0 radius imageData w h 4
        = some (GaussianFilter.toBytes final ++ imageData.drop (w * h * 4))
      ∧ final.length = w * h
      ∧ ∀ x y, x < w → y < h →
          final[y * w + x]? = some
            (GaussianFilter.verticalBlur
              (GaussianFilter.horizontalBlur (GaussianFilter.toPixels imageData (w * h))
                kernel radius w)
              kernel radius h x y) := by
  obtain ⟨kernel, hk⟩ := CreateGaussianKernelValues_some expf radius (by omega)
    (max 1 ((radius : ℚ) / 2))
  have h0 : ¬ radius = 0 := by omega
  have hio : (GaussianFilter.toPixels imageData (w * h)).length = w * h := by
    unfold GaussianFilter.toPixels
    rw [List.length_map, List.length_range]
  have htemp : ((List.range (w * h)).map tempBuffer0).length = w * h := by
    rw [List.length_map, List.length_range]
  refine ⟨kernel,
    dispatch2D h w
      (GaussianFilter.TransposeImage
        (dispatch1D (w * h)
          (GaussianFilter.BlurPass
            (dispatch2D w h
              (GaussianFilter.TransposeImage
                (dispatch1D (w * h)
                  (GaussianFilter.BlurPass (GaussianFilter.toPixels imageData (w * h)) kernel
                    radius w h)
                  ((List.range (w * h)).map tempBuffer0)) w h)
              (GaussianFilter.toPixels imageData (w * h)))
            kernel radius h w)
          (dispatch1D (w * h)
            (GaussianFilter.BlurPass (GaussianFilter.toPixels imageData (w * h)) kernel
              radius w h)
            ((List.range (w * h)).map tempBuffer0)))
        h w)
      (dispatch2D w h
        (GaussianFilter.TransposeImage
          (dispatch1D (w * h)
            (GaussianFilter.BlurPass (GaussianFilter.toPixels imageData (w * h)) kernel
              radius w h)
            ((List.range (w * h)).map tempBuffer0)) w h)
        (GaussianFilter.toPixels imageData (w * h))),
    hk, ?_, ?_, ?_⟩
  · unfold GaussianFilter.ApplyFilter
    simp only [h0, if_false, ne_eq, not_true_eq_false, hk]
  · exact (pipeline_cells kernel radius w h hw hh _ _ hio htemp 0 0 (by omega) (by omega)).1
  · intro x y hx hy
    exact (pipeline_cells kernel radius w h hw hh _ _ hio htemp x y hx hy).2

/-- Witness for C23: a `2 x 2` image, radius 1, with the rational stand-in `1 / (1 + x²)`
for `exp`. -/
theorem C23_gaussian_pipeline_is_separable_blur_witness :
    (1 : Int) ≤ 1 ∧ 1 ≤ 2 ∧ 1 ≤ 2 ∧
    ∃ (kernel : List ℚ) (final : List UChar4),
      GaussianFilter.CreateGaussianKernelValues (fun x => 1 / (1 + x * x)) 1
          (max 1 (((1 : Int) : ℚ) / 2))
        = some kernel
      ∧ GaussianFilter.ApplyFilter (fun x => 1 / (1 + x * x)) (fun _ => ⟨9, 9, 9, 9⟩) 1
          [0, 10, 20, 255, 100, 110, 120, 255, 200, 210, 220, 255, 40, 50, 60, 255] 2 2 4
        = some (GaussianFilter.toBytes final ++
            [0, 10, 20, 255, 100, 110, 120, 255, 200, 210, 220, 255, 40, 50, 60, 255].drop
              (2 * 2 * 4))
      ∧ final.length = 2 * 2
      ∧ ∀ x y, x < 2 → y < 2 →
          final[y * 2 + x]? = some
            (GaussianFilter.verticalBlur
              (GaussianFilter.horizontalBlur
                (GaussianFilter.toPixels
                  [0, 10, 20, 255, 100, 110, 120, 255, 200, 210, 220, 255, 40, 50, 60, 255]
                  (2 * 2))
                kernel 1 2)
              kernel 1 2 x y) :=
  ⟨by decide, by decide, by decide,
    C23_gaussian_pipeline_is_separable_blur (fun x => 1 / (1 + x * x)) (fun _ => ⟨9, 9, 9, 9⟩) 1
      (by decide) [0, 10, 20, 255, 100, 110, 120, 255, 200, 210, 220, 255, 40, 50, 60, 255] 2 2
      (by decide) (by decide)⟩

/-! ## Radial blur with intensity 1 -/

section RadialOne

open RadialBlurFilter

theorem truncInt_natCast (n : Nat) : truncInt (n : ℚ) = n := by
  unfold truncInt
  have h : (0 : ℚ) ≤ (n : ℚ) := Nat.cast_nonneg n
  simp only [h, if_true]
  exact Int.floor_natCast n

theorem clamp_natCast (x w : Nat) (hx : x < w) : clamp (x : Int) 0 ((w : Int) - 1) = x := by
  unfold clamp
  omega

theorem radialByte_one (input : List Nat) (w h ch : Nat) (dirX dirY sampleStep : ℚ)
    (x y c : Nat) (hx : x < w) (hy : y < h) :
    radialByte input w h ch dirX dirY sampleStep 1 x y c
      = input.getD ((y * w + x) * ch + c) 0 := by
  unfold radialByte
  have h1 : (1 : Int).toNat = 1 := rfl
  have hidx : (((y : Int) * (w : Int) + (x : Int)) * (ch : Int) + (c : Int)).toNat
      = (y * w + x) * ch + c := by
    have : (((y : Int) * (w : Int) + (x : Int)) * (ch : Int) + (c : Int))
        = (((y * w + x) * ch + c : Nat) : Int) := by push_cast; rfl
    rw [this, Int.toNat_ofNat]
  have hr1 : List.range 1 = [0] := rfl
  simp only [h1, hr1, List.foldl_cons, List.foldl_nil, Nat.cast_zero, zero_mul,
    mul_zero, sub_zero, truncInt_natCast, clamp_natCast x w hx, clamp_natCast y h hy, hidx,
    zero_add, Nat.zero_add]
  exact toUChar_natCast_div_one _

theorem pixelByte_one (sqrtf : ℚ → ℚ) (input : List Nat) (w h ch : Nat)
    (x y c : Nat) (hx : x < w) (hy : y < h) :
    pixelByte sqrtf input w h ch 1 x y c = input.getD ((y * w + x) * ch + c) 0 := by
  unfold pixelByte
  have hn : max (1 : Int) (Int.tdiv 1 2 + 1) = 1 := by decide
  simp only [hn]
  split
  · rfl
  · exact radialByte_one input w h ch _ _ _ x y c hx hy

end RadialOne

/-- C27: radial blur with intensity 1 is the identity transform.  The kernel takes
`numSamples = max(1, 1 / 2 + 1) = 1` sample, whose offset is `0`, so every work-item stores
for every channel the input byte of its own pixel, near the centre or far from it, and for
every image `ApplyFilter` returns the input bytes unchanged, whatever the output buffer
held; `sqrt` is any function. -/
theorem C27_radial_blur_intensity_one_identity (sqrtf : ℚ → ℚ) (outputBuffer0 : Nat → Nat)
    (imageData : List Nat) (width height channels : Nat)
    (hlen : imageData.length = width * height * channels) :
    max (1 : Int) (Int.tdiv 1 2 + 1) = 1
    ∧ (∀ x y c, x < width → y < height →
        RadialBlurFilter.pixelByte sqrtf imageData width height channels 1 x y c
          = imageData.getD ((y * width + x) * channels + c) 0)
    ∧ RadialBlurFilter.ApplyFilter sqrtf outputBuffer0 1 imageData width height channels
        = imageData := by
  refine ⟨by decide, fun x y c hx hy => pixelByte_one sqrtf imageData width height channels
    x y c hx hy, ?_⟩
  unfold RadialBlurFilter.ApplyFilter
  have h0 : ¬ ((1 : Int) ≤ 0) := by decide
  simp only [h0, if_false]
  rw [List.take_of_length_le (by omega), List.drop_of_length_le (by omega), List.append_nil]
  apply dispatch2D_copy width height channels imageData hlen _ _ _ (by simp)
  intro out x y hx hy
  rw [ApplyRadialBlur_eq sqrtf imageData width height channels 1 out x y hx hy]
  apply List.foldl_ext
  intro out c _
  rw [pixelByte_one sqrtf imageData width height channels x y c hx hy]

/-- Witness for C27: a `3 x 3` one-channel image, whose corner pixels are farther than 1
from the centre, with the identity as stand-in for `sqrt`. -/
theorem C27_radial_blur_intensity_one_identity_witness :
    ([10, 20, 30, 40, 50, 60, 70, 80, 90] : List Nat).length = 3 * 3 * 1 ∧
    (max (1 : Int) (Int.tdiv 1 2 + 1) = 1
    ∧ (∀ x y c, x < 3 → y < 3 →
        RadialBlurFilter.pixelByte (fun v => v) [10, 20, 30, 40, 50, 60, 70, 80, 90] 3 3 1 1 x y c
          = ([10, 20, 30, 40, 50, 60, 70, 80, 90] : List Nat).getD ((y * 3 + x) * 1 + c) 0)
    ∧ RadialBlurFilter.ApplyFilter (fun v => v) (fun _ => 99) 1
        [10, 20, 30, 40, 50, 60, 70, 80, 90] 3 3 1
        = [10, 20, 30, 40, 50, 60, 70, 80, 90]) :=
  ⟨by decide, C27_radial_blur_intensity_one_identity (fun v => v) (fun _ => 99)
    [10, 20, 30, 40, 50, 60, 70, 80, 90] 3 3 1 (by decide)⟩

/-! ## Constant images under the averaging filters -/

section ConstantField

end ConstantField

/-! ## Binary32 rounding: exact cases and the error bound -/

section Rounding

open GaussianFilter

end Rounding

/-! ## Motion blur in binary32 -/

section MotionBinary32

open MotionBlurFilter

end MotionBinary32

section ConstantBinary32

open MotionBlurFilter

end ConstantBinary32

end Pp
